import Mathlib

/-!
# IC Checker: a verification development

Shallow embedding of the bench-test firmware `IC Checker` (revision v2.0 unless a
name says otherwise) and theorems about it.

* `Checker.h` / `Checker.c`: the failure predicates, `checkerFailTest`, the three pin
  primitives and the generic test loop `CheckerTestIC`.
* `Button.c`: the latch, `ButtonGet` and the debouncer `ButtonDBReadTask`.
* `main.c`: the descriptors, `ControlTask`, `DisplayResult` and the super loop.
* `SysTick.c`: the tick counter and `SysTickWaitTask`.
* `I2C.c`: `I2CInit`, as far as it writes the registers the checker uses.
* v1.5: `ControlTask`, the failure predicates of `Checker.h` and the descriptors;
  `checkerFailTest` and `CheckerTestIC` of v1.5, whose source file is absent, are modelled
  from the spec in the shape of v2.0.

Machine integers are natural numbers; where the C code narrows a value to eight bits
the embedding writes the reduction `% 256`.  Registers are 32 bits wide.
-/

namespace ICChecker

/-! ## Checker.h -/

/-- Value of the macro `CYCLES_DELAY`. -/
def CYCLES_DELAY : Nat := 10

/-- Value of the macro `TRUE`. -/
def TRUE : Nat := 1

/-- Value of the macro `PASSED`. -/
def PASSED : Nat := 1

/-- Value of the macro `FAILED`. -/
def FAILED : Nat := 0

/-- C logical negation `!x`: 1 when `x` is zero, else 0. -/
def lnot (x : Nat) : Nat := if x = 0 then 1 else 0

/-- Macro `IC_74HC00_FAIL`, that is `(in_A & in_B) != !out`. -/
def IC_74HC00_FAIL (out in_A in_B : Nat) : Bool := (in_A &&& in_B) != lnot out

/-- Macro `IC_74HC02_FAIL`, that is `(in_A | in_B) != !out`. -/
def IC_74HC02_FAIL (out in_A in_B : Nat) : Bool := (in_A ||| in_B) != lnot out

/-- Macro `IC_74HC04_FAIL`, that is `in_A != !out`. -/
def IC_74HC04_FAIL (out in_A : Nat) : Bool := in_A != lnot out

/-- Macro `IC_74HC08_FAIL`, that is `(in_A & in_B) != out`. -/
def IC_74HC08_FAIL (out in_A in_B : Nat) : Bool := (in_A &&& in_B) != out

/-- Macro `IC_74HC10_FAIL`, that is `(in_A & in_B & in_C) != !out`. -/
def IC_74HC10_FAIL (out in_A in_B in_C : Nat) : Bool := (in_A &&& in_B &&& in_C) != lnot out

/-- Macro `IC_74HC20_FAIL`, that is `(in_A & in_B & in_C & in_D) != !out`. -/
def IC_74HC20_FAIL (out in_A in_B in_C in_D : Nat) : Bool :=
  (in_A &&& in_B &&& in_C &&& in_D) != lnot out

/-- Macro `IC_74HC27_FAIL`, that is `(in_A | in_B | in_C) != !out`. -/
def IC_74HC27_FAIL (out in_A in_B in_C : Nat) : Bool := (in_A ||| in_B ||| in_C) != lnot out

/-- Macro `IC_74HC86_FAIL`, that is `(in_A ^ in_B) != out`. -/
def IC_74HC86_FAIL (out in_A in_B : Nat) : Bool := (in_A ^^^ in_B) != out

/-- The enumeration `IC_DESIGNATOR_T`; a C enumeration is an integer type, so a value
outside the eight enumerators can be stored in it. -/
abbrev IC_DESIGNATOR_T := Nat

/-- Enumerator `IC_74HC00`. -/
@[match_pattern] def IC_74HC00 : IC_DESIGNATOR_T := 0
/-- Enumerator `IC_74HC02`. -/
@[match_pattern] def IC_74HC02 : IC_DESIGNATOR_T := 1
/-- Enumerator `IC_74HC04`. -/
@[match_pattern] def IC_74HC04 : IC_DESIGNATOR_T := 2
/-- Enumerator `IC_74HC08`. -/
@[match_pattern] def IC_74HC08 : IC_DESIGNATOR_T := 3
/-- Enumerator `IC_74HC10`. -/
@[match_pattern] def IC_74HC10 : IC_DESIGNATOR_T := 4
/-- Enumerator `IC_74HC20`. -/
@[match_pattern] def IC_74HC20 : IC_DESIGNATOR_T := 5
/-- Enumerator `IC_74HC27`. -/
@[match_pattern] def IC_74HC27 : IC_DESIGNATOR_T := 6
/-- Enumerator `IC_74HC86`. -/
@[match_pattern] def IC_74HC86 : IC_DESIGNATOR_T := 7

/-- The structure `IC_PARAMETERS_T`.  The two pin arrays are lists; an entry the
initialiser does not list reads as 0, like the zero-filled tail of the C arrays. -/
structure IC_PARAMETERS_T where
  ic_designator : IC_DESIGNATOR_T
  num_inputs : Nat
  num_outputs : Nat
  input_pins : List Nat
  output_pins : List Nat
  deriving DecidableEq

/-! ## The board as the firmware sees it -/

/-- One call of a private function of `Checker.c` made by `CheckerTestIC`, in the
order of the calls: the ghost call log of the embedding. -/
inductive Call where
  | set (ic_pin : Nat)
  | clr (ic_pin : Nat)
  | read (ic_pin : Nat) (value : Nat) (delayed : Bool)
  | failTest (ic_id out in_A in_B in_C in_D : Nat)
  deriving DecidableEq

/-- The GPIO ports the checker uses. -/
inductive Port where
  | A
  | B
  | C
  deriving DecidableEq

/-- The registers of one GPIO port that the firmware writes. -/
structure GPIO_TypeDef where
  MODER : Nat
  ODR : Nat
  deriving DecidableEq

/-- The registers of timer TIM22 that the firmware uses. -/
structure TIM_TypeDef where
  CR1 : Nat
  SR : Nat
  ARR : Nat
  deriving DecidableEq

/-- Hardware state touched by `Checker.c`, with the call log. -/
structure HW where
  GPIOA : GPIO_TypeDef
  GPIOB : GPIO_TypeDef
  GPIOC : GPIO_TypeDef
  TIM22 : TIM_TypeDef
  trace : List Call
  deriving DecidableEq

/-- The chip under test and the wiring around it: the content of a port's input data
register `IDR` at the moment the firmware samples it, which may depend on everything
the firmware has done so far (registers and call log). -/
abbrev Board := HW → Port → Nat

/-- Register access `GPIOx`. -/
def HW.port (hw : HW) : Port → GPIO_TypeDef
  | Port.A => hw.GPIOA
  | Port.B => hw.GPIOB
  | Port.C => hw.GPIOC

/-- Register write to `GPIOx`. -/
def HW.setPort (hw : HW) (p : Port) (g : GPIO_TypeDef) : HW :=
  match p with
  | Port.A => { hw with GPIOA := g }
  | Port.B => { hw with GPIOB := g }
  | Port.C => { hw with GPIOC := g }

/-- Appends one entry to the call log. -/
def HW.log (hw : HW) (c : Call) : HW := { hw with trace := hw.trace ++ [c] }

/-- The 32-bit operation `reg & ~mask`. -/
def clearBits (reg mask : Nat) : Nat := reg &&& (0xFFFFFFFF ^^^ mask)

/-- Modelled from the spec: the device header `stm32l053xx.h` is not among the sources and
the spec leaves pin access abstract; `GPIO_MODER_MODEn_Msk` is the two-bit mode field of
line `n`. -/
def GPIO_MODER_MODE_Msk (n : Nat) : Nat := 3 <<< (2 * n)

/-- Modelled from the spec: the device header is not among the sources;
`GPIO_MODER_MODEn_0` is the low bit of the mode field of line `n` (mode 01, output). -/
def GPIO_MODER_MODE_0 (n : Nat) : Nat := 1 <<< (2 * n)

/-- Modelled from the spec: the device header is not among the sources; `GPIO_ODR_ODn`
is bit `n` of the output data register. -/
def GPIO_ODR_OD (n : Nat) : Nat := 1 <<< n

/-- Modelled from the spec: the device header is not among the sources;
`GPIO_IDR_IDn_Msk` is bit `n` of the input data register. -/
def GPIO_IDR_ID_Msk (n : Nat) : Nat := 1 <<< n

/-- Modelled from the spec: the device header is not among the sources; `TIM_CR1_CEN`
is the counter enable bit. -/
def TIM_CR1_CEN : Nat := 1

/-- Modelled from the spec: the device header is not among the sources; `TIM_CR1_OPM`
is the one-pulse mode bit. -/
def TIM_CR1_OPM : Nat := 8

/-- Modelled from the spec: the device header is not among the sources;
`TIM_SR_UIF_Msk` is the update interrupt flag. -/
def TIM_SR_UIF_Msk : Nat := 1

/-! ## Checker.c -/

/-- Macro `INPUT_A_LOOP_SKIP`. -/
def INPUT_A_LOOP_SKIP (loop_skip_field : Nat) : Nat := loop_skip_field &&& 0x01

/-- Macro `INPUT_B_LOOP_SKIP`. -/
def INPUT_B_LOOP_SKIP (loop_skip_field : Nat) : Nat := (loop_skip_field &&& 0x02) >>> 1

/-- Macro `INPUT_C_LOOP_SKIP`. -/
def INPUT_C_LOOP_SKIP (loop_skip_field : Nat) : Nat := (loop_skip_field &&& 0x04) >>> 2

/-- Macro `INPUT_D_LOOP_SKIP`. -/
def INPUT_D_LOOP_SKIP (loop_skip_field : Nat) : Nat := (loop_skip_field &&& 0x08) >>> 3

/-- The three statements of one case of `checkerSetICInput`:
`GPIOx->MODER &= ~MODEn_Msk; GPIOx->MODER |= MODEn_0; GPIOx->ODR |= ODn;`. -/
def setLine (p : Port) (n : Nat) (hw : HW) : HW :=
  let g := hw.port p
  let moder := clearBits g.MODER (GPIO_MODER_MODE_Msk n)
  let moder := moder ||| GPIO_MODER_MODE_0 n
  hw.setPort p { MODER := moder, ODR := g.ODR ||| GPIO_ODR_OD n }

/-- The three statements of one case of `checkerClrICInput`:
`GPIOx->MODER &= ~MODEn_Msk; GPIOx->MODER |= MODEn_0; GPIOx->ODR &= ~(ODn);`. -/
def clrLine (p : Port) (n : Nat) (hw : HW) : HW :=
  let g := hw.port p
  let moder := clearBits g.MODER (GPIO_MODER_MODE_Msk n)
  let moder := moder ||| GPIO_MODER_MODE_0 n
  hw.setPort p { MODER := moder, ODR := clearBits g.ODR (GPIO_ODR_OD n) }

/-- The function `checkerSetICInput`. -/
def checkerSetICInput (ic_pin : Nat) (hw : HW) : HW :=
  let hw := hw.log (Call.set ic_pin)
  match ic_pin with
  | 1 => setLine Port.A 10 hw
  | 2 => setLine Port.B 3 hw
  | 3 => setLine Port.B 5 hw
  | 4 => setLine Port.B 4 hw
  | 5 => setLine Port.B 10 hw
  | 6 => setLine Port.A 8 hw
  | 8 => setLine Port.A 9 hw
  | 9 => setLine Port.C 7 hw
  | 10 => setLine Port.B 6 hw
  | 11 => setLine Port.A 7 hw
  | 12 => setLine Port.A 6 hw
  | 13 => setLine Port.A 5 hw
  | _ => hw

/-- The function `checkerClrICInput`. -/
def checkerClrICInput (ic_pin : Nat) (hw : HW) : HW :=
  let hw := hw.log (Call.clr ic_pin)
  match ic_pin with
  | 1 => clrLine Port.A 10 hw
  | 2 => clrLine Port.B 3 hw
  | 3 => clrLine Port.B 5 hw
  | 4 => clrLine Port.B 4 hw
  | 5 => clrLine Port.B 10 hw
  | 6 => clrLine Port.A 8 hw
  | 8 => clrLine Port.A 9 hw
  | 9 => clrLine Port.C 7 hw
  | 10 => clrLine Port.B 6 hw
  | 11 => clrLine Port.A 7 hw
  | 12 => clrLine Port.A 6 hw
  | 13 => clrLine Port.A 5 hw
  | _ => hw

/-- The function `checkerSetClrInputs`.  The pointer `input_pins` is the list of the
descriptor, read with `getD`.  An index past the array `input_pins[9]` of the descriptor
is outside the C object; the list then yields 0, so what is stated about the pin such an
index selects holds of the code only for descriptors with `num_inputs ≤ 9`, for which
every index `CheckerTestIC` passes lies inside the array. -/
def checkerSetClrInputs (input_pins : List Nat) (input_value gate_start input_offset : Nat)
    (hw : HW) : HW :=
  if input_value = 0 then
    checkerClrICInput (input_pins.getD (gate_start + input_offset) 0) hw
  else if input_value = 1 then
    checkerSetICInput (input_pins.getD (gate_start + input_offset) 0) hw
  else hw

/-- The two statements `TIM22->CR1 |= TIM_CR1_CEN; while((TIM22->SR & TIM_SR_UIF_Msk) == 0){}`.
The loop body is empty and nothing in the firmware clears the flag: when the flag is
already set the loop ends at once (no delay), otherwise it ends when the timer hardware
raises the flag at the update event of the counter just enabled.  The result tells
whether the loop waited. -/
def tim22Wait (hw : HW) : Bool × HW :=
  let cr1 := hw.TIM22.CR1 ||| TIM_CR1_CEN
  let waited := (hw.TIM22.SR &&& TIM_SR_UIF_Msk) == 0
  (waited, { hw with TIM22 := { hw.TIM22 with CR1 := cr1, SR := hw.TIM22.SR ||| TIM_SR_UIF_Msk } })

/-- The four statements of one case of `checkerReadICOutput`:
`GPIOx->MODER &= ~(MODEn); TIM22->CR1 |= TIM_CR1_CEN; while(...){};
return ((GPIOy->IDR & IDm_Msk) >> s);`. -/
def readLine (board : Board) (ic_pin : Nat) (p : Port) (n : Nat) (q : Port) (m s : Nat)
    (hw : HW) : Nat × HW :=
  let g := hw.port p
  let hw := hw.setPort p { g with MODER := clearBits g.MODER (GPIO_MODER_MODE_Msk n) }
  let (waited, hw) := tim22Wait hw
  let value := ((board hw q) &&& GPIO_IDR_ID_Msk m) >>> s
  (value, hw.log (Call.read ic_pin value waited))

/-- The function `checkerReadICOutput`. -/
def checkerReadICOutput (board : Board) (ic_pin : Nat) (hw : HW) : Nat × HW :=
  match ic_pin with
  | 1 => readLine board ic_pin Port.A 10 Port.A 10 10 hw
  | 2 => readLine board ic_pin Port.B 3 Port.B 3 3 hw
  | 3 => readLine board ic_pin Port.B 5 Port.B 5 5 hw
  | 4 => readLine board ic_pin Port.B 4 Port.B 4 4 hw
  | 5 => readLine board ic_pin Port.B 10 Port.B 10 10 hw
  | 6 => readLine board ic_pin Port.A 8 Port.A 8 8 hw
  | 8 => readLine board ic_pin Port.A 9 Port.A 9 9 hw
  | 9 => readLine board ic_pin Port.C 7 Port.C 7 7 hw
  | 10 => readLine board ic_pin Port.B 6 Port.B 6 6 hw
  | 11 => readLine board ic_pin Port.A 7 Port.A 7 7 hw
  | 12 => readLine board ic_pin Port.A 6 Port.A 6 6 hw
  | 13 => readLine board ic_pin Port.A 5 Port.A 5 5 hw
  | _ => (0xFF, hw.log (Call.read ic_pin 0xFF false))

/-- The function `checkerFailTest`. -/
def checkerFailTest (ic_id : IC_DESIGNATOR_T) (out in_A in_B in_C in_D : Nat) : Nat :=
  match ic_id with
  | IC_74HC00 => if IC_74HC00_FAIL out in_A in_B then FAILED else PASSED
  | IC_74HC02 => if IC_74HC02_FAIL out in_A in_B then FAILED else PASSED
  | IC_74HC04 => if IC_74HC04_FAIL out in_A then FAILED else PASSED
  | IC_74HC08 => if IC_74HC08_FAIL out in_A in_B then FAILED else PASSED
  | IC_74HC10 => if IC_74HC10_FAIL out in_A in_B in_C then FAILED else PASSED
  | IC_74HC20 => if IC_74HC20_FAIL out in_A in_B in_C in_D then FAILED else PASSED
  | IC_74HC27 => if IC_74HC27_FAIL out in_A in_B in_C then FAILED else PASSED
  | IC_74HC86 => if IC_74HC86_FAIL out in_A in_B then FAILED else PASSED
  | _ => FAILED

/-- Loop with early exit: runs `body` on the values of `xs` in order, threading the
state; a body that yields `some r` is a `return r` out of the enclosing function. -/
def forEach {α σ : Type} (xs : List α) (body : α → σ → Option Nat × σ) (s : σ) :
    Option Nat × σ :=
  match xs with
  | [] => (none, s)
  | x :: rest =>
    match body x s with
    | (some r, s') => (some r, s')
    | (none, s') => forEach rest body s'

/-- Values the control variable of `for(uint8_t x = start; x < 2; x++)` takes. -/
def laneValues (start : Nat) : List Nat := List.range' start (2 - start)

/-- First part of the body of the innermost loop of `CheckerTestIC` (lines 117 to 122):
the active lanes are driven, then the output pin of the gate is sampled.  Yields the
value of `test_output` and the state left. -/
def applyVector (board : Board) (IC : IC_PARAMETERS_T)
    (loop_skip_field gate_start_index gate_num : Nat)
    (gate_input_A gate_input_B gate_input_C gate_input_D : Nat) (hw : HW) : Nat × HW :=
  let hw := if INPUT_A_LOOP_SKIP loop_skip_field != TRUE then
      checkerSetClrInputs IC.input_pins gate_input_A gate_start_index 0 hw else hw
  let hw := if INPUT_B_LOOP_SKIP loop_skip_field != TRUE then
      checkerSetClrInputs IC.input_pins gate_input_B gate_start_index 1 hw else hw
  let hw := if INPUT_C_LOOP_SKIP loop_skip_field != TRUE then
      checkerSetClrInputs IC.input_pins gate_input_C gate_start_index 2 hw else hw
  let hw := if INPUT_D_LOOP_SKIP loop_skip_field != TRUE then
      checkerSetClrInputs IC.input_pins gate_input_D gate_start_index 3 hw else hw
  checkerReadICOutput board (IC.output_pins.getD gate_num 0) hw

/-- Body of the innermost loop of `CheckerTestIC` (lines 117 to 126); the call of
`checkerFailTest` is entered in the call log. -/
def vectorBody (board : Board) (IC : IC_PARAMETERS_T)
    (loop_skip_field gate_start_index gate_num : Nat)
    (gate_input_A gate_input_B gate_input_C gate_input_D : Nat) (hw : HW) : Option Nat × HW :=
  let r := applyVector board IC loop_skip_field gate_start_index gate_num
    gate_input_A gate_input_B gate_input_C gate_input_D hw
  let test_output := r.1
  let fail_result := checkerFailTest IC.ic_designator test_output
    gate_input_A gate_input_B gate_input_C gate_input_D
  let hw := r.2.log (Call.failTest IC.ic_designator test_output
    gate_input_A gate_input_B gate_input_C gate_input_D)
  if fail_result = FAILED then (some FAILED, hw) else (none, hw)

/-- The four nested lane loops of `CheckerTestIC` for one gate (lines 109 to 130). -/
def laneLoops (board : Board) (IC : IC_PARAMETERS_T)
    (loop_skip_field gate_start_index gate_num : Nat) (hw : HW) : Option Nat × HW :=
  forEach (laneValues (INPUT_A_LOOP_SKIP loop_skip_field)) (fun gate_input_A =>
    forEach (laneValues (INPUT_B_LOOP_SKIP loop_skip_field)) (fun gate_input_B =>
      forEach (laneValues (INPUT_C_LOOP_SKIP loop_skip_field)) (fun gate_input_C =>
        forEach (laneValues (INPUT_D_LOOP_SKIP loop_skip_field)) (fun gate_input_D =>
          vectorBody board IC loop_skip_field gate_start_index gate_num
            gate_input_A gate_input_B gate_input_C gate_input_D)))) hw

/-- The gate loop of `CheckerTestIC` (lines 107 to 133) over the remaining values of
`gate_num`; `gate_start_index` is an eight-bit variable. -/
def gateLoop (board : Board) (IC : IC_PARAMETERS_T) (num_inputs_gate loop_skip_field : Nat) :
    List Nat → Nat → HW → Nat × HW
  | [], _, hw => (PASSED, hw)
  | gate_num :: rest, gate_start_index, hw =>
    match laneLoops board IC loop_skip_field gate_start_index gate_num hw with
    | (some r, hw') => (r, hw')
    | (none, hw') =>
      gateLoop board IC num_inputs_gate loop_skip_field rest
        ((gate_start_index + num_inputs_gate) % 256) hw'

/-- The function `CheckerTestIC`: the verdict and the hardware state it leaves.
(`num_outputs = 0` is a division by zero in C; here the quotient is then 0 and the gate
loop does not run.) -/
def CheckerTestIC (board : Board) (IC : IC_PARAMETERS_T) (hw : HW) : Nat × HW :=
  let num_gates := IC.num_outputs
  let num_inputs_gate := IC.num_inputs / IC.num_outputs
  let loop_skip_field := (0xFF <<< num_inputs_gate) % 256
  gateLoop board IC num_inputs_gate loop_skip_field (List.range' 0 num_gates) 0 hw

/-! ## Button.c (latch) -/

/-- Value of the macro `PRESSED` (`Button.h`; the v2.0 header is not among the sources,
the v1.5 header defines it as 1). -/
def PRESSED : Nat := 1

/-- Value of the macro `NOT_PRESSED` (`Button.h` of v1.5). -/
def NOT_PRESSED : Nat := 0

/-! ## main.c -/

/-- Macro `MASK_FAILURE`. -/
@[match_pattern] def MASK_FAILURE : Nat := 0x00000000
/-- Macro `MASK_74HC00`. -/
@[match_pattern] def MASK_74HC00 : Nat := 0x00000001
/-- Macro `MASK_74HC02`. -/
@[match_pattern] def MASK_74HC02 : Nat := 0x00000002
/-- Macro `MASK_74HC04`. -/
@[match_pattern] def MASK_74HC04 : Nat := 0x00000004
/-- Macro `MASK_74HC08`. -/
@[match_pattern] def MASK_74HC08 : Nat := 0x00000008
/-- Macro `MASK_74HC10`. -/
@[match_pattern] def MASK_74HC10 : Nat := 0x00000010
/-- Macro `MASK_74HC20`. -/
@[match_pattern] def MASK_74HC20 : Nat := 0x00000020
/-- Macro `MASK_74HC27`. -/
@[match_pattern] def MASK_74HC27 : Nat := 0x00000040
/-- Macro `MASK_74HC86`. -/
@[match_pattern] def MASK_74HC86 : Nat := 0x00000080

/-- The enumeration `CONTROL_STATE_T` (an integer type, hence the `default` branch). -/
abbrev CONTROL_STATE_T := Nat

/-- Enumerator `IDLE`. -/
@[match_pattern] def IDLE : CONTROL_STATE_T := 0
/-- Enumerator `CHECK_74HC00`. -/
@[match_pattern] def CHECK_74HC00 : CONTROL_STATE_T := 1
/-- Enumerator `CHECK_74HC02`. -/
@[match_pattern] def CHECK_74HC02 : CONTROL_STATE_T := 2
/-- Enumerator `CHECK_74HC04`. -/
@[match_pattern] def CHECK_74HC04 : CONTROL_STATE_T := 3
/-- Enumerator `CHECK_74HC08`. -/
@[match_pattern] def CHECK_74HC08 : CONTROL_STATE_T := 4
/-- Enumerator `CHECK_74HC10`. -/
@[match_pattern] def CHECK_74HC10 : CONTROL_STATE_T := 5
/-- Enumerator `CHECK_74HC20`. -/
@[match_pattern] def CHECK_74HC20 : CONTROL_STATE_T := 6
/-- Enumerator `CHECK_74HC27`. -/
@[match_pattern] def CHECK_74HC27 : CONTROL_STATE_T := 7
/-- Enumerator `CHECK_74HC86`. -/
@[match_pattern] def CHECK_74HC86 : CONTROL_STATE_T := 8
/-- Enumerator `DISPLAY_RESULT`. -/
@[match_pattern] def DISPLAY_RESULT : CONTROL_STATE_T := 9

/-- Constant `IC_74HC00_PARAM`. -/
def IC_74HC00_PARAM : IC_PARAMETERS_T :=
  { ic_designator := IC_74HC00, num_inputs := 8, num_outputs := 4,
    input_pins := [1, 2, 4, 5, 9, 10, 12, 13], output_pins := [3, 6, 8, 11] }

/-- Constant `IC_74HC02_PARAM`. -/
def IC_74HC02_PARAM : IC_PARAMETERS_T :=
  { ic_designator := IC_74HC02, num_inputs := 8, num_outputs := 4,
    input_pins := [2, 3, 5, 6, 8, 9, 11, 12], output_pins := [1, 4, 10, 13] }

/-- Constant `IC_74HC04_PARAM`. -/
def IC_74HC04_PARAM : IC_PARAMETERS_T :=
  { ic_designator := IC_74HC04, num_inputs := 6, num_outputs := 6,
    input_pins := [1, 3, 5, 9, 11, 13], output_pins := [2, 4, 6, 8, 10, 12] }

/-- Constant `IC_74HC08_PARAM`. -/
def IC_74HC08_PARAM : IC_PARAMETERS_T :=
  { ic_designator := IC_74HC08, num_inputs := 8, num_outputs := 4,
    input_pins := [1, 2, 4, 5, 9, 10, 12, 13], output_pins := [3, 6, 8, 11] }

/-- Constant `IC_74HC10_PARAM`. -/
def IC_74HC10_PARAM : IC_PARAMETERS_T :=
  { ic_designator := IC_74HC10, num_inputs := 9, num_outputs := 3,
    input_pins := [1, 2, 13, 3, 4, 5, 9, 10, 11], output_pins := [12, 6, 8] }

/-- Constant `IC_74HC20_PARAM`. -/
def IC_74HC20_PARAM : IC_PARAMETERS_T :=
  { ic_designator := IC_74HC20, num_inputs := 8, num_outputs := 2,
    input_pins := [1, 2, 4, 5, 9, 10, 12, 13], output_pins := [6, 8] }

/-- Constant `IC_74HC27_PARAM`. -/
def IC_74HC27_PARAM : IC_PARAMETERS_T :=
  { ic_designator := IC_74HC27, num_inputs := 9, num_outputs := 3,
    input_pins := [1, 2, 13, 3, 4, 5, 9, 10, 11], output_pins := [12, 6, 8] }

/-- Constant `IC_74HC86_PARAM`. -/
def IC_74HC86_PARAM : IC_PARAMETERS_T :=
  { ic_designator := IC_74HC86, num_inputs := 8, num_outputs := 4,
    input_pins := [1, 2, 4, 5, 9, 10, 12, 13], output_pins := [3, 6, 8, 11] }

/-- One call of the public interface of `LCD.c`, in the order of the calls. -/
inductive LcdCall where
  | clearDisplay
  | moveCursor (column row : Nat)
  | displayString (text : String)
  deriving DecidableEq

/-- Constant `TestingPrompt`. -/
def TestingPrompt : String := "Testing..."
/-- Constant `FailPrompt`. -/
def FailPrompt : String := "Test Fail"
/-- Constant `Pass74HC00Prompt`. -/
def Pass74HC00Prompt : String := "74HC00 Passed"
/-- Constant `Pass74HC02Prompt`. -/
def Pass74HC02Prompt : String := "74HC02 Passed"
/-- Constant `Pass74HC04Prompt`. -/
def Pass74HC04Prompt : String := "74HC04 Passed"
/-- Constant `Pass74HC08Prompt`. -/
def Pass74HC08Prompt : String := "74HC08 Passed"
/-- Constant `Pass74HC10Prompt`. -/
def Pass74HC10Prompt : String := "74HC10 Passed"
/-- Constant `Pass74HC20Prompt`. -/
def Pass74HC20Prompt : String := "74HC20 Passed"
/-- Constant `Pass74HC27Prompt`. -/
def Pass74HC27Prompt : String := "74HC27 Passed"
/-- Constant `Pass74HC86Prompt`. -/
def Pass74HC86Prompt : String := "74HC86 Passed"
/-- Constant `MultiPrompt`. -/
def MultiPrompt : String := "Multipass Error"

/-- State of the firmware between two calls of its tasks: the hardware of the checker,
the calls made to the display so far, the latch of `Button.c`, the static variables of
`ButtonDBReadTask` and the static variables of `ControlTask`. -/
structure State where
  hw : HW
  lcd : List LcdCall
  buttonLatch : Nat
  slice_counter : Nat
  button_state : Nat
  control_state : CONTROL_STATE_T
  result_field : Nat
  deriving DecidableEq

/-- The three display calls every branch of the firmware makes to show a prompt:
`LCDClearDisplay(); LCDMoveCursor(1U,1U); LCDDisplayString(prompt);`. -/
def showPrompt (prompt : String) (s : State) : State :=
  { s with lcd := s.lcd ++
      [LcdCall.clearDisplay, LcdCall.moveCursor 1 1, LcdCall.displayString prompt] }

/-- The function `ButtonGet`: the value returned and the state left. -/
def ButtonGet (s : State) : Nat × State :=
  let button_temp := s.buttonLatch
  let s := if button_temp = PRESSED then { s with buttonLatch := NOT_PRESSED } else s
  (button_temp, s)

/-- The function `DisplayResult`. -/
def DisplayResult (result_field : Nat) (s : State) : State :=
  match result_field with
  | MASK_FAILURE => showPrompt FailPrompt s
  | MASK_74HC00 => showPrompt Pass74HC00Prompt s
  | MASK_74HC02 => showPrompt Pass74HC02Prompt s
  | MASK_74HC04 => showPrompt Pass74HC04Prompt s
  | MASK_74HC08 => showPrompt Pass74HC08Prompt s
  | MASK_74HC10 => showPrompt Pass74HC10Prompt s
  | MASK_74HC20 => showPrompt Pass74HC20Prompt s
  | MASK_74HC27 => showPrompt Pass74HC27Prompt s
  | MASK_74HC86 => showPrompt Pass74HC86Prompt s
  | _ => showPrompt MultiPrompt s

/-- One `CHECK_74HCxx` case of `ControlTask`:
`if(CheckerTestIC(PARAM) == PASSED) result_field |= MASK; control_state = next;`. -/
def checkCase (board : Board) (IC : IC_PARAMETERS_T) (mask : Nat) (next : CONTROL_STATE_T)
    (s : State) : State :=
  let r := CheckerTestIC board IC s.hw
  let s := { s with hw := r.2 }
  let s := if r.1 = PASSED then { s with result_field := s.result_field ||| mask } else s
  { s with control_state := next }

/-- The function `ControlTask` of v2.0. -/
def ControlTask (board : Board) (s : State) : State :=
  match s.control_state with
  | IDLE =>
    let r := ButtonGet s
    if r.1 = PRESSED then
      { showPrompt TestingPrompt r.2 with control_state := CHECK_74HC00 }
    else
      { r.2 with control_state := IDLE }
  | CHECK_74HC00 => checkCase board IC_74HC00_PARAM MASK_74HC00 CHECK_74HC02 s
  | CHECK_74HC02 => checkCase board IC_74HC02_PARAM MASK_74HC02 CHECK_74HC04 s
  | CHECK_74HC04 => checkCase board IC_74HC04_PARAM MASK_74HC04 CHECK_74HC08 s
  | CHECK_74HC08 => checkCase board IC_74HC08_PARAM MASK_74HC08 CHECK_74HC10 s
  | CHECK_74HC10 => checkCase board IC_74HC10_PARAM MASK_74HC10 CHECK_74HC20 s
  | CHECK_74HC20 => checkCase board IC_74HC20_PARAM MASK_74HC20 CHECK_74HC27 s
  | CHECK_74HC27 => checkCase board IC_74HC27_PARAM MASK_74HC27 CHECK_74HC86 s
  | CHECK_74HC86 => checkCase board IC_74HC86_PARAM MASK_74HC86 DISPLAY_RESULT s
  | DISPLAY_RESULT =>
    let s := DisplayResult s.result_field s
    { s with result_field := 0x00000000, control_state := IDLE }
  | _ => { s with result_field := 0x00000000 }

/-! ## main.c of v1.5 -/

namespace V15

/-- One call of the public interface of `LED.c` made by `ControlTask`. -/
inductive LedCall where
  | LEDRedOn
  | LEDGreenOn
  | LEDOrangeOn
  deriving DecidableEq

/-- State of the v1.5 firmware between two calls of its tasks: the hardware of the
checker, the calls made to the indicator light so far, the latch of the button module and
the static variables of `ControlTask`. -/
structure State where
  hw : HW
  led : List LedCall
  buttonLatch : Nat
  control_state : CONTROL_STATE_T
  result_field : Nat
  deriving DecidableEq

/-- Modelled from the spec: `Button.c` of v1.5 is not among the sources, only its header,
which declares `ButtonGet` with the description of v2.0 (the spec: returns true and clears
the latch iff a confirmed press is pending). -/
def ButtonGet (s : State) : Nat × State :=
  let button_temp := s.buttonLatch
  let s := if button_temp = PRESSED then { s with buttonLatch := NOT_PRESSED } else s
  (button_temp, s)

/-- One `CHECK_74HCxx` case of the v1.5 `ControlTask`.  `Checker.c` of v1.5 is not among
the sources: its `CheckerTestIC` is the parameter `test`. -/
def checkCase (test : IC_PARAMETERS_T → HW → Nat × HW) (IC : IC_PARAMETERS_T) (mask : Nat)
    (next : CONTROL_STATE_T) (s : State) : State :=
  let r := test IC s.hw
  let s := { s with hw := r.2 }
  let s := if r.1 = PASSED then { s with result_field := s.result_field ||| mask } else s
  { s with control_state := next }

/-- The function `ControlTask` of v1.5; `result_field - 1` is 32-bit arithmetic. -/
def ControlTask (test : IC_PARAMETERS_T → HW → Nat × HW) (s : State) : State :=
  match s.control_state with
  | IDLE =>
    let r := ButtonGet s
    if r.1 = PRESSED then
      { r.2 with control_state := CHECK_74HC00 }
    else
      { r.2 with control_state := IDLE }
  | CHECK_74HC00 => checkCase test IC_74HC00_PARAM MASK_74HC00 CHECK_74HC02 s
  | CHECK_74HC02 => checkCase test IC_74HC02_PARAM MASK_74HC02 CHECK_74HC04 s
  | CHECK_74HC04 => checkCase test IC_74HC04_PARAM MASK_74HC04 CHECK_74HC08 s
  | CHECK_74HC08 => checkCase test IC_74HC08_PARAM MASK_74HC08 CHECK_74HC10 s
  | CHECK_74HC10 => checkCase test IC_74HC10_PARAM MASK_74HC10 CHECK_74HC20 s
  | CHECK_74HC20 => checkCase test IC_74HC20_PARAM MASK_74HC20 CHECK_74HC27 s
  | CHECK_74HC27 => checkCase test IC_74HC27_PARAM MASK_74HC27 CHECK_74HC86 s
  | CHECK_74HC86 => checkCase test IC_74HC86_PARAM MASK_74HC86 DISPLAY_RESULT s
  | DISPLAY_RESULT =>
    let s :=
      if s.result_field = 0x0000 then
        { s with led := s.led ++ [LedCall.LEDRedOn] }
      else if s.result_field &&& ((s.result_field + 0xFFFFFFFF) % 2 ^ 32) = 0x0000 then
        { s with led := s.led ++ [LedCall.LEDGreenOn] }
      else
        { s with led := s.led ++ [LedCall.LEDOrangeOn] }
    { s with result_field := 0x00000000, control_state := IDLE }
  | _ => { s with result_field := 0x00000000 }

/-- The state after `n` successive calls of the v1.5 `ControlTask`. -/
def ControlTaskN (test : IC_PARAMETERS_T → HW → Nat × HW) : Nat → State → State
  | 0, s => s
  | n + 1, s => ControlTask test (ControlTaskN test n s)

end V15

/-! ## Button.c (debouncer) -/

/-- The enumeration `BUTTON_STATE_T` (an integer type, hence the `default` branch). -/
abbrev BUTTON_STATE_T := Nat

/-- Enumerator `BUTTON_UP`. -/
@[match_pattern] def BUTTON_UP : BUTTON_STATE_T := 0
/-- Enumerator `BUTTON_EDGE`. -/
@[match_pattern] def BUTTON_EDGE : BUTTON_STATE_T := 1
/-- Enumerator `BUTTON_VERF`. -/
@[match_pattern] def BUTTON_VERF : BUTTON_STATE_T := 2
/-- Enumerator `BUTTON_HELD`. -/
@[match_pattern] def BUTTON_HELD : BUTTON_STATE_T := 3

/-- Macro `BUTTON_STATE`, that is `(GPIOC->IDR & GPIO_IDR_ID0_Msk)`; `idr` is the content
of the input data register of port C at the moment of the call. -/
def BUTTON_STATE (idr : Nat) : Nat := idr &&& GPIO_IDR_ID_Msk 0

/-- Value of the macro `BUTTON_PRESSED`. -/
def BUTTON_PRESSED : Nat := 0x0001

/-- The function `ButtonDBReadTask`; `idr` is the content of `GPIOC->IDR` it reads.
`slice_counter` is an eight-bit variable. -/
def ButtonDBReadTask (idr : Nat) (s : State) : State :=
  let button_temp := BUTTON_STATE idr
  if s.slice_counter > 0 then
    let s := { s with slice_counter := 0 }
    match s.button_state with
    | BUTTON_UP =>
      if button_temp = BUTTON_PRESSED then { s with button_state := BUTTON_EDGE }
      else { s with button_state := BUTTON_UP }
    | BUTTON_EDGE =>
      if button_temp = BUTTON_PRESSED then { s with button_state := BUTTON_VERF }
      else { s with button_state := BUTTON_UP }
    | BUTTON_VERF => { s with buttonLatch := PRESSED, button_state := BUTTON_HELD }
    | BUTTON_HELD =>
      if button_temp = BUTTON_PRESSED then { s with button_state := BUTTON_HELD }
      else { s with button_state := BUTTON_UP }
    | _ => { s with button_state := BUTTON_UP }
  else
    { s with slice_counter := (s.slice_counter + 1) % 256 }

/-! ## main.c (super loop) -/

/-- One pass of the super loop of `main` once `SysTickWaitTask` has returned:
`ButtonDBReadTask(); ControlTask();`.  `idr` is the content of `GPIOC->IDR` during the
pass.  (`SysTickWaitTask` only touches the statics of `SysTick.c`, modelled apart.) -/
def superLoop (board : Board) (idr : Nat) (s : State) : State :=
  ControlTask board (ButtonDBReadTask idr s)

/-! ## SysTick.c -/

/-- The static variables of `SysTick.c`; the two counts are 32 bits wide, the flag 8. -/
structure SysTick where
  systickCurrentCount : Nat
  systickLastCount : Nat
  systickInitFlag : Nat
  deriving DecidableEq

/-- Value of the macro `CLKCYCLES_ONE_MS`. -/
def CLKCYCLES_ONE_MS : Nat := 2097

/-- The function `SysTickInit`.  `SysTick_Config` belongs to the core header, which is not
among the sources: the value it returns is the parameter `st_error`. -/
def SysTickInit (st_error : Nat) (t : SysTick) : Nat × SysTick :=
  (st_error, { t with systickCurrentCount := 0, systickInitFlag := 1 })

/-- The interrupt handler `SysTick_Handler`: `systickCurrentCount++` on 32 bits. -/
def SysTick_Handler (t : SysTick) : SysTick :=
  { t with systickCurrentCount := (t.systickCurrentCount + 1) % 4294967296 }

/-- The 32-bit difference `systickCurrentCount - systickLastCount`. -/
def systickElapsed (t : SysTick) : Nat :=
  (t.systickCurrentCount + 4294967296 - t.systickLastCount) % 4294967296

/-- The loop `while((systickCurrentCount - systickLastCount) < ts_period){}`.  The body is
empty: the loop spins until `SysTick_Handler` has advanced the count far enough.  `fuel`
bounds the number of interrupts the loop may wait for; `none` means the bound was reached
with the condition still true. -/
def sysTickWaitLoop (ts_period : Nat) : Nat → SysTick → Option SysTick
  | 0, t => if systickElapsed t < ts_period then none else some t
  | fuel + 1, t =>
    if systickElapsed t < ts_period then sysTickWaitLoop ts_period fuel (SysTick_Handler t)
    else some t

/-- The function `SysTickWaitTask`, with the bound `fuel` of its waiting loop. -/
def SysTickWaitTask (fuel : Nat) (ts_period : Nat) (t : SysTick) : Option SysTick :=
  let r :=
    if t.systickInitFlag = 0 then sysTickWaitLoop ts_period fuel t
    else some { t with systickInitFlag := 0 }
  r.map (fun t => { t with systickLastCount := t.systickCurrentCount })

/-! ## Checker.h of v1.5 -/

namespace V15

/-- Macro `IC_74HC00_FAIL` of v1.5, that is `(in_A & in_B) != ~out`.  The operands are the
eight-bit arguments of `checkerFailTest`; C promotes them to `int` before `&`, `~` and `!=`,
so `~out` is the integer `-out - 1`. -/
def IC_74HC00_FAIL (out in_A in_B : Nat) : Bool :=
  ((in_A &&& in_B : Nat) : Int) != ~~~ (out : Int)

/-- Macro `IC_74HC02_FAIL` of v1.5, that is `(in_A | in_B) != ~out`. -/
def IC_74HC02_FAIL (out in_A in_B : Nat) : Bool :=
  ((in_A ||| in_B : Nat) : Int) != ~~~ (out : Int)

/-- Macro `IC_74HC04_FAIL` of v1.5, that is `in_A != !out`. -/
def IC_74HC04_FAIL (out in_A : Nat) : Bool := in_A != lnot out

/-- Macro `IC_74HC08_FAIL` of v1.5, that is `(in_A & in_B) != out`. -/
def IC_74HC08_FAIL (out in_A in_B : Nat) : Bool := (in_A &&& in_B) != out

/-- Macro `IC_74HC10_FAIL` of v1.5, that is `(in_A & in_B & in_C) != ~out`. -/
def IC_74HC10_FAIL (out in_A in_B in_C : Nat) : Bool :=
  ((in_A &&& in_B &&& in_C : Nat) : Int) != ~~~ (out : Int)

/-- Macro `IC_74HC20_FAIL` of v1.5, that is `(in_A & in_B & in_C & in_D) != ~out`. -/
def IC_74HC20_FAIL (out in_A in_B in_C in_D : Nat) : Bool :=
  ((in_A &&& in_B &&& in_C &&& in_D : Nat) : Int) != ~~~ (out : Int)

/-- Macro `IC_74HC27_FAIL` of v1.5, that is `(in_A | in_B | in_C) != ~out`. -/
def IC_74HC27_FAIL (out in_A in_B in_C : Nat) : Bool :=
  ((in_A ||| in_B ||| in_C : Nat) : Int) != ~~~ (out : Int)

/-- Macro `IC_74HC86_FAIL` of v1.5, that is `(in_A ^ in_B) != out`. -/
def IC_74HC86_FAIL (out in_A in_B : Nat) : Bool := (in_A ^^^ in_B) != out

end V15

/-! ## main.c of v1.5 (descriptors) -/

/-! The tables of `main.c` of v1.5, kept in a namespace of their own: the `ControlTask` of
v1.5 above names the constants of v2.0, which the tables below are shown to equal. -/

namespace V15.Main

/-- Constant `IC_74HC00_PARAM` of v1.5. -/
def IC_74HC00_PARAM : IC_PARAMETERS_T :=
  { ic_designator := IC_74HC00, num_inputs := 8, num_outputs := 4,
    input_pins := [1, 2, 4, 5, 9, 10, 12, 13], output_pins := [3, 6, 8, 11] }

/-- Constant `IC_74HC02_PARAM` of v1.5. -/
def IC_74HC02_PARAM : IC_PARAMETERS_T :=
  { ic_designator := IC_74HC02, num_inputs := 8, num_outputs := 4,
    input_pins := [2, 3, 5, 6, 8, 9, 11, 12], output_pins := [1, 4, 10, 13] }

/-- Constant `IC_74HC04_PARAM` of v1.5. -/
def IC_74HC04_PARAM : IC_PARAMETERS_T :=
  { ic_designator := IC_74HC04, num_inputs := 6, num_outputs := 6,
    input_pins := [1, 3, 5, 9, 11, 13], output_pins := [2, 4, 6, 8, 10, 12] }

/-- Constant `IC_74HC08_PARAM` of v1.5. -/
def IC_74HC08_PARAM : IC_PARAMETERS_T :=
  { ic_designator := IC_74HC08, num_inputs := 8, num_outputs := 4,
    input_pins := [1, 2, 4, 5, 9, 10, 12, 13], output_pins := [3, 6, 8, 11] }

/-- Constant `IC_74HC10_PARAM` of v1.5. -/
def IC_74HC10_PARAM : IC_PARAMETERS_T :=
  { ic_designator := IC_74HC10, num_inputs := 9, num_outputs := 3,
    input_pins := [1, 2, 13, 3, 4, 5, 9, 10, 11], output_pins := [12, 6, 8] }

/-- Constant `IC_74HC20_PARAM` of v1.5. -/
def IC_74HC20_PARAM : IC_PARAMETERS_T :=
  { ic_designator := IC_74HC20, num_inputs := 8, num_outputs := 2,
    input_pins := [1, 2, 4, 5, 9, 10, 12, 13], output_pins := [6, 8] }

/-- Constant `IC_74HC27_PARAM` of v1.5. -/
def IC_74HC27_PARAM : IC_PARAMETERS_T :=
  { ic_designator := IC_74HC27, num_inputs := 9, num_outputs := 3,
    input_pins := [1, 2, 13, 3, 4, 5, 9, 10, 11], output_pins := [12, 6, 8] }

/-- Constant `IC_74HC86_PARAM` of v1.5. -/
def IC_74HC86_PARAM : IC_PARAMETERS_T :=
  { ic_designator := IC_74HC86, num_inputs := 8, num_outputs := 4,
    input_pins := [1, 2, 4, 5, 9, 10, 12, 13], output_pins := [3, 6, 8, 11] }

end V15.Main

/-! ## Checker.c (initialisation) -/

/-- The function `CheckerInit`, on the registers modelled:
`TIM22->CR1 |= TIM_CR1_OPM; TIM22->ARR = CYCLES_DELAY;`.  (Its first two statements enable
peripheral clocks in `RCC`, which is not among the registers modelled.) -/
def CheckerInit (hw : HW) : HW :=
  { hw with TIM22 := { hw.TIM22 with CR1 := hw.TIM22.CR1 ||| TIM_CR1_OPM, ARR := CYCLES_DELAY } }

/-! ## I2C.c -/

/-- Modelled from the spec: the device header is not among the sources;
`GPIO_MODER_MODEn_1` is the high bit of the mode field of line `n` (mode 10, alternate
function). -/
def GPIO_MODER_MODE_1 (n : Nat) : Nat := 2 <<< (2 * n)

/-- The function `I2CInit`, on the registers modelled:
`GPIOB->MODER &= ~(GPIO_MODER_MODE6_Msk | GPIO_MODER_MODE7_Msk);
GPIOB->MODER |= (GPIO_MODER_MODE6_1 | GPIO_MODER_MODE7_1);`.  (The other statements write
`RCC`, `GPIOB->OTYPER`, `GPIOB->AFR[0]` and the registers of `I2C1`, none of which
`Checker.c` reads or writes.) -/
def I2CInit (hw : HW) : HW :=
  let moder := clearBits hw.GPIOB.MODER (GPIO_MODER_MODE_Msk 6 ||| GPIO_MODER_MODE_Msk 7)
  { hw with GPIOB :=
      { hw.GPIOB with MODER := moder ||| (GPIO_MODER_MODE_1 6 ||| GPIO_MODER_MODE_1 7) } }

/-! ## Checker.c of v1.5 -/

namespace V15.Checker

/-- Modelled from the spec: `Checker.c` of v1.5 is not among the sources.  The spec (4.3)
has one predicate per designator and a failure for an unrecognised designator; the
predicates are the macros of `Checker.h` of v1.5, whose operands `out`, `in_A` to `in_D`
are the parameters of this function, and the dispatch is that of v2.0. -/
def checkerFailTest (ic_id : IC_DESIGNATOR_T) (out in_A in_B in_C in_D : Nat) : Nat :=
  match ic_id with
  | IC_74HC00 => if IC_74HC00_FAIL out in_A in_B then FAILED else PASSED
  | IC_74HC02 => if IC_74HC02_FAIL out in_A in_B then FAILED else PASSED
  | IC_74HC04 => if IC_74HC04_FAIL out in_A then FAILED else PASSED
  | IC_74HC08 => if IC_74HC08_FAIL out in_A in_B then FAILED else PASSED
  | IC_74HC10 => if IC_74HC10_FAIL out in_A in_B in_C then FAILED else PASSED
  | IC_74HC20 => if IC_74HC20_FAIL out in_A in_B in_C in_D then FAILED else PASSED
  | IC_74HC27 => if IC_74HC27_FAIL out in_A in_B in_C then FAILED else PASSED
  | IC_74HC86 => if IC_74HC86_FAIL out in_A in_B then FAILED else PASSED
  | _ => FAILED

/-- Modelled from the spec: `Checker.c` of v1.5 is not among the sources.  The body of the
innermost loop (spec 4.2, steps 3 and 4): the active lanes are driven and the output is
sampled as in v2.0, the v1.5 predicate is evaluated, and a failure returns at once. -/
def vectorBody (board : Board) (IC : IC_PARAMETERS_T)
    (loop_skip_field gate_start_index gate_num : Nat)
    (gate_input_A gate_input_B gate_input_C gate_input_D : Nat) (hw : HW) : Option Nat × HW :=
  let r := applyVector board IC loop_skip_field gate_start_index gate_num
    gate_input_A gate_input_B gate_input_C gate_input_D hw
  let test_output := r.1
  let fail_result := checkerFailTest IC.ic_designator test_output
    gate_input_A gate_input_B gate_input_C gate_input_D
  let hw := r.2.log (Call.failTest IC.ic_designator test_output
    gate_input_A gate_input_B gate_input_C gate_input_D)
  if fail_result = FAILED then (some FAILED, hw) else (none, hw)

/-- Modelled from the spec: `Checker.c` of v1.5 is not among the sources.  The lane loops
for one gate, as the description of `CheckerTestIC` in `Checker.h` of v1.5 has them (loops
A to D, the loops of unused inputs bypassed), in the shape of v2.0. -/
def laneLoops (board : Board) (IC : IC_PARAMETERS_T)
    (loop_skip_field gate_start_index gate_num : Nat) (hw : HW) : Option Nat × HW :=
  forEach (laneValues (INPUT_A_LOOP_SKIP loop_skip_field)) (fun gate_input_A =>
    forEach (laneValues (INPUT_B_LOOP_SKIP loop_skip_field)) (fun gate_input_B =>
      forEach (laneValues (INPUT_C_LOOP_SKIP loop_skip_field)) (fun gate_input_C =>
        forEach (laneValues (INPUT_D_LOOP_SKIP loop_skip_field)) (fun gate_input_D =>
          vectorBody board IC loop_skip_field gate_start_index gate_num
            gate_input_A gate_input_B gate_input_C gate_input_D)))) hw

/-- Modelled from the spec: `Checker.c` of v1.5 is not among the sources.  The gate loop
(spec 4.2: for each gate in order, a failure of any vector returns `FAILED` at once, and
`PASSED` is returned when all vectors of all gates pass), in the shape of v2.0. -/
def gateLoop (board : Board) (IC : IC_PARAMETERS_T) (num_inputs_gate loop_skip_field : Nat) :
    List Nat → Nat → HW → Nat × HW
  | [], _, hw => (PASSED, hw)
  | gate_num :: rest, gate_start_index, hw =>
    match laneLoops board IC loop_skip_field gate_start_index gate_num hw with
    | (some r, hw') => (r, hw')
    | (none, hw') =>
      gateLoop board IC num_inputs_gate loop_skip_field rest
        ((gate_start_index + num_inputs_gate) % 256) hw'

/-- Modelled from the spec: `Checker.c` of v1.5 is not among the sources, `Checker.h` of
v1.5 declares `CheckerTestIC` with the description of v2.0.  The function in the shape of
v2.0, with the predicates of v1.5. -/
def CheckerTestIC (board : Board) (IC : IC_PARAMETERS_T) (hw : HW) : Nat × HW :=
  let num_gates := IC.num_outputs
  let num_inputs_gate := IC.num_inputs / IC.num_outputs
  let loop_skip_field := (0xFF <<< num_inputs_gate) % 256
  gateLoop board IC num_inputs_gate loop_skip_field (List.range' 0 num_gates) 0 hw

end V15.Checker

/-! ## Notions used to state the properties -/

/-- An input vector: the values of lanes A, B, C and D. -/
abbrev Lanes := Nat × Nat × Nat × Nat

/-- Value of lane `j` of a vector (A = 0, B = 1, C = 2, D = 3). -/
def lane (v : Lanes) (j : Nat) : Nat := [v.1, v.2.1, v.2.2.1, v.2.2.2].getD j 0

/-- Lane `j` of the `n`-th vector of a gate with `k` inputs: binary digit of `n` with lane
A most significant among the `k` active lanes; a lane beyond `k` holds the fixed value 1. -/
def laneBit (k j n : Nat) : Nat := if j < k then (n >>> (k - 1 - j)) &&& 1 else 1

/-- The `2 ^ k` input vectors of a gate with `k` inputs, in ascending binary order. -/
def vectors (k : Nat) : List Lanes :=
  (List.range (2 ^ k)).map (fun n => (laneBit k 0 n, laneBit k 1 n, laneBit k 2 n, laneBit k 3 n))

/-- The enumeration of a whole package: for each gate in index order, each vector. -/
def steps (num_gates k : Nat) : List (Nat × Lanes) :=
  (List.range' 0 num_gates).flatMap (fun g => (vectors k).map (fun v => (g, v)))

/-- The vectors the nested loops of `CheckerTestIC` run through for a given
`loop_skip_field`, in the order of the loops. -/
def loopVectors (f : Nat) : List Lanes :=
  (laneValues (INPUT_A_LOOP_SKIP f)).flatMap (fun a =>
    (laneValues (INPUT_B_LOOP_SKIP f)).flatMap (fun b =>
      (laneValues (INPUT_C_LOOP_SKIP f)).flatMap (fun c =>
        (laneValues (INPUT_D_LOOP_SKIP f)).map (fun d => (a, b, c, d)))))

/-- Inputs per gate of a descriptor, `num_inputs / num_outputs`. -/
def inputsPerGate (IC : IC_PARAMETERS_T) : Nat := IC.num_inputs / IC.num_outputs

/-- The loop body of `CheckerTestIC` at one step of the enumeration. -/
def stepBody (board : Board) (IC : IC_PARAMETERS_T) (st : Nat × Lanes) (hw : HW) :
    Option Nat × HW :=
  vectorBody board IC ((0xFF <<< inputsPerGate IC) % 256) (st.1 * inputsPerGate IC) st.1
    st.2.1 st.2.2.1 st.2.2.2.1 st.2.2.2.2 hw

/-- State reached when the bodies of `xs` are run one after the other with no early
return. -/
def runAll {α σ : Type} (xs : List α) (body : α → σ → Option Nat × σ) (s : σ) : σ :=
  xs.foldl (fun s x => (body x s).2) s

/-- Turns the outcome of the loops into the value `CheckerTestIC` returns. -/
def finish (r : Option Nat × HW) : Nat × HW :=
  match r with
  | (some v, hw) => (v, hw)
  | (none, hw) => (PASSED, hw)

/-- A drive call as the call log records it: `clr` for the value 0, `set` otherwise. -/
def driveCall (pin value : Nat) : Call := if value = 0 then Call.clr pin else Call.set pin

/-- The calls of one step of the enumeration for a gate with `k` inputs, given the value
`out` sampled and whether the read waited: lane `j < k` is driven onto
`input_pins[g * k + j]` in lane order, then `output_pins[g]` is read, then the predicate
is evaluated. -/
def stepCalls (IC : IC_PARAMETERS_T) (k : Nat) (st : Nat × Lanes) (out : Nat) (w : Bool) :
    List Call :=
  (List.range k).map (fun j => driveCall (IC.input_pins.getD (st.1 * k + j) 0) (lane st.2 j)) ++
    [Call.read (IC.output_pins.getD st.1 0) out w,
     Call.failTest IC.ic_designator out st.2.1 st.2.2.1 st.2.2.2.1 st.2.2.2.2]

/-- The output sampled at a step of the enumeration when the step starts in state `hw`. -/
def sampled (board : Board) (IC : IC_PARAMETERS_T) (st : Nat × Lanes) (hw : HW) : Nat :=
  (applyVector board IC ((0xFF <<< inputsPerGate IC) % 256) (st.1 * inputsPerGate IC) st.1
    st.2.1 st.2.2.1 st.2.2.2.1 st.2.2.2.2 hw).1

/-- The verdict of `checkerFailTest` at a step of the enumeration started in state `hw`. -/
def verdict (board : Board) (IC : IC_PARAMETERS_T) (st : Nat × Lanes) (hw : HW) : Nat :=
  checkerFailTest IC.ic_designator (sampled board IC st hw)
    st.2.1 st.2.2.1 st.2.2.2.1 st.2.2.2.2

/-- The eight enumerators of `IC_DESIGNATOR_T`. -/
def knownDesignators : List IC_DESIGNATOR_T :=
  [IC_74HC00, IC_74HC02, IC_74HC04, IC_74HC08, IC_74HC10, IC_74HC20, IC_74HC27, IC_74HC86]

/-- The state in which step `i` of the enumeration starts when no earlier step returned. -/
def stateBefore (board : Board) (IC : IC_PARAMETERS_T) (hw : HW) (i : Nat) : HW :=
  runAll ((steps IC.num_outputs (inputsPerGate IC)).take i) (stepBody board IC) hw

/-- The calls entered in the log between state `hw` and a later state `hw'`. -/
def newCalls (hw hw' : HW) : List Call := hw'.trace.drop hw.trace.length

/-- The vectors on which the log shows `checkerFailTest` evaluated, in order. -/
def evaluations (tr : List Call) : List Lanes :=
  tr.filterMap (fun c =>
    match c with
    | Call.failTest _ _ a b c d => some (a, b, c, d)
    | _ => none)

/-- The pins the log shows sampled, in order. -/
def readPins (tr : List Call) : List Nat :=
  tr.filterMap (fun c =>
    match c with
    | Call.read p _ _ => some p
    | _ => none)

/-- The pins the log shows driven (set or cleared), in order. -/
def drivenPins (tr : List Call) : List Nat :=
  tr.filterMap (fun c =>
    match c with
    | Call.set p => some p
    | Call.clr p => some p
    | _ => none)

/-- Bit value of a truth value, as a pin level. -/
def level (x : Bool) : Nat := if x then 1 else 0

/-- Relation between a step of the enumeration and the calls it enters in the log. -/
def IsStepCalls (IC : IC_PARAMETERS_T) (st : Nat × Lanes) (seg : List Call) : Prop :=
  ∃ out w, seg = stepCalls IC (inputsPerGate IC) st out w

/-- Hardware state after reset: every modelled register zero and an empty call log. -/
def hwReset : HW :=
  { GPIOA := { MODER := 0, ODR := 0 }, GPIOB := { MODER := 0, ODR := 0 },
    GPIOC := { MODER := 0, ODR := 0 }, TIM22 := { CR1 := 0, SR := 0, ARR := 0 }, trace := [] }

/-- A board carrying one 2-input AND gate: inputs on IC pins 1 and 2 (lines PA10 and PB3),
output on IC pin 3 (line PB5); every other line reads low. -/
def andBoard : Board := fun hw port =>
  match port with
  | Port.B => (((hw.GPIOA.ODR >>> 10) &&& (hw.GPIOB.ODR >>> 3)) &&& 1) <<< 5
  | _ => 0

/-- A board on which every line reads low. -/
def lowBoard : Board := fun _ _ => 0

/-- A board on which every line reads high. -/
def highBoard : Board := fun _ _ => 0xFFFFFFFF

/-- Descriptor of a package with a single 2-input AND gate: inputs on pins 1 and 2, output
on pin 3. -/
def singleAnd : IC_PARAMETERS_T :=
  { ic_designator := IC_74HC08, num_inputs := 2, num_outputs := 1,
    input_pins := [1, 2], output_pins := [3] }

/-- The descriptors in the order in which `ControlTask` tests them. -/
def configuredICs : List IC_PARAMETERS_T :=
  [IC_74HC00_PARAM, IC_74HC02_PARAM, IC_74HC04_PARAM, IC_74HC08_PARAM,
   IC_74HC10_PARAM, IC_74HC20_PARAM, IC_74HC27_PARAM, IC_74HC86_PARAM]

/-- The state after `n` successive calls of `ControlTask`. -/
def ControlTaskN (board : Board) : Nat → State → State
  | 0, s => s
  | n + 1, s => ControlTask board (ControlTaskN board n s)

/-- The states the firmware can be in between two calls of `ControlTask`: the static
variables of `ControlTask` start as `IDLE` and 0, `ControlTask` is called, and the code
that runs in between writes neither of them. -/
inductive Reachable (board : Board) : State → Prop where
  | init (s : State) : s.control_state = IDLE → s.result_field = 0 → Reachable board s
  | task (s : State) : Reachable board s → Reachable board (ControlTask board s)
  | other (s s' : State) : Reachable board s → s'.control_state = s.control_state →
      s'.result_field = s.result_field → Reachable board s'

/-- The firmware state after reset, before the first call of a task. -/
def stateReset : State :=
  { hw := hwReset, lcd := [], buttonLatch := NOT_PRESSED, slice_counter := 1,
    button_state := 0, control_state := IDLE, result_field := 0 }

/-- The `CHECK` states of `ControlTask` in the order of `configuredICs`. -/
def checkStates : List CONTROL_STATE_T :=
  [CHECK_74HC00, CHECK_74HC02, CHECK_74HC04, CHECK_74HC08,
   CHECK_74HC10, CHECK_74HC20, CHECK_74HC27, CHECK_74HC86]

/-- The firmware state after reset with a confirmed press latched. -/
def statePressed : State := { stateReset with buttonLatch := PRESSED }

/-- The state after `n` passes of the super loop, pass `i` seeing `idr i` on port C. -/
def superLoopN (board : Board) (idr : Nat → Nat) : Nat → State → State
  | 0, s => s
  | n + 1, s => superLoop board (idr n) (superLoopN board idr n s)

/-- Whether the button line reads asserted in the port content `idr`, that is whether
`button_temp == BUTTON_PRESSED` holds in `ButtonDBReadTask`. -/
def asserted (idr : Nat) : Bool := BUTTON_STATE idr == BUTTON_PRESSED

/-- The state before call `n` of `ButtonDBReadTask` when call `i` sees `idr i` on port C
and is followed by a call of `ButtonGet` exactly when `get i` holds. -/
def debounceRun (idr : Nat → Nat) (get : Nat → Bool) : Nat → State → State
  | 0, s => s
  | n + 1, s =>
    let t := ButtonDBReadTask (idr n) (debounceRun idr get n s)
    if get n then (ButtonGet t).2 else t

/-- The static variables of `ButtonDBReadTask` and `ControlTask` hold their initialisers
and the latch is clear. -/
def InitialState (s : State) : Prop :=
  s.slice_counter = 1 ∧ s.button_state = BUTTON_UP ∧ s.buttonLatch = NOT_PRESSED ∧
    s.control_state = IDLE ∧ s.result_field = 0

/-- The positions among 0..7 of the bits set in a result field. -/
def setBits (result_field : Nat) : List Nat :=
  (List.range 8).filter (fun i => result_field.testBit i)

/-- The pass prompts in the order of the result bits. -/
def passPrompts : List String :=
  [Pass74HC00Prompt, Pass74HC02Prompt, Pass74HC04Prompt, Pass74HC08Prompt,
   Pass74HC10Prompt, Pass74HC20Prompt, Pass74HC27Prompt, Pass74HC86Prompt]

/-- The tick count after `n` interrupts. -/
def elapse : Nat → SysTick → SysTick
  | 0, t => t
  | n + 1, t => SysTick_Handler (elapse n t)

/-- The prompt the spec assigns to a list of set bits: the failure prompt for none, the
pass prompt of the chip for exactly one, the multipass prompt for more. -/
def promptOf (bits : List Nat) : String :=
  match bits with
  | [] => FailPrompt
  | [i] => passPrompts.getD i MultiPrompt
  | _ => MultiPrompt

/-- A board like `lowBoard` but with the button line (bit 0 of port C) high. -/
def buttonHighBoard : Board := fun _ p =>
  match p with
  | Port.C => 1
  | _ => 0

/-- The states of `SysTick.c` that can follow a state `t`: interrupts arrive and
`SysTickWaitTask` is called and returns, in any order and number. -/
inductive SysTickLater (t : SysTick) : SysTick → Prop where
  | refl : SysTickLater t t
  | tick (u : SysTick) : SysTickLater t u → SysTickLater t (SysTick_Handler u)
  | wait (u v : SysTick) (fuel ts_period : Nat) : SysTickLater t u →
      SysTickWaitTask fuel ts_period u = some v → SysTickLater t v

/-- A pin sequence with the button line asserted during pass 3 only. -/
def singleTickPress (n : Nat) : Nat := if n = 3 then 1 else 0

/-- A pin sequence with the button line asserted from call 2 on. -/
def heldFromTwo (n : Nat) : Nat := if 2 ≤ n then 1 else 0

/-- A pin sequence with two presses: the button line is asserted during passes 0 to 4 and
again during passes 8 to 12, and released otherwise. -/
def doublePress (n : Nat) : Nat := if n ≤ 4 ∨ (8 ≤ n ∧ n ≤ 12) then 1 else 0

/-- The descriptors of v1.5 in the order in which its `ControlTask` tests them. -/
def configuredICsV15 : List IC_PARAMETERS_T :=
  [V15.Main.IC_74HC00_PARAM, V15.Main.IC_74HC02_PARAM, V15.Main.IC_74HC04_PARAM,
   V15.Main.IC_74HC08_PARAM, V15.Main.IC_74HC10_PARAM, V15.Main.IC_74HC20_PARAM,
   V15.Main.IC_74HC27_PARAM, V15.Main.IC_74HC86_PARAM]

/-- The descriptor invariant of the spec: the input pins divide evenly among the gates, 1
to 6 gates, 1 to 4 inputs per gate, as many pins listed as declared, and no pin listed
both as an input and as an output. -/
def DescriptorInvariant (IC : IC_PARAMETERS_T) : Prop :=
  IC.num_inputs % IC.num_outputs = 0 ∧
  IC.num_inputs = IC.num_outputs * inputsPerGate IC ∧
  1 ≤ IC.num_outputs ∧ IC.num_outputs ≤ 6 ∧
  1 ≤ inputsPerGate IC ∧ inputsPerGate IC ≤ 4 ∧
  IC.input_pins.length = IC.num_inputs ∧
  IC.output_pins.length = IC.num_outputs ∧
  ∀ p ∈ IC.input_pins, p ∉ IC.output_pins

instance (IC : IC_PARAMETERS_T) : Decidable (DescriptorInvariant IC) := by
  unfold DescriptorInvariant
  infer_instance

/-- The positions of the bits set in a 32-bit value, in ascending order. -/
def bitsSet (x : Nat) : List Nat := (List.range 32).filter (fun i => x.testBit i)

/-- The vector with number `m` among the vectors of a gate with `k` inputs. -/
def vectorAt (k m : Nat) : Lanes := (laneBit k 0 m, laneBit k 1 m, laneBit k 2 m, laneBit k 3 m)

/-- The active lanes of a vector read as a binary number, lane A being the most
significant digit and lane `k - 1` the least significant. -/
def binaryValue (k : Nat) (v : Lanes) : Nat :=
  ((List.range k).map (fun j => lane v j * 2 ^ (k - 1 - j))).sum

/-- A board with a working 74HC08 (four 2-input AND gates) in the socket: each gate output
reads the AND of the levels the firmware drives on the two input lines of the gate.
IC pins 1, 2 (lines PA10, PB3) give pin 3 (PB5); pins 4, 5 (PB4, PB10) give pin 6 (PA8);
pins 9, 10 (PC7, PB6) give pin 8 (PA9); pins 12, 13 (PA6, PA5) give pin 11 (PA7). -/
def chip74HC08 : Board := fun hw port =>
  let pin1 := (hw.GPIOA.ODR >>> 10) &&& 1
  let pin2 := (hw.GPIOB.ODR >>> 3) &&& 1
  let pin4 := (hw.GPIOB.ODR >>> 4) &&& 1
  let pin5 := (hw.GPIOB.ODR >>> 10) &&& 1
  let pin9 := (hw.GPIOC.ODR >>> 7) &&& 1
  let pin10 := (hw.GPIOB.ODR >>> 6) &&& 1
  let pin12 := (hw.GPIOA.ODR >>> 6) &&& 1
  let pin13 := (hw.GPIOA.ODR >>> 5) &&& 1
  match port with
  | Port.A => ((pin4 &&& pin5) <<< 8) ||| ((pin9 &&& pin10) <<< 9) ||| ((pin12 &&& pin13) <<< 7)
  | Port.B => (pin1 &&& pin2) <<< 5
  | Port.C => 0

/-- A descriptor outside the descriptor invariant: the first two gates of the 74HC08 with
five input pins declared for two gates. -/
def oddInputs : IC_PARAMETERS_T :=
  { ic_designator := IC_74HC08, num_inputs := 5, num_outputs := 2,
    input_pins := [1, 2, 4, 5, 9], output_pins := [3, 6] }

/-- A descriptor outside the descriptor invariant: one input pin declared for two gates,
so that the quotient `num_inputs / num_outputs` is 0. -/
def noLanes : IC_PARAMETERS_T :=
  { ic_designator := IC_74HC08, num_inputs := 1, num_outputs := 2,
    input_pins := [1], output_pins := [3, 6] }

/-- The call log of `hw'` is that of `hw` followed by further calls, among them at least
`n` evaluations of the predicate. -/
def Extends (n : Nat) (hw hw' : HW) : Prop :=
  ∃ t, hw'.trace = hw.trace ++ t ∧ n ≤ (evaluations t).length

/-- The port line on which the three pin functions of `Checker.c` reach an IC pin, as
their `switch` statements have it; `none` for a pin number without a case. -/
def lineOf (ic_pin : Nat) : Option (Port × Nat) :=
  match ic_pin with
  | 1 => some (Port.A, 10)
  | 2 => some (Port.B, 3)
  | 3 => some (Port.B, 5)
  | 4 => some (Port.B, 4)
  | 5 => some (Port.B, 10)
  | 6 => some (Port.A, 8)
  | 8 => some (Port.A, 9)
  | 9 => some (Port.C, 7)
  | 10 => some (Port.B, 6)
  | 11 => some (Port.A, 7)
  | 12 => some (Port.A, 6)
  | 13 => some (Port.A, 5)
  | _ => none

/-- The mode field of a port line, bits `2n + 1` and `2n` of `MODER`: 0 input, 1 output,
2 alternate function, 3 analog. -/
def lineMode (hw : HW) (l : Port × Nat) : Nat :=
  (if (hw.port l.1).MODER.testBit (2 * l.2 + 1) then 2 else 0) +
    (if (hw.port l.1).MODER.testBit (2 * l.2) then 1 else 0)

/-- The level the output data register holds for a port line, bit `n` of `ODR`. -/
def lineLevel (hw : HW) (l : Port × Nat) : Nat :=
  if (hw.port l.1).ODR.testBit l.2 then 1 else 0

/-- The calls of `checkerSetClrInputs` of one vector, for the lanes from `off` on with the
values `vals`, in lane order. -/
def driveLanes (pins : List Nat) (gs : Nat) : Nat → List Nat → HW → HW
  | _, [], hw => hw
  | off, x :: rest, hw =>
    driveLanes pins gs (off + 1) rest (checkerSetClrInputs pins x gs off hw)

/-- The state in which a case of `checkerReadICOutput` reads the input data register: the
line has been switched to input and the wait on the timer is over. -/
def samplingState (l : Port × Nat) (hw : HW) : HW :=
  (tim22Wait (hw.setPort l.1
    { hw.port l.1 with MODER := clearBits (hw.port l.1).MODER (GPIO_MODER_MODE_Msk l.2) })).2

/-- For each read the log shows, whether the wait on the timer in that read waited for
the update flag (`true`) or found it already set (`false`). -/
def readDelays (tr : List Call) : List Bool :=
  tr.filterMap (fun c =>
    match c with
    | Call.read _ _ w => some w
    | _ => none)

/-- The registers modelled after `CheckerInit` and `I2CInit`, called in the order of `main`
of v2.0, starting from `hwReset`. -/
def hwInit : HW := I2CInit (CheckerInit hwReset)

/-- Descriptor of a 74HC08 whose fourth gate has its output on pin 14, a pin number
without a line. -/
def unreadable74HC08 : IC_PARAMETERS_T :=
  { IC_74HC08_PARAM with output_pins := [3, 6, 8, 14] }

/-- A call of the log that reaches a port line or needs none: a drive on a mapped IC pin,
a read on a mapped IC pin that returned a sampled bit (0 or 1, not the value 0xFF of the
`default` case), or an evaluation of the predicate. -/
def reachesLine (c : Call) : Bool :=
  match c with
  | Call.set p => (lineOf p).isSome
  | Call.clr p => (lineOf p).isSome
  | Call.read p v _ => (lineOf p).isSome && decide (v ≤ 1)
  | Call.failTest _ _ _ _ _ _ => true

/-- Every pin `CheckerTestIC` takes from the descriptor is a mapped IC pin: the input pin
of every lane of every gate and the output pin of every gate. -/
def pinsMapped (IC : IC_PARAMETERS_T) : Prop :=
  (∀ g < IC.num_outputs, ∀ j < inputsPerGate IC,
    (lineOf (IC.input_pins.getD (g * inputsPerGate IC + j) 0)).isSome = true) ∧
  (∀ g < IC.num_outputs, (lineOf (IC.output_pins.getD g 0)).isSome = true)

/-- The output sampled during a test of `IC` started in state `hw` is a fixed function
`out` of the gate index and the driven input vector: at every step of the enumeration the
value sampled is `out` of the gate and the vector of that step. -/
def fixedOutput (board : Board) (IC : IC_PARAMETERS_T) (hw : HW) (out : Nat → Lanes → Nat) :
    Prop :=
  ∀ i st, (steps IC.num_outputs (inputsPerGate IC))[i]? = some st →
    sampled board IC st (stateBefore board IC hw i) = out st.1 st.2

/-- The skip bit of lane `j` (A = 0, B = 1, C = 2, D = 3) under a `loop_skip_field`, as the
macros `INPUT_x_LOOP_SKIP` extract it. -/
def laneSkip (loop_skip_field j : Nat) : Nat :=
  match j with
  | 0 => INPUT_A_LOOP_SKIP loop_skip_field
  | 1 => INPUT_B_LOOP_SKIP loop_skip_field
  | 2 => INPUT_C_LOOP_SKIP loop_skip_field
  | _ => INPUT_D_LOOP_SKIP loop_skip_field

/-- Two descriptors that differ at most beyond the bounds of the C arrays: same designator
and counts, same `input_pins[0..8]`, same `output_pins[0..5]`. -/
def agreeInBounds (IC IC' : IC_PARAMETERS_T) : Prop :=
  IC'.ic_designator = IC.ic_designator ∧ IC'.num_inputs = IC.num_inputs ∧
  IC'.num_outputs = IC.num_outputs ∧
  (∀ i < 9, IC'.input_pins.getD i 0 = IC.input_pins.getD i 0) ∧
  (∀ g < 6, IC'.output_pins.getD g 0 = IC.output_pins.getD g 0)

/-- The 74HC08 descriptor with further entries where the C arrays have ended: a tenth
input pin and a seventh output pin. -/
def beyondArrays : IC_PARAMETERS_T :=
  { IC_74HC08_PARAM with
    input_pins := [1, 2, 4, 5, 9, 10, 12, 13, 0, 7], output_pins := [3, 6, 8, 11, 0, 0, 7] }

/-- The five designators whose macro inverts the output. -/
def invertedDesignators : List IC_DESIGNATOR_T :=
  [IC_74HC00, IC_74HC02, IC_74HC10, IC_74HC20, IC_74HC27]

/-- The prompts `DisplayResult` can show. -/
def resultPrompts : List String := FailPrompt :: MultiPrompt :: passPrompts

/-! ## Lemmas and theorems -/

theorem loopVectors_eq (k : Nat) (h1 : 1 ≤ k) (h4 : k ≤ 4) :
    loopVectors ((0xFF <<< k) % 256) = vectors k := by
  interval_cases k <;> decide

theorem forEach_append {α σ : Type} (xs ys : List α) (body : α → σ → Option Nat × σ) (s : σ) :
    forEach (xs ++ ys) body s =
      match forEach xs body s with
      | (some r, s') => (some r, s')
      | (none, s') => forEach ys body s' := by
  induction xs generalizing s with
  | nil => simp [forEach]
  | cons x xs ih =>
    simp only [List.cons_append, forEach]
    rcases h : body x s with ⟨_ | r, s'⟩
    · simp [ih]
    · simp

theorem forEach_flatMap {α β σ : Type} (xs : List α) (f : α → List β)
    (body : β → σ → Option Nat × σ) (s : σ) :
    forEach (xs.flatMap f) body s = forEach xs (fun x => forEach (f x) body) s := by
  induction xs generalizing s with
  | nil => simp [forEach]
  | cons x xs ih =>
    simp only [List.flatMap_cons, forEach_append, forEach]
    rcases h : forEach (f x) body s with ⟨_ | r, s'⟩
    · simp [ih]
    · simp

theorem forEach_map {α β σ : Type} (xs : List α) (f : α → β)
    (body : β → σ → Option Nat × σ) (s : σ) :
    forEach (xs.map f) body s = forEach xs (fun x => body (f x)) s := by
  induction xs generalizing s with
  | nil => simp [forEach]
  | cons x xs ih =>
    simp only [List.map_cons, forEach]
    rcases h : body (f x) s with ⟨_ | r, s'⟩
    · simp [ih]
    · simp

theorem forEach_flatMap_fun {α β σ : Type} (xs : List α) (f : α → List β)
    (body : β → σ → Option Nat × σ) :
    forEach (xs.flatMap f) body = forEach xs (fun x => forEach (f x) body) :=
  funext (forEach_flatMap xs f body)

theorem forEach_map_fun {α β σ : Type} (xs : List α) (f : α → β)
    (body : β → σ → Option Nat × σ) :
    forEach (xs.map f) body = forEach xs (fun x => body (f x)) :=
  funext (forEach_map xs f body)

theorem laneLoops_eq (board : Board) (IC : IC_PARAMETERS_T) (f gsi g : Nat) (hw : HW) :
    laneLoops board IC f gsi g hw =
      forEach ((loopVectors f).map (fun v => (g, v)))
        (fun st => vectorBody board IC f gsi st.1 st.2.1 st.2.2.1 st.2.2.2.1 st.2.2.2.2) hw := by
  simp only [laneLoops, loopVectors, forEach_map_fun, forEach_flatMap_fun]

theorem gateLoop_eq (board : Board) (IC : IC_PARAMETERS_T) (k f : Nat) (n : Nat) :
    ∀ (g0 : Nat) (hw : HW), (g0 + n) * k < 256 →
    gateLoop board IC k f (List.range' g0 n) (g0 * k) hw =
      finish (forEach ((List.range' g0 n).flatMap (fun g => (loopVectors f).map (fun v => (g, v))))
        (fun st => vectorBody board IC f (st.1 * k) st.1 st.2.1 st.2.2.1 st.2.2.2.1 st.2.2.2.2)
        hw) := by
  induction n with
  | zero => intro g0 hw _; simp [gateLoop, forEach, finish]
  | succ n ih =>
    intro g0 hw hb
    have hk : (g0 * k + k) % 256 = (g0 + 1) * k := by
      have h1 : (g0 + 1) * k ≤ (g0 + (n + 1)) * k := Nat.mul_le_mul_right k (by omega)
      have e : (g0 + 1) * k = g0 * k + k := by ring
      rw [e] at h1 ⊢
      exact Nat.mod_eq_of_lt (Nat.lt_of_le_of_lt h1 hb)
    simp only [List.range'_succ, gateLoop, List.flatMap_cons, forEach_append, laneLoops_eq,
      forEach_map]
    rcases h : forEach (loopVectors f)
      (fun x => vectorBody board IC f (g0 * k) g0 x.1 x.2.1 x.2.2.1 x.2.2.2) hw with ⟨_ | r, s'⟩
    · simp only [hk]
      rw [ih (g0 + 1) s' (by rw [Nat.add_assoc, Nat.add_comm 1 n]; exact hb)]
    · simp [finish]

theorem CheckerTestIC_eq (board : Board) (IC : IC_PARAMETERS_T) (hw : HW)
    (hk1 : 1 ≤ inputsPerGate IC) (hk4 : inputsPerGate IC ≤ 4) (hn : IC.num_outputs ≤ 6) :
    CheckerTestIC board IC hw =
      finish (forEach (steps IC.num_outputs (inputsPerGate IC)) (stepBody board IC) hw) := by
  have h := gateLoop_eq board IC (inputsPerGate IC) ((0xFF <<< inputsPerGate IC) % 256)
    IC.num_outputs 0 hw (by
      have : IC.num_outputs * inputsPerGate IC ≤ 6 * 4 := Nat.mul_le_mul hn hk4
      rw [Nat.zero_add]
      omega)
  simp only [Nat.zero_mul] at h
  unfold CheckerTestIC
  simp only [inputsPerGate] at h hk1 hk4 ⊢
  rw [h, loopVectors_eq _ hk1 hk4]
  rfl

@[simp] theorem runAll_nil {α σ : Type} (body : α → σ → Option Nat × σ) (s : σ) :
    runAll [] body s = s := rfl

@[simp] theorem runAll_cons {α σ : Type} (x : α) (xs : List α) (body : α → σ → Option Nat × σ)
    (s : σ) : runAll (x :: xs) body s = runAll xs body (body x s).2 := rfl

theorem runAll_append {α σ : Type} (xs ys : List α) (body : α → σ → Option Nat × σ) (s : σ) :
    runAll (xs ++ ys) body s = runAll ys body (runAll xs body s) := by
  simp [runAll, List.foldl_append]

theorem forEach_cons_none {α σ : Type} (x : α) (xs : List α) (body : α → σ → Option Nat × σ)
    (s : σ) (h : (body x s).1 = none) :
    forEach (x :: xs) body s = forEach xs body (body x s).2 := by
  rcases hb : body x s with ⟨_ | r, s'⟩
  · simp [forEach, hb]
  · simp [hb] at h

theorem forEach_cons_some {α σ : Type} (x : α) (xs : List α) (body : α → σ → Option Nat × σ)
    (s : σ) (r : Nat) (h : (body x s).1 = some r) :
    forEach (x :: xs) body s = (some r, (body x s).2) := by
  rcases hb : body x s with ⟨_ | r', s'⟩
  · simp [hb] at h
  · simp [hb] at h
    simp [forEach, hb, h]

theorem forEach_none_iff {α σ : Type} (xs : List α) (body : α → σ → Option Nat × σ) (s : σ) :
    (forEach xs body s).1 = none ↔
      ∀ i x, xs[i]? = some x → (body x (runAll (xs.take i) body s)).1 = none := by
  induction xs generalizing s with
  | nil => simp [forEach]
  | cons x xs ih =>
    cases hb : (body x s).1 with
    | none =>
      rw [forEach_cons_none x xs body s hb, ih]
      constructor
      · intro h i y hy
        cases i with
        | zero => simp at hy; subst hy; simpa using hb
        | succ j => simp at hy; simpa using h j y hy
      · intro h i y hy
        simpa using h (i + 1) y (by simpa using hy)
    | some r =>
      rw [forEach_cons_some x xs body s r hb]
      constructor
      · intro h; simp at h
      · intro h
        have := h 0 x (by simp)
        simp [hb] at this

theorem forEach_state_of_none {α σ : Type} (xs : List α) (body : α → σ → Option Nat × σ)
    (s : σ) (h : (forEach xs body s).1 = none) : (forEach xs body s).2 = runAll xs body s := by
  induction xs generalizing s with
  | nil => simp [forEach]
  | cons x xs ih =>
    cases hb : (body x s).1 with
    | none =>
      rw [forEach_cons_none x xs body s hb] at h ⊢
      simpa using ih _ h
    | some r =>
      rw [forEach_cons_some x xs body s r hb] at h
      simp at h

theorem forEach_first_fail {α σ : Type} (xs : List α) (body : α → σ → Option Nat × σ) (s : σ)
    (i : Nat) (x : α) (r : Nat) (hx : xs[i]? = some x)
    (hpre : ∀ j y, j < i → xs[j]? = some y → (body y (runAll (xs.take j) body s)).1 = none)
    (hfail : (body x (runAll (xs.take i) body s)).1 = some r) :
    forEach xs body s = (some r, runAll (xs.take (i + 1)) body s) := by
  induction xs generalizing s i with
  | nil => simp at hx
  | cons y ys ih =>
    cases i with
    | zero =>
      simp at hx; subst hx
      simp at hfail
      simp [forEach_cons_some y ys body s r hfail]
    | succ j =>
      simp at hx
      have h0 : (body y s).1 = none := by simpa using hpre 0 y (by omega) (by simp)
      rw [forEach_cons_none y ys body s h0]
      rw [ih (body y s).2 j hx]
      · simp
      · intro l z hl hz
        simpa using hpre (l + 1) z (by omega) (by simpa using hz)
      · simpa using hfail

theorem forEach_outcome {α σ : Type} (xs : List α) (body : α → σ → Option Nat × σ) (s : σ) :
    (forEach xs body s = (none, runAll xs body s) ∧
      ∀ i x, xs[i]? = some x → (body x (runAll (xs.take i) body s)).1 = none) ∨
    ∃ i x r, xs[i]? = some x ∧
      (∀ j y, j < i → xs[j]? = some y → (body y (runAll (xs.take j) body s)).1 = none) ∧
      (body x (runAll (xs.take i) body s)).1 = some r ∧
      forEach xs body s = (some r, runAll (xs.take (i + 1)) body s) := by
  induction xs generalizing s with
  | nil => left; simp [forEach]
  | cons y ys ih =>
    cases hb : (body y s).1 with
    | some r =>
      right
      refine ⟨0, y, r, by simp, by intro j _ hj; omega, by simpa using hb, ?_⟩
      simp [forEach_cons_some y ys body s r hb]
    | none =>
      rw [forEach_cons_none y ys body s hb]
      rcases ih (body y s).2 with ⟨h1, h2⟩ | ⟨i, x, r, hx, hpre, hf, he⟩
      · left
        refine ⟨by simpa using h1, ?_⟩
        intro i x hx
        cases i with
        | zero => simp at hx; subst hx; simpa using hb
        | succ j => simp at hx; simpa using h2 j x hx
      · right
        refine ⟨i + 1, x, r, by simpa using hx, ?_, by simpa using hf, by simpa using he⟩
        intro j z hj hz
        cases j with
        | zero => simp at hz; subst hz; simpa using hb
        | succ l => simp at hz; simpa using hpre l z (by omega) hz

@[simp] theorem trace_setPort (hw : HW) (p : Port) (g : GPIO_TypeDef) :
    (hw.setPort p g).trace = hw.trace := by
  cases p <;> rfl

@[simp] theorem tim22_setPort (hw : HW) (p : Port) (g : GPIO_TypeDef) :
    (hw.setPort p g).TIM22 = hw.TIM22 := by
  cases p <;> rfl

@[simp] theorem trace_log (hw : HW) (c : Call) : (hw.log c).trace = hw.trace ++ [c] := rfl

@[simp] theorem trace_setLine (p : Port) (n : Nat) (hw : HW) :
    (setLine p n hw).trace = hw.trace := by
  simp [setLine]

@[simp] theorem trace_clrLine (p : Port) (n : Nat) (hw : HW) :
    (clrLine p n hw).trace = hw.trace := by
  simp [clrLine]

theorem trace_checkerSetICInput (ic_pin : Nat) (hw : HW) :
    (checkerSetICInput ic_pin hw).trace = hw.trace ++ [Call.set ic_pin] := by
  unfold checkerSetICInput
  split <;> simp

theorem trace_checkerClrICInput (ic_pin : Nat) (hw : HW) :
    (checkerClrICInput ic_pin hw).trace = hw.trace ++ [Call.clr ic_pin] := by
  unfold checkerClrICInput
  split <;> simp

theorem trace_checkerSetClrInputs (pins : List Nat) (x gs off : Nat) (hw : HW) (hx : x ≤ 1) :
    (checkerSetClrInputs pins x gs off hw).trace =
      hw.trace ++ [driveCall (pins.getD (gs + off) 0) x] := by
  unfold checkerSetClrInputs driveCall
  have : x = 0 ∨ x = 1 := by omega
  rcases this with rfl | rfl
  · simp [trace_checkerClrICInput]
  · simp [trace_checkerSetICInput]

theorem trace_readLine (board : Board) (ic_pin : Nat) (p : Port) (n : Nat) (q : Port)
    (m s : Nat) (hw : HW) :
    ∃ w, (readLine board ic_pin p n q m s hw).2.trace =
      hw.trace ++ [Call.read ic_pin (readLine board ic_pin p n q m s hw).1 w] := by
  refine ⟨(hw.TIM22.SR &&& TIM_SR_UIF_Msk) == 0, ?_⟩
  simp [readLine, tim22Wait]

theorem trace_checkerReadICOutput (board : Board) (ic_pin : Nat) (hw : HW) :
    ∃ w, (checkerReadICOutput board ic_pin hw).2.trace =
      hw.trace ++ [Call.read ic_pin (checkerReadICOutput board ic_pin hw).1 w] := by
  unfold checkerReadICOutput
  split <;> first | exact trace_readLine _ _ _ _ _ _ _ _ | exact ⟨false, by simp⟩

theorem INPUT_LOOP_SKIP_1 : INPUT_A_LOOP_SKIP ((0xFF <<< 1) % 256) = 0 ∧
    INPUT_B_LOOP_SKIP ((0xFF <<< 1) % 256) = 1 ∧ INPUT_C_LOOP_SKIP ((0xFF <<< 1) % 256) = 1 ∧
    INPUT_D_LOOP_SKIP ((0xFF <<< 1) % 256) = 1 := by decide

theorem INPUT_LOOP_SKIP_2 : INPUT_A_LOOP_SKIP ((0xFF <<< 2) % 256) = 0 ∧
    INPUT_B_LOOP_SKIP ((0xFF <<< 2) % 256) = 0 ∧ INPUT_C_LOOP_SKIP ((0xFF <<< 2) % 256) = 1 ∧
    INPUT_D_LOOP_SKIP ((0xFF <<< 2) % 256) = 1 := by decide

theorem INPUT_LOOP_SKIP_3 : INPUT_A_LOOP_SKIP ((0xFF <<< 3) % 256) = 0 ∧
    INPUT_B_LOOP_SKIP ((0xFF <<< 3) % 256) = 0 ∧ INPUT_C_LOOP_SKIP ((0xFF <<< 3) % 256) = 0 ∧
    INPUT_D_LOOP_SKIP ((0xFF <<< 3) % 256) = 1 := by decide

theorem INPUT_LOOP_SKIP_4 : INPUT_A_LOOP_SKIP ((0xFF <<< 4) % 256) = 0 ∧
    INPUT_B_LOOP_SKIP ((0xFF <<< 4) % 256) = 0 ∧ INPUT_C_LOOP_SKIP ((0xFF <<< 4) % 256) = 0 ∧
    INPUT_D_LOOP_SKIP ((0xFF <<< 4) % 256) = 0 := by decide

theorem trace_applyVector (board : Board) (IC : IC_PARAMETERS_T) (k g : Nat) (v : Lanes)
    (hw : HW) (hk1 : 1 ≤ k) (hk4 : k ≤ 4)
    (hv : v.1 ≤ 1 ∧ v.2.1 ≤ 1 ∧ v.2.2.1 ≤ 1 ∧ v.2.2.2 ≤ 1) :
    ∃ w, (applyVector board IC ((0xFF <<< k) % 256) (g * k) g
        v.1 v.2.1 v.2.2.1 v.2.2.2 hw).2.trace =
      hw.trace ++
        ((List.range k).map (fun j => driveCall (IC.input_pins.getD (g * k + j) 0) (lane v j)) ++
        [Call.read (IC.output_pins.getD g 0)
          (applyVector board IC ((0xFF <<< k) % 256) (g * k) g
            v.1 v.2.1 v.2.2.1 v.2.2.2 hw).1 w]) := by
  obtain ⟨a, b, c, d⟩ := v
  obtain ⟨ha, hb, hc, hd⟩ := hv
  simp only at ha hb hc hd
  unfold applyVector
  interval_cases k
  · obtain ⟨e1, e2, e3, e4⟩ := INPUT_LOOP_SKIP_1
    simp only [e1, e2, e3, e4]
    obtain ⟨w, hw'⟩ := trace_checkerReadICOutput board (IC.output_pins.getD g 0)
      (checkerSetClrInputs IC.input_pins a (g * 1) 0 hw)
    refine ⟨w, ?_⟩
    simp only [TRUE, Nat.reduceBneDiff, ite_true, ite_false, bne_self_eq_false, Bool.false_eq_true]
    rw [hw']
    simp [trace_checkerSetClrInputs, ha, List.range_succ, lane]
  · obtain ⟨e1, e2, e3, e4⟩ := INPUT_LOOP_SKIP_2
    simp only [e1, e2, e3, e4]
    obtain ⟨w, hw'⟩ := trace_checkerReadICOutput board (IC.output_pins.getD g 0)
      (checkerSetClrInputs IC.input_pins b (g * 2) 1
        (checkerSetClrInputs IC.input_pins a (g * 2) 0 hw))
    refine ⟨w, ?_⟩
    simp only [TRUE, Nat.reduceBneDiff, ite_true, ite_false, bne_self_eq_false, Bool.false_eq_true]
    rw [hw']
    simp [trace_checkerSetClrInputs, ha, hb, List.range_succ, lane]
  · obtain ⟨e1, e2, e3, e4⟩ := INPUT_LOOP_SKIP_3
    simp only [e1, e2, e3, e4]
    obtain ⟨w, hw'⟩ := trace_checkerReadICOutput board (IC.output_pins.getD g 0)
      (checkerSetClrInputs IC.input_pins c (g * 3) 2
        (checkerSetClrInputs IC.input_pins b (g * 3) 1
          (checkerSetClrInputs IC.input_pins a (g * 3) 0 hw)))
    refine ⟨w, ?_⟩
    simp only [TRUE, Nat.reduceBneDiff, ite_true, ite_false, bne_self_eq_false, Bool.false_eq_true]
    rw [hw']
    simp [trace_checkerSetClrInputs, ha, hb, hc, List.range_succ, lane]
  · obtain ⟨e1, e2, e3, e4⟩ := INPUT_LOOP_SKIP_4
    simp only [e1, e2, e3, e4]
    obtain ⟨w, hw'⟩ := trace_checkerReadICOutput board (IC.output_pins.getD g 0)
      (checkerSetClrInputs IC.input_pins d (g * 4) 3
        (checkerSetClrInputs IC.input_pins c (g * 4) 2
          (checkerSetClrInputs IC.input_pins b (g * 4) 1
            (checkerSetClrInputs IC.input_pins a (g * 4) 0 hw))))
    refine ⟨w, ?_⟩
    simp only [TRUE, Nat.reduceBneDiff, ite_true, ite_false, bne_self_eq_false, Bool.false_eq_true]
    rw [hw']
    simp [trace_checkerSetClrInputs, ha, hb, hc, hd, List.range_succ, lane]

theorem vectors_le_one (k : Nat) (hk1 : 1 ≤ k) (hk4 : k ≤ 4) :
    ∀ v ∈ vectors k, v.1 ≤ 1 ∧ v.2.1 ≤ 1 ∧ v.2.2.1 ≤ 1 ∧ v.2.2.2 ≤ 1 := by
  interval_cases k <;> decide

theorem mem_steps {n k : Nat} {st : Nat × Lanes} (h : st ∈ steps n k) :
    st.1 < n ∧ st.2 ∈ vectors k := by
  simp only [steps, List.mem_flatMap, List.mem_map, List.mem_range'_1] at h
  obtain ⟨g, hg, v, hv, rfl⟩ := h
  exact ⟨by omega, hv⟩

theorem vectorBody_snd (board : Board) (IC : IC_PARAMETERS_T) (f gs g a b c d : Nat) (hw : HW) :
    (vectorBody board IC f gs g a b c d hw).2 =
      (applyVector board IC f gs g a b c d hw).2.log
        (Call.failTest IC.ic_designator (applyVector board IC f gs g a b c d hw).1 a b c d) := by
  unfold vectorBody
  dsimp only
  split <;> rfl

theorem vectorBody_fst (board : Board) (IC : IC_PARAMETERS_T) (f gs g a b c d : Nat) (hw : HW) :
    (vectorBody board IC f gs g a b c d hw).1 =
      if checkerFailTest IC.ic_designator (applyVector board IC f gs g a b c d hw).1 a b c d
        = FAILED then some FAILED else none := by
  unfold vectorBody
  dsimp only
  split <;> rfl

theorem trace_stepBody (board : Board) (IC : IC_PARAMETERS_T) (st : Nat × Lanes) (hw : HW)
    (hk1 : 1 ≤ inputsPerGate IC) (hk4 : inputsPerGate IC ≤ 4)
    (hv : st.2 ∈ vectors (inputsPerGate IC)) :
    ∃ w, (stepBody board IC st hw).2.trace =
      hw.trace ++ stepCalls IC (inputsPerGate IC) st (sampled board IC st hw) w := by
  obtain ⟨w, h⟩ := trace_applyVector board IC (inputsPerGate IC) st.1 st.2 hw hk1 hk4
    (vectors_le_one _ hk1 hk4 _ hv)
  refine ⟨w, ?_⟩
  unfold stepBody stepCalls sampled
  rw [vectorBody_snd, trace_log, h]
  simp

theorem stepBody_fst (board : Board) (IC : IC_PARAMETERS_T) (st : Nat × Lanes) (hw : HW) :
    (stepBody board IC st hw).1 =
      if verdict board IC st hw = FAILED then some FAILED else none := by
  unfold stepBody verdict sampled
  rw [vectorBody_fst]

theorem checkerFailTest_cases (ic_id out a b c d : Nat) :
    checkerFailTest ic_id out a b c d = PASSED ∨ checkerFailTest ic_id out a b c d = FAILED := by
  unfold checkerFailTest
  split <;> first | (split <;> simp) | simp

/-- C1: for every designator of the predicate bank and all bit values of the sampled
output and of the lanes, `checkerFailTest` returns `PASSED` exactly when the output equals
the gate function of the designator, and `FAILED` otherwise. -/
theorem checkerFailTest_gate_function : ∀ out a b c d : Bool,
    checkerFailTest IC_74HC00 (level out) (level a) (level b) (level c) (level d) =
      (if out = !(a && b) then PASSED else FAILED) ∧
    checkerFailTest IC_74HC02 (level out) (level a) (level b) (level c) (level d) =
      (if out = !(a || b) then PASSED else FAILED) ∧
    checkerFailTest IC_74HC04 (level out) (level a) (level b) (level c) (level d) =
      (if out = !a then PASSED else FAILED) ∧
    checkerFailTest IC_74HC08 (level out) (level a) (level b) (level c) (level d) =
      (if out = (a && b) then PASSED else FAILED) ∧
    checkerFailTest IC_74HC10 (level out) (level a) (level b) (level c) (level d) =
      (if out = !(a && b && c) then PASSED else FAILED) ∧
    checkerFailTest IC_74HC20 (level out) (level a) (level b) (level c) (level d) =
      (if out = !(a && b && c && d) then PASSED else FAILED) ∧
    checkerFailTest IC_74HC27 (level out) (level a) (level b) (level c) (level d) =
      (if out = !(a || b || c) then PASSED else FAILED) ∧
    checkerFailTest IC_74HC86 (level out) (level a) (level b) (level c) (level d) =
      (if out = xor a b then PASSED else FAILED) := by
  decide

/-- C7: the verdict of `checkerFailTest` does not depend on the lanes the gate of the
designator does not use. -/
theorem checkerFailTest_unused_lanes (out a b c d b' c' d' : Nat) :
    checkerFailTest IC_74HC00 out a b c d = checkerFailTest IC_74HC00 out a b c' d' ∧
    checkerFailTest IC_74HC02 out a b c d = checkerFailTest IC_74HC02 out a b c' d' ∧
    checkerFailTest IC_74HC08 out a b c d = checkerFailTest IC_74HC08 out a b c' d' ∧
    checkerFailTest IC_74HC86 out a b c d = checkerFailTest IC_74HC86 out a b c' d' ∧
    checkerFailTest IC_74HC04 out a b c d = checkerFailTest IC_74HC04 out a b' c' d' ∧
    checkerFailTest IC_74HC10 out a b c d = checkerFailTest IC_74HC10 out a b c d' ∧
    checkerFailTest IC_74HC27 out a b c d = checkerFailTest IC_74HC27 out a b c d' :=
  ⟨rfl, rfl, rfl, rfl, rfl, rfl, rfl⟩

theorem INPUT_A_LOOP_SKIP_le (f : Nat) : INPUT_A_LOOP_SKIP f ≤ 1 := Nat.and_le_right

theorem INPUT_B_LOOP_SKIP_le (f : Nat) : INPUT_B_LOOP_SKIP f ≤ 1 := by
  unfold INPUT_B_LOOP_SKIP
  have h : f &&& 0x02 ≤ 0x02 := Nat.and_le_right
  rw [Nat.shiftRight_eq_div_pow]
  omega

theorem INPUT_C_LOOP_SKIP_le (f : Nat) : INPUT_C_LOOP_SKIP f ≤ 1 := by
  unfold INPUT_C_LOOP_SKIP
  have h : f &&& 0x04 ≤ 0x04 := Nat.and_le_right
  rw [Nat.shiftRight_eq_div_pow]
  omega

theorem INPUT_D_LOOP_SKIP_le (f : Nat) : INPUT_D_LOOP_SKIP f ≤ 1 := by
  unfold INPUT_D_LOOP_SKIP
  have h : f &&& 0x08 ≤ 0x08 := Nat.and_le_right
  rw [Nat.shiftRight_eq_div_pow]
  omega

theorem laneValues_ne_nil (s : Nat) (h : s ≤ 1) : ∃ x rest, laneValues s = x :: rest := by
  have : s = 0 ∨ s = 1 := by omega
  rcases this with rfl | rfl
  · exact ⟨0, [1], by decide⟩
  · exact ⟨1, [], by decide⟩

theorem loopVectors_ne_nil (f : Nat) : ∃ v rest, loopVectors f = v :: rest := by
  obtain ⟨a, ra, ha⟩ := laneValues_ne_nil _ (INPUT_A_LOOP_SKIP_le f)
  obtain ⟨b, rb, hb⟩ := laneValues_ne_nil _ (INPUT_B_LOOP_SKIP_le f)
  obtain ⟨c, rc, hc⟩ := laneValues_ne_nil _ (INPUT_C_LOOP_SKIP_le f)
  obtain ⟨d, rd, hd⟩ := laneValues_ne_nil _ (INPUT_D_LOOP_SKIP_le f)
  refine ⟨(a, b, c, d), ?_⟩
  simp [loopVectors, ha, hb, hc, hd]

theorem checkerFailTest_unknown (ic_id : Nat) (h : ic_id ∉ knownDesignators)
    (out a b c d : Nat) : checkerFailTest ic_id out a b c d = FAILED := by
  unfold checkerFailTest
  split <;> first | (exfalso; apply h; decide) | rfl

/-- C6: for a designator value other than the eight enumerators, `checkerFailTest`
returns `FAILED` whatever the output and the lanes are, and `CheckerTestIC` returns
`FAILED` for every descriptor with at least one gate that carries it. -/
theorem unknown_designator_fails (ic_id : Nat) (h : ic_id ∉ knownDesignators) :
    (∀ out a b c d, checkerFailTest ic_id out a b c d = FAILED) ∧
    ∀ (board : Board) (IC : IC_PARAMETERS_T) (hw : HW),
      IC.ic_designator = ic_id → 1 ≤ IC.num_outputs →
      (CheckerTestIC board IC hw).1 = FAILED := by
  refine ⟨checkerFailTest_unknown ic_id h, ?_⟩
  intro board IC hw hid hn
  obtain ⟨n, hn'⟩ : ∃ n, IC.num_outputs = n + 1 := ⟨IC.num_outputs - 1, by omega⟩
  obtain ⟨v, rest, hv⟩ := loopVectors_ne_nil ((0xFF <<< (IC.num_inputs / IC.num_outputs)) % 256)
  unfold CheckerTestIC
  simp only [hn', List.range'_succ, gateLoop, laneLoops_eq]
  rw [← hn', hv, List.map_cons, forEach_cons_some _ _ _ _ FAILED]
  rw [vectorBody_fst, hid, checkerFailTest_unknown ic_id h]
  simp

/-- A witness of C6: the designator value 8 on a one-gate descriptor, on the AND board. -/
theorem unknown_designator_fails_witness :
    (8 ∉ knownDesignators) ∧
    checkerFailTest 8 1 1 1 1 1 = FAILED ∧
    (CheckerTestIC andBoard { singleAnd with ic_designator := 8 } hwReset).1 = FAILED :=
  have h := unknown_designator_fails 8 (by decide)
  ⟨by decide, h.1 1 1 1 1 1, h.2 andBoard { singleAnd with ic_designator := 8 } hwReset rfl
    (by decide)⟩

theorem runAll_trace (board : Board) (IC : IC_PARAMETERS_T)
    (hk1 : 1 ≤ inputsPerGate IC) (hk4 : inputsPerGate IC ≤ 4) (xs : List (Nat × Lanes)) :
    ∀ (hw : HW), (∀ st ∈ xs, st.2 ∈ vectors (inputsPerGate IC)) →
    ∃ segs, List.Forall₂ (IsStepCalls IC) xs segs ∧
      (runAll xs (stepBody board IC) hw).trace = hw.trace ++ segs.flatten := by
  induction xs with
  | nil => intro hw _; exact ⟨[], List.Forall₂.nil, by simp⟩
  | cons x xs ih =>
    intro hw hx
    obtain ⟨w, h1⟩ := trace_stepBody board IC x hw hk1 hk4 (hx x (by simp))
    obtain ⟨segs, h2, h3⟩ := ih (stepBody board IC x hw).2 (fun st hst => hx st (by simp [hst]))
    refine ⟨stepCalls IC (inputsPerGate IC) x (sampled board IC x hw) w :: segs,
      List.Forall₂.cons ⟨_, w, rfl⟩ h2, ?_⟩
    rw [runAll_cons, h3, h1]
    simp

theorem evaluations_append (xs ys : List Call) :
    evaluations (xs ++ ys) = evaluations xs ++ evaluations ys := by
  simp [evaluations]

theorem readPins_append (xs ys : List Call) :
    readPins (xs ++ ys) = readPins xs ++ readPins ys := by
  simp [readPins]

theorem drivenPins_append (xs ys : List Call) :
    drivenPins (xs ++ ys) = drivenPins xs ++ drivenPins ys := by
  simp [drivenPins]

theorem driveCall_cases (p x : Nat) : driveCall p x = Call.clr p ∨ driveCall p x = Call.set p := by
  unfold driveCall
  split <;> simp

theorem filterMap_drive_eq_nil {β : Type} (f : Call → Option β)
    (hs : ∀ p, f (Call.set p) = none) (hc : ∀ p, f (Call.clr p) = none)
    (pins : Nat → Nat) (vals : Nat → Nat) (l : List Nat) :
    (l.map (fun j => driveCall (pins j) (vals j))).filterMap f = [] := by
  induction l with
  | nil => rfl
  | cons j l ih =>
    rw [List.map_cons, List.filterMap_cons]
    rcases driveCall_cases (pins j) (vals j) with h | h <;> simp [h, hs, hc, ih]

theorem evaluations_stepCalls (IC : IC_PARAMETERS_T) (k : Nat) (st : Nat × Lanes) (out : Nat)
    (w : Bool) : evaluations (stepCalls IC k st out w) = [st.2] := by
  unfold stepCalls
  rw [evaluations_append]
  unfold evaluations
  rw [filterMap_drive_eq_nil _ (fun _ => rfl) (fun _ => rfl)]
  rfl

theorem readPins_stepCalls (IC : IC_PARAMETERS_T) (k : Nat) (st : Nat × Lanes) (out : Nat)
    (w : Bool) : readPins (stepCalls IC k st out w) = [IC.output_pins.getD st.1 0] := by
  unfold stepCalls
  rw [readPins_append]
  unfold readPins
  rw [filterMap_drive_eq_nil _ (fun _ => rfl) (fun _ => rfl)]
  rfl

theorem drivenPins_stepCalls (IC : IC_PARAMETERS_T) (k : Nat) (st : Nat × Lanes) (out : Nat)
    (w : Bool) : drivenPins (stepCalls IC k st out w) =
      (List.range k).map (fun j => IC.input_pins.getD (st.1 * k + j) 0) := by
  unfold stepCalls
  rw [drivenPins_append]
  have h : drivenPins [Call.read (IC.output_pins.getD st.1 0) out w,
      Call.failTest IC.ic_designator out st.2.1 st.2.2.1 st.2.2.2.1 st.2.2.2.2] = [] := rfl
  rw [h, List.append_nil]
  unfold drivenPins
  induction (List.range k) with
  | nil => rfl
  | cons j l ih =>
    rw [List.map_cons, List.filterMap_cons, List.map_cons]
    rcases driveCall_cases (IC.input_pins.getD (st.1 * k + j) 0) (lane st.2 j) with h | h <;>
      (rw [h]; exact congrArg (List.cons _) ih)

theorem evaluations_segs (IC : IC_PARAMETERS_T) (xs : List (Nat × Lanes))
    (segs : List (List Call)) (h : List.Forall₂ (IsStepCalls IC) xs segs) :
    evaluations segs.flatten = xs.map Prod.snd := by
  induction h with
  | nil => rfl
  | cons hx _ ih =>
    obtain ⟨out, w, rfl⟩ := hx
    rw [List.flatten_cons, evaluations_append, ih, evaluations_stepCalls]
    rfl

theorem readPins_segs (IC : IC_PARAMETERS_T) (xs : List (Nat × Lanes))
    (segs : List (List Call)) (h : List.Forall₂ (IsStepCalls IC) xs segs) :
    readPins segs.flatten = xs.map (fun st => IC.output_pins.getD st.1 0) := by
  induction h with
  | nil => rfl
  | cons hx _ ih =>
    obtain ⟨out, w, rfl⟩ := hx
    rw [List.flatten_cons, readPins_append, ih, readPins_stepCalls]
    rfl

theorem newCalls_eq (hw hw' : HW) (t : List Call) (h : hw'.trace = hw.trace ++ t) :
    newCalls hw hw' = t := by
  simp [newCalls, h]

theorem mem_take_steps {n k i : Nat} {st : Nat × Lanes} (h : st ∈ (steps n k).take i) :
    st.2 ∈ vectors k :=
  (mem_steps (List.mem_of_mem_take h)).2

theorem verdict_passed_iff (board : Board) (IC : IC_PARAMETERS_T) (st : Nat × Lanes)
    (hw : HW) : (stepBody board IC st hw).1 = none ↔ verdict board IC st hw = PASSED := by
  rw [stepBody_fst]
  rcases checkerFailTest_cases IC.ic_designator (sampled board IC st hw)
    st.2.1 st.2.2.1 st.2.2.2.1 st.2.2.2.2 with h | h
  · have h' : verdict board IC st hw = PASSED := h
    simp [h', PASSED, FAILED]
  · have h' : verdict board IC st hw = FAILED := h
    simp [h', PASSED, FAILED]

theorem verdict_failed_iff (board : Board) (IC : IC_PARAMETERS_T) (st : Nat × Lanes)
    (hw : HW) : (stepBody board IC st hw).1 = some FAILED ↔ verdict board IC st hw = FAILED := by
  rw [stepBody_fst]
  by_cases h : verdict board IC st hw = FAILED <;> simp [h]

theorem stepBody_fst_cases (board : Board) (IC : IC_PARAMETERS_T) (st : Nat × Lanes)
    (hw : HW) (r : Nat) (h : (stepBody board IC st hw).1 = some r) :
    r = FAILED ∧ verdict board IC st hw = FAILED := by
  rw [stepBody_fst] at h
  by_cases h' : verdict board IC st hw = FAILED
  · simp [h'] at h
    exact ⟨h.symm, h'⟩
  · simp [h'] at h

/-- Outcome of `CheckerTestIC` on a descriptor in range: either every step of the
enumeration passes and the run ends in the state after the last step with `PASSED`, or
some step `i` is the first that fails and the run ends right after it with `FAILED`. -/
theorem CheckerTestIC_outcome (board : Board) (IC : IC_PARAMETERS_T) (hw : HW)
    (hn : IC.num_outputs ≤ 6) (hk1 : 1 ≤ inputsPerGate IC) (hk4 : inputsPerGate IC ≤ 4) :
    (CheckerTestIC board IC hw =
        (PASSED, stateBefore board IC hw (steps IC.num_outputs (inputsPerGate IC)).length) ∧
      ∀ i st, (steps IC.num_outputs (inputsPerGate IC))[i]? = some st →
        verdict board IC st (stateBefore board IC hw i) = PASSED) ∨
    ∃ i st, (steps IC.num_outputs (inputsPerGate IC))[i]? = some st ∧
      (∀ j sj, j < i → (steps IC.num_outputs (inputsPerGate IC))[j]? = some sj →
        verdict board IC sj (stateBefore board IC hw j) = PASSED) ∧
      verdict board IC st (stateBefore board IC hw i) = FAILED ∧
      CheckerTestIC board IC hw = (FAILED, stateBefore board IC hw (i + 1)) := by
  rw [CheckerTestIC_eq board IC hw hk1 hk4 hn]
  rcases forEach_outcome (steps IC.num_outputs (inputsPerGate IC)) (stepBody board IC) hw with
    ⟨h1, h2⟩ | ⟨i, st, r, hst, hpre, hf, he⟩
  · left
    refine ⟨?_, fun i st hst => (verdict_passed_iff _ _ _ _).1 (h2 i st hst)⟩
    rw [h1]
    simp [finish, stateBefore]
  · right
    obtain ⟨rfl, hv⟩ := stepBody_fst_cases _ _ _ _ _ hf
    refine ⟨i, st, hst, fun j sj hj hsj => (verdict_passed_iff _ _ _ _).1 (hpre j sj hj hsj),
      hv, ?_⟩
    rw [he]
    rfl

theorem CheckerTestIC_fst_cases (board : Board) (IC : IC_PARAMETERS_T) (hw : HW)
    (hn : IC.num_outputs ≤ 6) (hk1 : 1 ≤ inputsPerGate IC) (hk4 : inputsPerGate IC ≤ 4) :
    ((CheckerTestIC board IC hw).1 = PASSED ↔
      ∀ i st, (steps IC.num_outputs (inputsPerGate IC))[i]? = some st →
        verdict board IC st (stateBefore board IC hw i) = PASSED) ∧
    ((CheckerTestIC board IC hw).1 = FAILED ↔
      ∃ i st, (steps IC.num_outputs (inputsPerGate IC))[i]? = some st ∧
        verdict board IC st (stateBefore board IC hw i) = FAILED) := by
  rcases CheckerTestIC_outcome board IC hw hn hk1 hk4 with
    ⟨h1, h2⟩ | ⟨i, st, hst, _, hf, he⟩
  · refine ⟨⟨fun _ => h2, fun _ => by rw [h1]⟩, ⟨fun h => ?_, fun h => ?_⟩⟩
    · rw [h1] at h; exact absurd h (by simp [PASSED, FAILED])
    · obtain ⟨i, st, hst, hf⟩ := h
      rw [h2 i st hst] at hf
      exact absurd hf (by decide)
  · refine ⟨⟨fun h => ?_, fun h => ?_⟩, ⟨fun _ => ⟨i, st, hst, hf⟩, fun _ => by rw [he]⟩⟩
    · rw [he] at h; exact absurd h (by simp [PASSED, FAILED])
    · rw [h i st hst] at hf
      exact absurd hf (by decide)

/-- C2: for a descriptor with 1..6 gates and 1..4 inputs per gate, `CheckerTestIC` returns
`PASSED` if and only if, for every gate and every vector of the enumeration, the output
sampled for that vector passes `checkerFailTest` for the designator of the descriptor, and
`FAILED` if and only if some vector does not.  In particular a single 2-input AND gate
whose output reads `A AND B` on all four vectors yields `PASSED`, and one whose output
reads 1 for the inputs (0,0) yields `FAILED`. -/
theorem CheckerTestIC_passed_iff (board : Board) (IC : IC_PARAMETERS_T) (hw : HW)
    (hn1 : 1 ≤ IC.num_outputs) (hn6 : IC.num_outputs ≤ 6)
    (hk1 : 1 ≤ inputsPerGate IC) (hk4 : inputsPerGate IC ≤ 4) :
    ((CheckerTestIC board IC hw).1 = PASSED ↔
      ∀ i st, (steps IC.num_outputs (inputsPerGate IC))[i]? = some st →
        verdict board IC st (stateBefore board IC hw i) = PASSED) ∧
    ((CheckerTestIC board IC hw).1 = FAILED ↔
      ∃ i st, (steps IC.num_outputs (inputsPerGate IC))[i]? = some st ∧
        verdict board IC st (stateBefore board IC hw i) = FAILED) ∧
    (IC.ic_designator = IC_74HC08 → IC.num_outputs = 1 → inputsPerGate IC = 2 →
      ((∀ i st, (steps 1 2)[i]? = some st →
          sampled board IC st (stateBefore board IC hw i) = st.2.1 &&& st.2.2.1) →
        (CheckerTestIC board IC hw).1 = PASSED) ∧
      (sampled board IC (0, (0, 0, 1, 1)) hw = 1 → (CheckerTestIC board IC hw).1 = FAILED)) := by
  have _ := hn1
  obtain ⟨hp, hf⟩ := CheckerTestIC_fst_cases board IC hw hn6 hk1 hk4
  refine ⟨hp, hf, ?_⟩
  intro hid hn hk
  rw [hn, hk] at hp hf
  constructor
  · intro hs
    rw [hp]
    intro i st hst
    unfold verdict
    rw [hs i st hst, hid]
    simp [checkerFailTest, IC_74HC08_FAIL]
  · intro hs
    rw [hf]
    refine ⟨0, (0, (0, 0, 1, 1)), by decide, ?_⟩
    have h0 : stateBefore board IC hw 0 = hw := by simp [stateBefore]
    unfold verdict
    rw [h0, hs, hid]
    decide

/-- A witness of C2: the single AND gate on the AND board, from reset. -/
theorem CheckerTestIC_passed_iff_witness :
    (1 ≤ singleAnd.num_outputs ∧ singleAnd.num_outputs ≤ 6 ∧
      1 ≤ inputsPerGate singleAnd ∧ inputsPerGate singleAnd ≤ 4) ∧
    (CheckerTestIC andBoard singleAnd hwReset).1 = PASSED ∧
    (CheckerTestIC highBoard singleAnd hwReset).1 = FAILED :=
  ⟨by decide,
   (CheckerTestIC_passed_iff andBoard singleAnd hwReset
      (by decide) (by decide) (by decide) (by decide)).2.2
      (by decide) (by decide) (by decide) |>.1 (by
        intro i st hst
        have hi : i < 4 := by
          by_contra hc
          have : (steps 1 2).length ≤ i := by
            have : (steps 1 2).length = 4 := by decide
            omega
          rw [List.getElem?_eq_none this] at hst
          exact absurd hst (by simp)
        interval_cases i <;> simp [steps, vectors, laneBit] at hst <;> subst hst <;> decide),
   (CheckerTestIC_passed_iff highBoard singleAnd hwReset
      (by decide) (by decide) (by decide) (by decide)).2.2
      (by decide) (by decide) (by decide) |>.2 (by decide)⟩

theorem drivenPins_segs_length (IC : IC_PARAMETERS_T) (xs : List (Nat × Lanes))
    (segs : List (List Call)) (h : List.Forall₂ (IsStepCalls IC) xs segs) :
    (drivenPins segs.flatten).length = xs.length * inputsPerGate IC := by
  induction h with
  | nil => simp [drivenPins]
  | cons hx _ ih =>
    obtain ⟨out, w, rfl⟩ := hx
    rw [List.flatten_cons, drivenPins_append, List.length_append, ih, drivenPins_stepCalls]
    simp [Nat.add_mul, Nat.add_comm]

theorem steps_map_snd (k : Nat) (n : Nat) : ∀ s : Nat,
    ((List.range' s n).flatMap (fun g => (vectors k).map (fun v => (g, v)))).map Prod.snd =
      (List.replicate n (vectors k)).flatten := by
  induction n with
  | zero => intro s; rfl
  | succ n ih =>
    intro s
    rw [List.range'_succ, List.flatMap_cons, List.map_append, ih (s + 1), List.replicate_succ,
      List.flatten_cons]
    simp

theorem length_steps (n k : Nat) : (steps n k).length = n * 2 ^ k := by
  have h := congrArg List.length (steps_map_snd k n 0)
  rw [List.length_map] at h
  rw [steps, h]
  simp [vectors]

theorem vectors_fixed_lanes (k : Nat) : ∀ v ∈ vectors k, ∀ j, k ≤ j → j < 4 → lane v j = 1 := by
  intro v hv j hkj hj4
  simp only [vectors, List.mem_map] at hv
  obtain ⟨n, _, rfl⟩ := hv
  have hj : ¬ j < k := by omega
  interval_cases j <;> simp_all [lane, laneBit]

theorem vectors_nodup (k : Nat) (hk1 : 1 ≤ k) (hk4 : k ≤ 4) : (vectors k).Nodup := by
  interval_cases k <;> decide

theorem mem_replicate_flatten {α : Type} {n : Nat} {V : List α} {v : α}
    (h : v ∈ (List.replicate n V).flatten) : v ∈ V := by
  simp only [List.mem_flatten, List.mem_replicate] at h
  obtain ⟨l, ⟨_, rfl⟩, hv⟩ := h
  exact hv

theorem getElem?_unique {α : Type} {xs : List α} {i : Nat} {a b : α}
    (h1 : xs[i]? = some a) (h2 : xs[i]? = some b) : a = b := by
  rw [h1] at h2
  exact Option.some.inj h2

/-- C3: when some vector is the first for which `checkerFailTest` reports `FAILED`,
`CheckerTestIC` returns `FAILED` in the state right after that vector: the calls it has
made are those of the vectors up to and including the failing one and no other, so no pin
is driven or read and the predicate is not evaluated for a later vector or a later gate,
and the number of predicate evaluations is the position of the failing vector. -/
theorem CheckerTestIC_short_circuit (board : Board) (IC : IC_PARAMETERS_T) (hw : HW)
    (hn1 : 1 ≤ IC.num_outputs) (hn6 : IC.num_outputs ≤ 6)
    (hk1 : 1 ≤ inputsPerGate IC) (hk4 : inputsPerGate IC ≤ 4)
    (i : Nat) (st : Nat × Lanes)
    (hst : (steps IC.num_outputs (inputsPerGate IC))[i]? = some st)
    (hpre : ∀ j sj, j < i → (steps IC.num_outputs (inputsPerGate IC))[j]? = some sj →
      verdict board IC sj (stateBefore board IC hw j) = PASSED)
    (hfail : verdict board IC st (stateBefore board IC hw i) = FAILED) :
    (CheckerTestIC board IC hw).1 = FAILED ∧
    (CheckerTestIC board IC hw).2 = stateBefore board IC hw (i + 1) ∧
    (∃ segs, List.Forall₂ (IsStepCalls IC)
        ((steps IC.num_outputs (inputsPerGate IC)).take (i + 1)) segs ∧
      newCalls hw (CheckerTestIC board IC hw).2 = segs.flatten) ∧
    (evaluations (newCalls hw (CheckerTestIC board IC hw).2)).length = i + 1 ∧
    (readPins (newCalls hw (CheckerTestIC board IC hw).2)).length = i + 1 ∧
    (drivenPins (newCalls hw (CheckerTestIC board IC hw).2)).length =
      (i + 1) * inputsPerGate IC := by
  have _ := hn1
  have he : CheckerTestIC board IC hw = (FAILED, stateBefore board IC hw (i + 1)) := by
    rw [CheckerTestIC_eq board IC hw hk1 hk4 hn6,
      forEach_first_fail _ _ hw i st FAILED hst
        (fun j sj hj hsj => (verdict_passed_iff _ _ _ _).2 (hpre j sj hj hsj))
        ((verdict_failed_iff _ _ _ _).2 hfail)]
    rfl
  have hi : i < (steps IC.num_outputs (inputsPerGate IC)).length := by
    by_contra hc
    rw [List.getElem?_eq_none (by omega)] at hst
    exact absurd hst (by simp)
  have hlen : ((steps IC.num_outputs (inputsPerGate IC)).take (i + 1)).length = i + 1 := by
    rw [List.length_take]; omega
  obtain ⟨segs, hseg, htr⟩ := runAll_trace board IC hk1 hk4
    ((steps IC.num_outputs (inputsPerGate IC)).take (i + 1)) hw
    (fun st hst => mem_take_steps hst)
  have hnew : newCalls hw (CheckerTestIC board IC hw).2 = segs.flatten := by
    rw [he]; exact newCalls_eq _ _ _ htr
  refine ⟨by rw [he], by rw [he], ⟨segs, hseg, hnew⟩, ?_, ?_, ?_⟩
  · rw [hnew, evaluations_segs IC _ _ hseg, List.length_map, hlen]
  · rw [hnew, readPins_segs IC _ _ hseg, List.length_map, hlen]
  · rw [hnew, drivenPins_segs_length IC _ _ hseg, hlen]

/-- A witness of C3: the 74HC08 descriptor (four 2-input gates) on a board whose outputs
all read low, so that the first gate is wrong on (1,1) only: four evaluations. -/
theorem CheckerTestIC_short_circuit_witness :
    (steps IC_74HC08_PARAM.num_outputs (inputsPerGate IC_74HC08_PARAM))[3]? =
      some (0, (1, 1, 1, 1)) ∧
    (CheckerTestIC lowBoard IC_74HC08_PARAM hwReset).1 = FAILED ∧
    (evaluations (newCalls hwReset (CheckerTestIC lowBoard IC_74HC08_PARAM hwReset).2)).length
      = 4 ∧
    (readPins (newCalls hwReset (CheckerTestIC lowBoard IC_74HC08_PARAM hwReset).2)).length
      = 4 :=
  have h := CheckerTestIC_short_circuit lowBoard IC_74HC08_PARAM hwReset
    (by decide) (by decide) (by decide) (by decide) 3 (0, (1, 1, 1, 1)) (by decide)
    (by
      intro j sj hj hsj
      interval_cases j
      · obtain rfl := getElem?_unique (show _ = some (0, (0, 0, 1, 1)) by decide) hsj
        decide
      · obtain rfl := getElem?_unique (show _ = some (0, (0, 1, 1, 1)) by decide) hsj
        decide
      · obtain rfl := getElem?_unique (show _ = some (0, (1, 0, 1, 1)) by decide) hsj
        decide)
    (by decide)
  ⟨by decide, h.1, h.2.2.2.1, h.2.2.2.2.1⟩

/-- C4: in a run of `CheckerTestIC` in which no vector fails, on a descriptor with `k`
inputs per gate, `1 ≤ k ≤ 4`, the vectors evaluated are, for each gate in turn, the
`2 ^ k` pairwise distinct vectors of `vectors k` (four for a 2-input gate), so
`num_outputs * 2 ^ k` in all, and in every evaluated vector each lane beyond `k` carries the
fixed value 1. -/
theorem CheckerTestIC_enumerates (board : Board) (IC : IC_PARAMETERS_T) (hw : HW)
    (hn1 : 1 ≤ IC.num_outputs) (hn6 : IC.num_outputs ≤ 6)
    (hk1 : 1 ≤ inputsPerGate IC) (hk4 : inputsPerGate IC ≤ 4)
    (hpass : (CheckerTestIC board IC hw).1 = PASSED) :
    evaluations (newCalls hw (CheckerTestIC board IC hw).2) =
      (List.replicate IC.num_outputs (vectors (inputsPerGate IC))).flatten ∧
    (vectors (inputsPerGate IC)).length = 2 ^ inputsPerGate IC ∧
    (vectors (inputsPerGate IC)).Nodup ∧
    (evaluations (newCalls hw (CheckerTestIC board IC hw).2)).length =
      IC.num_outputs * 2 ^ inputsPerGate IC ∧
    (∀ v ∈ evaluations (newCalls hw (CheckerTestIC board IC hw).2),
      ∀ j, inputsPerGate IC ≤ j → j < 4 → lane v j = 1) ∧
    (inputsPerGate IC = 2 →
      vectors (inputsPerGate IC) = [(0, 0, 1, 1), (0, 1, 1, 1), (1, 0, 1, 1), (1, 1, 1, 1)]) := by
  have _ := hn1
  have he : (CheckerTestIC board IC hw).2 =
      runAll (steps IC.num_outputs (inputsPerGate IC)) (stepBody board IC) hw := by
    rcases CheckerTestIC_outcome board IC hw hn6 hk1 hk4 with ⟨h1, _⟩ | ⟨i, st, _, _, _, he⟩
    · rw [h1]; simp [stateBefore]
    · rw [he] at hpass; exact absurd hpass (by simp [PASSED, FAILED])
  obtain ⟨segs, hseg, htr⟩ := runAll_trace board IC hk1 hk4
    (steps IC.num_outputs (inputsPerGate IC)) hw (fun st hst => (mem_steps hst).2)
  have hnew : newCalls hw (CheckerTestIC board IC hw).2 = segs.flatten := by
    rw [he]; exact newCalls_eq _ _ _ htr
  have hev : evaluations (newCalls hw (CheckerTestIC board IC hw).2) =
      (List.replicate IC.num_outputs (vectors (inputsPerGate IC))).flatten := by
    rw [hnew, evaluations_segs IC _ _ hseg]
    exact steps_map_snd _ _ 0
  have hlen : (vectors (inputsPerGate IC)).length = 2 ^ inputsPerGate IC := by simp [vectors]
  refine ⟨hev, hlen, vectors_nodup _ hk1 hk4, ?_, ?_, ?_⟩
  · rw [hnew, evaluations_segs IC _ _ hseg, List.length_map, length_steps]
  · intro v hv
    rw [hev] at hv
    exact vectors_fixed_lanes _ v (mem_replicate_flatten hv)
  · intro h2
    rw [h2]
    decide

/-- A witness of C4: the single AND gate on the AND board passes, with four evaluations. -/
theorem CheckerTestIC_enumerates_witness :
    (CheckerTestIC andBoard singleAnd hwReset).1 = PASSED ∧
    evaluations (newCalls hwReset (CheckerTestIC andBoard singleAnd hwReset).2) =
      [(0, 0, 1, 1), (0, 1, 1, 1), (1, 0, 1, 1), (1, 1, 1, 1)] ∧
    (evaluations (newCalls hwReset (CheckerTestIC andBoard singleAnd hwReset).2)).length =
      singleAnd.num_outputs * 2 ^ inputsPerGate singleAnd :=
  have h := CheckerTestIC_enumerates andBoard singleAnd hwReset
    (by decide) (by decide) (by decide) (by decide) (by decide)
  ⟨by decide, h.1.trans (by decide), h.2.2.2.1⟩

/-- C5: for a descriptor that fits its arrays (`num_inputs ≤ 9`, at most 6 gates), the
calls `CheckerTestIC` makes are, step by step of the enumeration up to the step at which
it returns, exactly these: for a step of gate `g` with `k` inputs per gate,
one drive call for each lane `j < k` on pin `input_pins[g * k + j]`, then one read of pin
`output_pins[g]`, then the evaluation.  So during the test of gate `g` the pins driven are
those of `input_pins[g * k .. g * k + k)` and no other, and the only pin read is
`output_pins[g]`; no call is made for a lane beyond `k`, and every index used lies inside
the arrays `input_pins[9]` and `output_pins[6]`. -/
theorem CheckerTestIC_pins (board : Board) (IC : IC_PARAMETERS_T) (hw : HW)
    (hn1 : 1 ≤ IC.num_outputs) (hn6 : IC.num_outputs ≤ 6)
    (hk1 : 1 ≤ inputsPerGate IC) (hk4 : inputsPerGate IC ≤ 4) (hm9 : IC.num_inputs ≤ 9) :
    (∀ g j, g < IC.num_outputs → j < inputsPerGate IC →
      g * inputsPerGate IC + j < 9 ∧ g < 6) ∧
    (∃ m segs, m ≤ (steps IC.num_outputs (inputsPerGate IC)).length ∧
      List.Forall₂ (IsStepCalls IC) ((steps IC.num_outputs (inputsPerGate IC)).take m) segs ∧
      (CheckerTestIC board IC hw).2.trace = hw.trace ++ segs.flatten) ∧
    ∀ (g : Nat) (v : Lanes) (seg : List Call), IsStepCalls IC (g, v) seg →
      drivenPins seg =
        (List.range (inputsPerGate IC)).map
          (fun j => IC.input_pins.getD (g * inputsPerGate IC + j) 0) ∧
      readPins seg = [IC.output_pins.getD g 0] ∧
      (∀ p ∈ drivenPins seg,
        ∃ j, j < inputsPerGate IC ∧ p = IC.input_pins.getD (g * inputsPerGate IC + j) 0) ∧
      (∀ p ∈ readPins seg, p = IC.output_pins.getD g 0) := by
  have _ := hn1
  refine ⟨?_, ?_⟩
  · intro g j hg hj
    have hnk : IC.num_outputs * inputsPerGate IC ≤ IC.num_inputs :=
      Nat.mul_div_le IC.num_inputs IC.num_outputs
    have hgk : (g + 1) * inputsPerGate IC ≤ IC.num_outputs * inputsPerGate IC :=
      Nat.mul_le_mul_right _ hg
    rw [Nat.add_mul, Nat.one_mul] at hgk
    exact ⟨by omega, by omega⟩
  constructor
  · have he : ∃ m, m ≤ (steps IC.num_outputs (inputsPerGate IC)).length ∧
        (CheckerTestIC board IC hw).2 =
          runAll ((steps IC.num_outputs (inputsPerGate IC)).take m) (stepBody board IC) hw := by
      rcases CheckerTestIC_outcome board IC hw hn6 hk1 hk4 with
        ⟨h1, _⟩ | ⟨i, st, hst, _, _, he⟩
      · exact ⟨_, Nat.le_refl _, by rw [h1]; rfl⟩
      · refine ⟨i + 1, ?_, by rw [he]; rfl⟩
        by_contra hc
        rw [List.getElem?_eq_none (by omega)] at hst
        exact absurd hst (by simp)
    obtain ⟨m, hm, he⟩ := he
    obtain ⟨segs, hseg, htr⟩ := runAll_trace board IC hk1 hk4
      ((steps IC.num_outputs (inputsPerGate IC)).take m) hw (fun st hst => mem_take_steps hst)
    exact ⟨m, segs, hm, hseg, by rw [he]; exact htr⟩
  · rintro g v seg ⟨out, w, rfl⟩
    refine ⟨drivenPins_stepCalls IC _ (g, v) out w, readPins_stepCalls IC _ (g, v) out w, ?_, ?_⟩
    · intro p hp
      rw [drivenPins_stepCalls] at hp
      simp only [List.mem_map, List.mem_range] at hp
      obtain ⟨j, hj, rfl⟩ := hp
      exact ⟨j, hj, rfl⟩
    · intro p hp
      rw [readPins_stepCalls] at hp
      simpa using hp

/-- A witness of C5: the log of the 74HC08 test on the low board, from reset. -/
theorem CheckerTestIC_pins_witness :
    (1 ≤ IC_74HC08_PARAM.num_outputs ∧ IC_74HC08_PARAM.num_outputs ≤ 6 ∧
      1 ≤ inputsPerGate IC_74HC08_PARAM ∧ inputsPerGate IC_74HC08_PARAM ≤ 4 ∧
      IC_74HC08_PARAM.num_inputs ≤ 9) ∧
    drivenPins (stepCalls IC_74HC08_PARAM 2 (1, (0, 1, 1, 1)) 0 true) = [4, 5] ∧
    readPins (stepCalls IC_74HC08_PARAM 2 (1, (0, 1, 1, 1)) 0 true) = [6] :=
  have h := (CheckerTestIC_pins lowBoard IC_74HC08_PARAM hwReset
    (by decide) (by decide) (by decide) (by decide) (by decide)).2.2 1 (0, 1, 1, 1)
    (stepCalls IC_74HC08_PARAM 2 (1, (0, 1, 1, 1)) 0 true) ⟨0, true, rfl⟩
  ⟨by decide, h.1.trans (by decide), h.2.1.trans (by decide)⟩

theorem ControlTask_IDLE (board : Board) (s : State) (h : s.control_state = IDLE) :
    ControlTask board s =
      if s.buttonLatch = PRESSED then
        { showPrompt TestingPrompt { s with buttonLatch := NOT_PRESSED } with
          control_state := CHECK_74HC00 }
      else { s with control_state := IDLE } := by
  unfold ControlTask
  rw [h]
  simp only [ButtonGet]
  split <;> rfl

theorem ControlTask_CHECK_74HC00 (board : Board) (s : State) (h : s.control_state = CHECK_74HC00) :
    ControlTask board s = checkCase board IC_74HC00_PARAM MASK_74HC00 CHECK_74HC02 s := by
  unfold ControlTask; rw [h]

theorem ControlTask_CHECK_74HC02 (board : Board) (s : State) (h : s.control_state = CHECK_74HC02) :
    ControlTask board s = checkCase board IC_74HC02_PARAM MASK_74HC02 CHECK_74HC04 s := by
  unfold ControlTask; rw [h]

theorem ControlTask_CHECK_74HC04 (board : Board) (s : State) (h : s.control_state = CHECK_74HC04) :
    ControlTask board s = checkCase board IC_74HC04_PARAM MASK_74HC04 CHECK_74HC08 s := by
  unfold ControlTask; rw [h]

theorem ControlTask_CHECK_74HC08 (board : Board) (s : State) (h : s.control_state = CHECK_74HC08) :
    ControlTask board s = checkCase board IC_74HC08_PARAM MASK_74HC08 CHECK_74HC10 s := by
  unfold ControlTask; rw [h]

theorem ControlTask_CHECK_74HC10 (board : Board) (s : State) (h : s.control_state = CHECK_74HC10) :
    ControlTask board s = checkCase board IC_74HC10_PARAM MASK_74HC10 CHECK_74HC20 s := by
  unfold ControlTask; rw [h]

theorem ControlTask_CHECK_74HC20 (board : Board) (s : State) (h : s.control_state = CHECK_74HC20) :
    ControlTask board s = checkCase board IC_74HC20_PARAM MASK_74HC20 CHECK_74HC27 s := by
  unfold ControlTask; rw [h]

theorem ControlTask_CHECK_74HC27 (board : Board) (s : State) (h : s.control_state = CHECK_74HC27) :
    ControlTask board s = checkCase board IC_74HC27_PARAM MASK_74HC27 CHECK_74HC86 s := by
  unfold ControlTask; rw [h]

theorem ControlTask_CHECK_74HC86 (board : Board) (s : State) (h : s.control_state = CHECK_74HC86) :
    ControlTask board s = checkCase board IC_74HC86_PARAM MASK_74HC86 DISPLAY_RESULT s := by
  unfold ControlTask; rw [h]

theorem ControlTask_DISPLAY_RESULT (board : Board) (s : State)
    (h : s.control_state = DISPLAY_RESULT) :
    ControlTask board s =
      { DisplayResult s.result_field s with result_field := 0, control_state := IDLE } := by
  unfold ControlTask; rw [h]

@[simp] theorem checkCase_control_state (board : Board) (IC : IC_PARAMETERS_T)
    (mask : Nat) (next : CONTROL_STATE_T) (s : State) :
    (checkCase board IC mask next s).control_state = next := rfl

@[simp] theorem checkCase_hw (board : Board) (IC : IC_PARAMETERS_T)
    (mask : Nat) (next : CONTROL_STATE_T) (s : State) :
    (checkCase board IC mask next s).hw = (CheckerTestIC board IC s.hw).2 := by
  unfold checkCase
  dsimp only
  split <;> rfl

@[simp] theorem checkCase_lcd (board : Board) (IC : IC_PARAMETERS_T)
    (mask : Nat) (next : CONTROL_STATE_T) (s : State) :
    (checkCase board IC mask next s).lcd = s.lcd := by
  unfold checkCase
  dsimp only
  split <;> rfl

@[simp] theorem checkCase_buttonLatch (board : Board) (IC : IC_PARAMETERS_T)
    (mask : Nat) (next : CONTROL_STATE_T) (s : State) :
    (checkCase board IC mask next s).buttonLatch = s.buttonLatch := by
  unfold checkCase
  dsimp only
  split <;> rfl

theorem checkCase_result_field (board : Board) (IC : IC_PARAMETERS_T)
    (mask : Nat) (next : CONTROL_STATE_T) (s : State) :
    (checkCase board IC mask next s).result_field =
      if (CheckerTestIC board IC s.hw).1 = PASSED then s.result_field ||| mask
      else s.result_field := by
  unfold checkCase
  dsimp only
  split <;> rfl

theorem lt_of_getElem?_eq_some {α : Type} {xs : List α} {i : Nat} {a : α}
    (h : xs[i]? = some a) : i < xs.length := by
  by_contra hc
  rw [List.getElem?_eq_none (by omega)] at h
  exact absurd h (by simp)

theorem ControlTaskN_chain (board : Board) (s : State) (hidle : s.control_state = IDLE)
    (hpress : s.buttonLatch = PRESSED) :
    ControlTaskN board 1 s =
      { showPrompt TestingPrompt { s with buttonLatch := NOT_PRESSED } with
        control_state := CHECK_74HC00 } ∧
    ControlTaskN board 2 s =
      checkCase board IC_74HC00_PARAM MASK_74HC00 CHECK_74HC02 (ControlTaskN board 1 s) ∧
    ControlTaskN board 3 s =
      checkCase board IC_74HC02_PARAM MASK_74HC02 CHECK_74HC04 (ControlTaskN board 2 s) ∧
    ControlTaskN board 4 s =
      checkCase board IC_74HC04_PARAM MASK_74HC04 CHECK_74HC08 (ControlTaskN board 3 s) ∧
    ControlTaskN board 5 s =
      checkCase board IC_74HC08_PARAM MASK_74HC08 CHECK_74HC10 (ControlTaskN board 4 s) ∧
    ControlTaskN board 6 s =
      checkCase board IC_74HC10_PARAM MASK_74HC10 CHECK_74HC20 (ControlTaskN board 5 s) ∧
    ControlTaskN board 7 s =
      checkCase board IC_74HC20_PARAM MASK_74HC20 CHECK_74HC27 (ControlTaskN board 6 s) ∧
    ControlTaskN board 8 s =
      checkCase board IC_74HC27_PARAM MASK_74HC27 CHECK_74HC86 (ControlTaskN board 7 s) ∧
    ControlTaskN board 9 s =
      checkCase board IC_74HC86_PARAM MASK_74HC86 DISPLAY_RESULT (ControlTaskN board 8 s) ∧
    ControlTaskN board 10 s =
      { DisplayResult (ControlTaskN board 9 s).result_field (ControlTaskN board 9 s) with
        result_field := 0, control_state := IDLE } := by
  have e1 : ControlTaskN board 1 s =
      { showPrompt TestingPrompt { s with buttonLatch := NOT_PRESSED } with
        control_state := CHECK_74HC00 } := by
    show ControlTask board s = _
    rw [ControlTask_IDLE board s hidle, if_pos hpress]
  have e2 := ControlTask_CHECK_74HC00 board (ControlTaskN board 1 s) (by rw [e1])
  have e3 := ControlTask_CHECK_74HC02 board (ControlTaskN board 2 s)
    (by show (ControlTask board _).control_state = _; rw [e2]; rfl)
  have e4 := ControlTask_CHECK_74HC04 board (ControlTaskN board 3 s)
    (by show (ControlTask board _).control_state = _; rw [e3]; rfl)
  have e5 := ControlTask_CHECK_74HC08 board (ControlTaskN board 4 s)
    (by show (ControlTask board _).control_state = _; rw [e4]; rfl)
  have e6 := ControlTask_CHECK_74HC10 board (ControlTaskN board 5 s)
    (by show (ControlTask board _).control_state = _; rw [e5]; rfl)
  have e7 := ControlTask_CHECK_74HC20 board (ControlTaskN board 6 s)
    (by show (ControlTask board _).control_state = _; rw [e6]; rfl)
  have e8 := ControlTask_CHECK_74HC27 board (ControlTaskN board 7 s)
    (by show (ControlTask board _).control_state = _; rw [e7]; rfl)
  have e9 := ControlTask_CHECK_74HC86 board (ControlTaskN board 8 s)
    (by show (ControlTask board _).control_state = _; rw [e8]; rfl)
  have e10 := ControlTask_DISPLAY_RESULT board (ControlTaskN board 9 s)
    (by show (ControlTask board _).control_state = _; rw [e9]; rfl)
  exact ⟨e1, e2, e3, e4, e5, e6, e7, e8, e9, e10⟩

theorem V15.controlTaskN_chain_v15 (test : IC_PARAMETERS_T → HW → Nat × HW) (s : V15.State)
    (hidle : s.control_state = IDLE) (hpress : s.buttonLatch = PRESSED) :
    V15.ControlTaskN test 1 s =
      { s with buttonLatch := NOT_PRESSED, control_state := CHECK_74HC00 } ∧
    V15.ControlTaskN test 2 s =
      V15.checkCase test IC_74HC00_PARAM MASK_74HC00 CHECK_74HC02 (V15.ControlTaskN test 1 s) ∧
    V15.ControlTaskN test 3 s =
      V15.checkCase test IC_74HC02_PARAM MASK_74HC02 CHECK_74HC04 (V15.ControlTaskN test 2 s) ∧
    V15.ControlTaskN test 4 s =
      V15.checkCase test IC_74HC04_PARAM MASK_74HC04 CHECK_74HC08 (V15.ControlTaskN test 3 s) ∧
    V15.ControlTaskN test 5 s =
      V15.checkCase test IC_74HC08_PARAM MASK_74HC08 CHECK_74HC10 (V15.ControlTaskN test 4 s) ∧
    V15.ControlTaskN test 6 s =
      V15.checkCase test IC_74HC10_PARAM MASK_74HC10 CHECK_74HC20 (V15.ControlTaskN test 5 s) ∧
    V15.ControlTaskN test 7 s =
      V15.checkCase test IC_74HC20_PARAM MASK_74HC20 CHECK_74HC27 (V15.ControlTaskN test 6 s) ∧
    V15.ControlTaskN test 8 s =
      V15.checkCase test IC_74HC27_PARAM MASK_74HC27 CHECK_74HC86 (V15.ControlTaskN test 7 s) ∧
    V15.ControlTaskN test 9 s =
      V15.checkCase test IC_74HC86_PARAM MASK_74HC86 DISPLAY_RESULT
        (V15.ControlTaskN test 8 s) ∧
    (V15.ControlTaskN test 10 s).control_state = IDLE ∧
    (V15.ControlTaskN test 10 s).hw = (V15.ControlTaskN test 9 s).hw := by
  have e1 : V15.ControlTaskN test 1 s =
      { s with buttonLatch := NOT_PRESSED, control_state := CHECK_74HC00 } := by
    show V15.ControlTask test s = _
    unfold V15.ControlTask
    rw [hidle]
    simp [V15.ButtonGet, hpress]
  have e2 : V15.ControlTaskN test 2 s = V15.checkCase test IC_74HC00_PARAM MASK_74HC00
      CHECK_74HC02 (V15.ControlTaskN test 1 s) := by
    have c : (V15.ControlTaskN test 1 s).control_state = CHECK_74HC00 := by rw [e1]
    show V15.ControlTask test _ = _
    unfold V15.ControlTask; rw [c]
  have e3 : V15.ControlTaskN test 3 s = V15.checkCase test IC_74HC02_PARAM MASK_74HC02
      CHECK_74HC04 (V15.ControlTaskN test 2 s) := by
    have c : (V15.ControlTaskN test 2 s).control_state = CHECK_74HC02 := by rw [e2]; rfl
    show V15.ControlTask test _ = _
    unfold V15.ControlTask; rw [c]
  have e4 : V15.ControlTaskN test 4 s = V15.checkCase test IC_74HC04_PARAM MASK_74HC04
      CHECK_74HC08 (V15.ControlTaskN test 3 s) := by
    have c : (V15.ControlTaskN test 3 s).control_state = CHECK_74HC04 := by rw [e3]; rfl
    show V15.ControlTask test _ = _
    unfold V15.ControlTask; rw [c]
  have e5 : V15.ControlTaskN test 5 s = V15.checkCase test IC_74HC08_PARAM MASK_74HC08
      CHECK_74HC10 (V15.ControlTaskN test 4 s) := by
    have c : (V15.ControlTaskN test 4 s).control_state = CHECK_74HC08 := by rw [e4]; rfl
    show V15.ControlTask test _ = _
    unfold V15.ControlTask; rw [c]
  have e6 : V15.ControlTaskN test 6 s = V15.checkCase test IC_74HC10_PARAM MASK_74HC10
      CHECK_74HC20 (V15.ControlTaskN test 5 s) := by
    have c : (V15.ControlTaskN test 5 s).control_state = CHECK_74HC10 := by rw [e5]; rfl
    show V15.ControlTask test _ = _
    unfold V15.ControlTask; rw [c]
  have e7 : V15.ControlTaskN test 7 s = V15.checkCase test IC_74HC20_PARAM MASK_74HC20
      CHECK_74HC27 (V15.ControlTaskN test 6 s) := by
    have c : (V15.ControlTaskN test 6 s).control_state = CHECK_74HC20 := by rw [e6]; rfl
    show V15.ControlTask test _ = _
    unfold V15.ControlTask; rw [c]
  have e8 : V15.ControlTaskN test 8 s = V15.checkCase test IC_74HC27_PARAM MASK_74HC27
      CHECK_74HC86 (V15.ControlTaskN test 7 s) := by
    have c : (V15.ControlTaskN test 7 s).control_state = CHECK_74HC27 := by rw [e7]; rfl
    show V15.ControlTask test _ = _
    unfold V15.ControlTask; rw [c]
  have e9 : V15.ControlTaskN test 9 s = V15.checkCase test IC_74HC86_PARAM MASK_74HC86
      DISPLAY_RESULT (V15.ControlTaskN test 8 s) := by
    have c : (V15.ControlTaskN test 8 s).control_state = CHECK_74HC86 := by rw [e8]; rfl
    show V15.ControlTask test _ = _
    unfold V15.ControlTask; rw [c]
  have c9 : (V15.ControlTaskN test 9 s).control_state = DISPLAY_RESULT := by rw [e9]; rfl
  have e10 : (V15.ControlTaskN test 10 s).control_state = IDLE ∧
      (V15.ControlTaskN test 10 s).hw = (V15.ControlTaskN test 9 s).hw := by
    show (V15.ControlTask test _).control_state = _ ∧ (V15.ControlTask test _).hw = _
    unfold V15.ControlTask; rw [c9]
    dsimp only
    split
    · exact ⟨rfl, rfl⟩
    · split <;> exact ⟨rfl, rfl⟩
  exact ⟨e1, e2, e3, e4, e5, e6, e7, e8, e9, e10.1, e10.2⟩

theorem V15.checkCase_hw_v15 (test : IC_PARAMETERS_T → HW → Nat × HW) (IC : IC_PARAMETERS_T)
    (mask : Nat) (next : CONTROL_STATE_T) (s : V15.State) :
    (V15.checkCase test IC mask next s).hw = (test IC s.hw).2 := by
  unfold V15.checkCase
  dsimp only
  split <;> rfl

theorem DisplayResult_frame (result_field : Nat) (s : State) :
    DisplayResult result_field s = { s with lcd := (DisplayResult result_field s).lcd } ∧
    ∃ p ∈ resultPrompts, (DisplayResult result_field s).lcd = s.lcd ++
      [LcdCall.clearDisplay, LcdCall.moveCursor 1 1, LcdCall.displayString p] := by
  unfold DisplayResult
  split <;> exact ⟨rfl, _, by decide, rfl⟩

theorem DisplayResult_eq_promptOf (result_field : Nat) (s : State) (h : result_field < 256) :
    DisplayResult result_field s = showPrompt (promptOf (setBits result_field)) s := by
  interval_cases result_field <;> rfl

theorem checkCase_led_v15 (test : IC_PARAMETERS_T → HW → Nat × HW) (IC : IC_PARAMETERS_T)
    (mask : Nat) (next : CONTROL_STATE_T) (s : V15.State) :
    (V15.checkCase test IC mask next s).led = s.led := by
  unfold V15.checkCase
  dsimp only
  split <;> rfl

theorem presenting_led_v15 (test : IC_PARAMETERS_T → HW → Nat × HW) (s : V15.State)
    (hs : s.control_state = DISPLAY_RESULT) :
    (V15.ControlTask test s).led = s.led ++
      [if s.result_field = 0 then V15.LedCall.LEDRedOn
       else if s.result_field &&& ((s.result_field + 0xFFFFFFFF) % 2 ^ 32) = 0 then
         V15.LedCall.LEDGreenOn
       else V15.LedCall.LEDOrangeOn] ∧
    (V15.ControlTask test s).result_field = 0 := by
  have hstep : (V15.ControlTask test s).led =
      (if s.result_field = 0x0000 then s.led ++ [V15.LedCall.LEDRedOn]
       else if s.result_field &&& ((s.result_field + 0xFFFFFFFF) % 2 ^ 32) = 0x0000 then
         s.led ++ [V15.LedCall.LEDGreenOn]
       else s.led ++ [V15.LedCall.LEDOrangeOn]) := by
    unfold V15.ControlTask
    simp only [hs]
    split <;> first | rfl | (split <;> rfl)
  have hrf : (V15.ControlTask test s).result_field = 0 := by
    unfold V15.ControlTask
    rw [hs]
  refine ⟨?_, hrf⟩
  rw [hstep]
  split_ifs <;> rfl

theorem checkCase_result_field_lt (board : Board) (IC : IC_PARAMETERS_T)
    (mask : Nat) (next : CONTROL_STATE_T) (s : State) (h : s.result_field < 256)
    (hm : mask < 256) : (checkCase board IC mask next s).result_field < 256 := by
  rw [checkCase_result_field]
  split
  · exact Nat.or_lt_two_pow (n := 8) h hm
  · exact h

/-- C8: starting in `IDLE` with a confirmed press pending, `ControlTask` is back in `IDLE`
after exactly 10 calls: the first call consumes the press and runs no test, call `i + 2`
(for `i = 0 .. 7`) is made in the `CHECK` state of the `i`-th configured descriptor and
runs `CheckerTestIC` once, on that descriptor, in the order 74HC00, 74HC02, 74HC04, 74HC08,
74HC10, 74HC20, 74HC27, 74HC86, and the 10th call presents the result and runs no test:
it makes the three display calls clear, cursor to (1,1) and the display of a result prompt
(the prompt of the bits set in the field accumulated by call 9 when the cycle started with
a zero field) and resets the field; calls 2 to 9 make no display call.  The same holds for
the `ControlTask` of v1.5, whose 10th call makes exactly one call to the indicator light:
red for a zero field, green when `result_field & (result_field - 1)` is zero, else
orange. -/
theorem ControlTask_cycle (board : Board) (s : State)
    (hidle : s.control_state = IDLE) (hpress : s.buttonLatch = PRESSED) :
    ((ControlTaskN board 1 s).control_state = CHECK_74HC00 ∧
      (ControlTaskN board 1 s).buttonLatch = NOT_PRESSED ∧
      (ControlTaskN board 1 s).hw = s.hw) ∧
    (∀ i IC, configuredICs[i]? = some IC →
      checkStates[i]? = some (ControlTaskN board (i + 1) s).control_state ∧
      (ControlTaskN board (i + 2) s).hw =
        (CheckerTestIC board IC (ControlTaskN board (i + 1) s).hw).2) ∧
    ((ControlTaskN board 9 s).control_state = DISPLAY_RESULT ∧
      ControlTaskN board 10 s =
        { DisplayResult (ControlTaskN board 9 s).result_field (ControlTaskN board 9 s) with
          result_field := 0, control_state := IDLE } ∧
      (ControlTaskN board 10 s).hw = (ControlTaskN board 9 s).hw) ∧
    (ControlTaskN board 10 s).control_state = IDLE ∧
    (∀ n, 1 ≤ n → n < 10 → (ControlTaskN board n s).control_state ≠ IDLE) ∧
    (∀ (test : IC_PARAMETERS_T → HW → Nat × HW) (t : V15.State),
      t.control_state = IDLE → t.buttonLatch = PRESSED →
      ((V15.ControlTaskN test 1 t).buttonLatch = NOT_PRESSED ∧
        (V15.ControlTaskN test 1 t).hw = t.hw) ∧
      (∀ i IC, configuredICs[i]? = some IC →
        checkStates[i]? = some (V15.ControlTaskN test (i + 1) t).control_state ∧
        (V15.ControlTaskN test (i + 2) t).hw =
          (test IC (V15.ControlTaskN test (i + 1) t).hw).2) ∧
      (V15.ControlTaskN test 9 t).control_state = DISPLAY_RESULT ∧
      (V15.ControlTaskN test 10 t).hw = (V15.ControlTaskN test 9 t).hw ∧
      (V15.ControlTaskN test 10 t).control_state = IDLE ∧
      (∀ n, 1 ≤ n → n < 10 → (V15.ControlTaskN test n t).control_state ≠ IDLE) ∧
      (∀ n, n ≤ 9 → (V15.ControlTaskN test n t).led = t.led) ∧
      (V15.ControlTaskN test 10 t).led = t.led ++
        [if (V15.ControlTaskN test 9 t).result_field = 0 then V15.LedCall.LEDRedOn
         else if (V15.ControlTaskN test 9 t).result_field &&&
            (((V15.ControlTaskN test 9 t).result_field + 0xFFFFFFFF) % 2 ^ 32) = 0 then
           V15.LedCall.LEDGreenOn
         else V15.LedCall.LEDOrangeOn] ∧
      (V15.ControlTaskN test 10 t).result_field = 0) ∧
    ((ControlTaskN board 1 s).lcd = s.lcd ++
        [LcdCall.clearDisplay, LcdCall.moveCursor 1 1, LcdCall.displayString TestingPrompt] ∧
      (∀ i IC, configuredICs[i]? = some IC →
        (ControlTaskN board (i + 2) s).lcd = (ControlTaskN board (i + 1) s).lcd) ∧
      (∃ p ∈ resultPrompts, (ControlTaskN board 10 s).lcd = (ControlTaskN board 9 s).lcd ++
        [LcdCall.clearDisplay, LcdCall.moveCursor 1 1, LcdCall.displayString p]) ∧
      (s.result_field = 0 →
        (ControlTaskN board 10 s).lcd = (ControlTaskN board 9 s).lcd ++
          [LcdCall.clearDisplay, LcdCall.moveCursor 1 1,
           LcdCall.displayString (promptOf (setBits (ControlTaskN board 9 s).result_field))]) ∧
      (ControlTaskN board 10 s).result_field = 0) := by
  obtain ⟨e1, e2, e3, e4, e5, e6, e7, e8, e9, e10⟩ := ControlTaskN_chain board s hidle hpress
  have c1 : (ControlTaskN board 1 s).control_state = CHECK_74HC00 := by rw [e1]
  have c2 : (ControlTaskN board 2 s).control_state = CHECK_74HC02 := by rw [e2]; rfl
  have c3 : (ControlTaskN board 3 s).control_state = CHECK_74HC04 := by rw [e3]; rfl
  have c4 : (ControlTaskN board 4 s).control_state = CHECK_74HC08 := by rw [e4]; rfl
  have c5 : (ControlTaskN board 5 s).control_state = CHECK_74HC10 := by rw [e5]; rfl
  have c6 : (ControlTaskN board 6 s).control_state = CHECK_74HC20 := by rw [e6]; rfl
  have c7 : (ControlTaskN board 7 s).control_state = CHECK_74HC27 := by rw [e7]; rfl
  have c8 : (ControlTaskN board 8 s).control_state = CHECK_74HC86 := by rw [e8]; rfl
  have c9 : (ControlTaskN board 9 s).control_state = DISPLAY_RESULT := by rw [e9]; rfl
  have c10 : (ControlTaskN board 10 s).control_state = IDLE := by rw [e10]
  refine ⟨⟨c1, by rw [e1]; rfl, by rw [e1]; rfl⟩, ?_, ⟨c9, e10, ?_⟩, c10, ?_, ?_, ?_⟩
  · intro i IC hIC
    have hi : i < 8 := lt_of_getElem?_eq_some hIC
    interval_cases i <;> simp only [configuredICs, List.getElem?_cons_zero,
      List.getElem?_cons_succ, Option.some.injEq] at hIC <;> subst hIC
    · exact ⟨by rw [c1]; rfl, by rw [e2, checkCase_hw]⟩
    · exact ⟨by rw [c2]; rfl, by rw [e3, checkCase_hw]⟩
    · exact ⟨by rw [c3]; rfl, by rw [e4, checkCase_hw]⟩
    · exact ⟨by rw [c4]; rfl, by rw [e5, checkCase_hw]⟩
    · exact ⟨by rw [c5]; rfl, by rw [e6, checkCase_hw]⟩
    · exact ⟨by rw [c6]; rfl, by rw [e7, checkCase_hw]⟩
    · exact ⟨by rw [c7]; rfl, by rw [e8, checkCase_hw]⟩
    · exact ⟨by rw [c8]; rfl, by rw [e9, checkCase_hw]⟩
  · rw [e10]
    generalize (ControlTaskN board 9 s) = t
    unfold DisplayResult
    split <;> rfl
  · intro n h1 h10
    interval_cases n
    · rw [c1]; decide
    · rw [c2]; decide
    · rw [c3]; decide
    · rw [c4]; decide
    · rw [c5]; decide
    · rw [c6]; decide
    · rw [c7]; decide
    · rw [c8]; decide
    · rw [c9]; decide
  · intro test t tidle tpress
    obtain ⟨e1, e2, e3, e4, e5, e6, e7, e8, e9, c10, h10⟩ :=
      V15.controlTaskN_chain_v15 test t tidle tpress
    have c1 : (V15.ControlTaskN test 1 t).control_state = CHECK_74HC00 := by rw [e1]
    have c2 : (V15.ControlTaskN test 2 t).control_state = CHECK_74HC02 := by rw [e2]; rfl
    have c3 : (V15.ControlTaskN test 3 t).control_state = CHECK_74HC04 := by rw [e3]; rfl
    have c4 : (V15.ControlTaskN test 4 t).control_state = CHECK_74HC08 := by rw [e4]; rfl
    have c5 : (V15.ControlTaskN test 5 t).control_state = CHECK_74HC10 := by rw [e5]; rfl
    have c6 : (V15.ControlTaskN test 6 t).control_state = CHECK_74HC20 := by rw [e6]; rfl
    have c7 : (V15.ControlTaskN test 7 t).control_state = CHECK_74HC27 := by rw [e7]; rfl
    have c8 : (V15.ControlTaskN test 8 t).control_state = CHECK_74HC86 := by rw [e8]; rfl
    have c9 : (V15.ControlTaskN test 9 t).control_state = DISPLAY_RESULT := by rw [e9]; rfl
    have l1 : (V15.ControlTaskN test 1 t).led = t.led := by rw [e1]
    have l2 : (V15.ControlTaskN test 2 t).led = t.led := by rw [e2, checkCase_led_v15, l1]
    have l3 : (V15.ControlTaskN test 3 t).led = t.led := by rw [e3, checkCase_led_v15, l2]
    have l4 : (V15.ControlTaskN test 4 t).led = t.led := by rw [e4, checkCase_led_v15, l3]
    have l5 : (V15.ControlTaskN test 5 t).led = t.led := by rw [e5, checkCase_led_v15, l4]
    have l6 : (V15.ControlTaskN test 6 t).led = t.led := by rw [e6, checkCase_led_v15, l5]
    have l7 : (V15.ControlTaskN test 7 t).led = t.led := by rw [e7, checkCase_led_v15, l6]
    have l8 : (V15.ControlTaskN test 8 t).led = t.led := by rw [e8, checkCase_led_v15, l7]
    have l9 : (V15.ControlTaskN test 9 t).led = t.led := by rw [e9, checkCase_led_v15, l8]
    have hp := presenting_led_v15 test (V15.ControlTaskN test 9 t) c9
    refine ⟨⟨by rw [e1], by rw [e1]⟩, ?_, c9, h10, c10, ?_, ?_, ?_, hp.2⟩
    · intro i IC hIC
      have hi : i < 8 := lt_of_getElem?_eq_some hIC
      interval_cases i <;> simp only [configuredICs, List.getElem?_cons_zero,
        List.getElem?_cons_succ, Option.some.injEq] at hIC <;> subst hIC
      · exact ⟨by rw [c1]; rfl, by rw [e2, V15.checkCase_hw_v15]⟩
      · exact ⟨by rw [c2]; rfl, by rw [e3, V15.checkCase_hw_v15]⟩
      · exact ⟨by rw [c3]; rfl, by rw [e4, V15.checkCase_hw_v15]⟩
      · exact ⟨by rw [c4]; rfl, by rw [e5, V15.checkCase_hw_v15]⟩
      · exact ⟨by rw [c5]; rfl, by rw [e6, V15.checkCase_hw_v15]⟩
      · exact ⟨by rw [c6]; rfl, by rw [e7, V15.checkCase_hw_v15]⟩
      · exact ⟨by rw [c7]; rfl, by rw [e8, V15.checkCase_hw_v15]⟩
      · exact ⟨by rw [c8]; rfl, by rw [e9, V15.checkCase_hw_v15]⟩
    · intro n h1 h10
      interval_cases n
      · rw [c1]; decide
      · rw [c2]; decide
      · rw [c3]; decide
      · rw [c4]; decide
      · rw [c5]; decide
      · rw [c6]; decide
      · rw [c7]; decide
      · rw [c8]; decide
      · rw [c9]; decide
    · intro n hn
      interval_cases n
      · rfl
      · exact l1
      · exact l2
      · exact l3
      · exact l4
      · exact l5
      · exact l6
      · exact l7
      · exact l8
      · exact l9
    · have h := hp.1
      rw [l9] at h
      exact h
  · have hlcd10 : (ControlTaskN board 10 s).lcd =
        (DisplayResult (ControlTaskN board 9 s).result_field (ControlTaskN board 9 s)).lcd := by
      rw [e10]
    refine ⟨by rw [e1]; rfl, ?_, ?_, ?_, by rw [e10]⟩
    · intro i IC hIC
      have hi : i < 8 := lt_of_getElem?_eq_some hIC
      interval_cases i
      · rw [e2, checkCase_lcd]
      · rw [e3, checkCase_lcd]
      · rw [e4, checkCase_lcd]
      · rw [e5, checkCase_lcd]
      · rw [e6, checkCase_lcd]
      · rw [e7, checkCase_lcd]
      · rw [e8, checkCase_lcd]
      · rw [e9, checkCase_lcd]
    · rw [hlcd10]
      exact (DisplayResult_frame _ _).2
    · intro h0
      have r1 : (ControlTaskN board 1 s).result_field < 256 := by
        rw [e1]
        show s.result_field < 256
        rw [h0]
        decide
      have r2 : (ControlTaskN board 2 s).result_field < 256 := by
        rw [e2]; exact checkCase_result_field_lt board _ _ _ _ r1 (by decide)
      have r3 : (ControlTaskN board 3 s).result_field < 256 := by
        rw [e3]; exact checkCase_result_field_lt board _ _ _ _ r2 (by decide)
      have r4 : (ControlTaskN board 4 s).result_field < 256 := by
        rw [e4]; exact checkCase_result_field_lt board _ _ _ _ r3 (by decide)
      have r5 : (ControlTaskN board 5 s).result_field < 256 := by
        rw [e5]; exact checkCase_result_field_lt board _ _ _ _ r4 (by decide)
      have r6 : (ControlTaskN board 6 s).result_field < 256 := by
        rw [e6]; exact checkCase_result_field_lt board _ _ _ _ r5 (by decide)
      have r7 : (ControlTaskN board 7 s).result_field < 256 := by
        rw [e7]; exact checkCase_result_field_lt board _ _ _ _ r6 (by decide)
      have r8 : (ControlTaskN board 8 s).result_field < 256 := by
        rw [e8]; exact checkCase_result_field_lt board _ _ _ _ r7 (by decide)
      have r9 : (ControlTaskN board 9 s).result_field < 256 := by
        rw [e9]; exact checkCase_result_field_lt board _ _ _ _ r8 (by decide)
      rw [hlcd10, DisplayResult_eq_promptOf _ _ r9]
      rfl

/-- A witness of C8: a cycle from reset with a press latched, on the low board; the 10th
call shows the prompt of the field accumulated by call 9. -/
theorem ControlTask_cycle_witness :
    (statePressed.control_state = IDLE ∧ statePressed.buttonLatch = PRESSED) ∧
    (ControlTaskN lowBoard 10 statePressed).control_state = IDLE ∧
    (ControlTaskN lowBoard 1 statePressed).buttonLatch = NOT_PRESSED ∧
    (ControlTaskN lowBoard 9 statePressed).control_state = DISPLAY_RESULT ∧
    (ControlTaskN lowBoard 10 statePressed).lcd =
      (ControlTaskN lowBoard 9 statePressed).lcd ++
        [LcdCall.clearDisplay, LcdCall.moveCursor 1 1,
         LcdCall.displayString
           (promptOf (setBits (ControlTaskN lowBoard 9 statePressed).result_field))] :=
  have h := ControlTask_cycle lowBoard statePressed rfl rfl
  ⟨⟨rfl, rfl⟩, h.2.2.2.1, h.1.2.1, h.2.2.1.1, h.2.2.2.2.2.2.2.2.2.1 rfl⟩

theorem reachable_idle_zero (board : Board) (s : State) (hr : Reachable board s) :
    s.control_state = IDLE → s.result_field = 0 := by
  induction hr with
  | init s h1 h2 => exact fun _ => h2
  | task s _ ih =>
    unfold ControlTask
    split
    · rename_i hs
      dsimp only [ButtonGet]
      split
      · intro h; exact absurd h (show ¬ CHECK_74HC00 = IDLE by decide)
      · intro _; exact ih hs
    all_goals first
      | (intro h; rw [checkCase_control_state] at h; exact absurd h (by decide))
      | (intro _; rfl)
  | other s s' _ hc hf ih => intro h; rw [hf]; exact ih (by rw [← hc]; exact h)

theorem ite_or_mask (P : Prop) [Decidable P] (x m : Nat) :
    (if P then x ||| m else x) = x ||| (if P then m else 0) := by
  split <;> simp

theorem testBit_mask (P : Prop) [Decidable P] (i b : Nat) :
    (if P then 2 ^ i else 0).testBit b = (decide P && decide (i = b)) := by
  split <;> simp_all [Nat.testBit_two_pow]

/-- C9: at the end of a cycle started in `IDLE` by a confirmed press, the value
`ControlTask` hands to `DisplayResult` has bit `i` set if and only if the test of the
`i`-th configured descriptor returned `PASSED` (bit 0 = 74HC00, 1 = 74HC02, 2 = 74HC04,
3 = 74HC08, 4 = 74HC10, 5 = 74HC20, 6 = 74HC27, 7 = 74HC86); no other bit is set. -/
theorem ControlTask_result_bits (board : Board) (s : State) (hr : Reachable board s)
    (hidle : s.control_state = IDLE) (hpress : s.buttonLatch = PRESSED) :
    (ControlTaskN board 9 s).control_state = DISPLAY_RESULT ∧
    ControlTask board (ControlTaskN board 9 s) =
      { DisplayResult (ControlTaskN board 9 s).result_field (ControlTaskN board 9 s) with
        result_field := 0, control_state := IDLE } ∧
    ∀ b, (ControlTaskN board 9 s).result_field.testBit b = true ↔
      ∃ IC, configuredICs[b]? = some IC ∧
        (CheckerTestIC board IC (ControlTaskN board (b + 1) s).hw).1 = PASSED := by
  obtain ⟨e1, e2, e3, e4, e5, e6, e7, e8, e9, e10⟩ := ControlTaskN_chain board s hidle hpress
  have h0 : s.result_field = 0 := reachable_idle_zero board s hr hidle
  refine ⟨by rw [e9]; rfl, e10, ?_⟩
  have r1 : (ControlTaskN board 1 s).result_field = 0 := by rw [e1]; exact h0
  have r9 : (ControlTaskN board 9 s).result_field =
      0 ||| (if (CheckerTestIC board IC_74HC00_PARAM (ControlTaskN board 1 s).hw).1 = PASSED
          then 2 ^ 0 else 0)
        ||| (if (CheckerTestIC board IC_74HC02_PARAM (ControlTaskN board 2 s).hw).1 = PASSED
          then 2 ^ 1 else 0)
        ||| (if (CheckerTestIC board IC_74HC04_PARAM (ControlTaskN board 3 s).hw).1 = PASSED
          then 2 ^ 2 else 0)
        ||| (if (CheckerTestIC board IC_74HC08_PARAM (ControlTaskN board 4 s).hw).1 = PASSED
          then 2 ^ 3 else 0)
        ||| (if (CheckerTestIC board IC_74HC10_PARAM (ControlTaskN board 5 s).hw).1 = PASSED
          then 2 ^ 4 else 0)
        ||| (if (CheckerTestIC board IC_74HC20_PARAM (ControlTaskN board 6 s).hw).1 = PASSED
          then 2 ^ 5 else 0)
        ||| (if (CheckerTestIC board IC_74HC27_PARAM (ControlTaskN board 7 s).hw).1 = PASSED
          then 2 ^ 6 else 0)
        ||| (if (CheckerTestIC board IC_74HC86_PARAM (ControlTaskN board 8 s).hw).1 = PASSED
          then 2 ^ 7 else 0) := by
    rw [e9, checkCase_result_field, ite_or_mask, e8, checkCase_result_field, ite_or_mask,
      e7, checkCase_result_field, ite_or_mask, e6, checkCase_result_field, ite_or_mask,
      e5, checkCase_result_field, ite_or_mask, e4, checkCase_result_field, ite_or_mask,
      e3, checkCase_result_field, ite_or_mask, e2, checkCase_result_field, ite_or_mask, r1]
    simp only [checkCase_hw]
    rfl
  intro b
  rw [r9]
  simp only [Nat.testBit_or, testBit_mask, Nat.zero_testBit, Bool.false_or]
  by_cases hb : b < 8
  · interval_cases b <;> simp [configuredICs]
  · have hnone : configuredICs[b]? = none := List.getElem?_eq_none (by
      have : configuredICs.length = 8 := rfl
      omega)
    have h0 : ¬ 0 = b := by omega
    have h1 : ¬ 1 = b := by omega
    have h2 : ¬ 2 = b := by omega
    have h3 : ¬ 3 = b := by omega
    have h4 : ¬ 4 = b := by omega
    have h5 : ¬ 5 = b := by omega
    have h6 : ¬ 6 = b := by omega
    have h7 : ¬ 7 = b := by omega
    simp [hnone, h0, h1, h2, h3, h4, h5, h6, h7]

/-- A witness of C9: a cycle from reset with a press latched, on the low board, where
every test fails: no bit is set. -/
theorem ControlTask_result_bits_witness :
    Reachable lowBoard statePressed ∧
    (statePressed.control_state = IDLE ∧ statePressed.buttonLatch = PRESSED) ∧
    (ControlTaskN lowBoard 9 statePressed).control_state = DISPLAY_RESULT ∧
    ((ControlTaskN lowBoard 9 statePressed).result_field.testBit 3 = true ↔
      ∃ IC, configuredICs[3]? = some IC ∧
        (CheckerTestIC lowBoard IC (ControlTaskN lowBoard (3 + 1) statePressed).hw).1 = PASSED) :=
  have hr : Reachable lowBoard statePressed := Reachable.init _ rfl rfl
  have h := ControlTask_result_bits lowBoard statePressed hr rfl rfl
  ⟨hr, ⟨rfl, rfl⟩, h.1, h.2.2 3⟩

/-- C10: in every reachable state of `ControlTask` in which `control_state` is `IDLE`,
`result_field` is 0, so the accumulator is zero whenever a cycle starts; and the step taken
in `DISPLAY_RESULT` leaves it 0 and goes to `IDLE`. -/
theorem result_field_zero_in_idle (board : Board) (s : State) (hr : Reachable board s) :
    (s.control_state = IDLE → s.result_field = 0) ∧
    (s.control_state = IDLE → (ControlTask board s).result_field = 0) ∧
    (s.control_state = DISPLAY_RESULT →
      (ControlTask board s).result_field = 0 ∧ (ControlTask board s).control_state = IDLE) := by
  refine ⟨reachable_idle_zero board s hr, ?_, ?_⟩
  · intro h
    have h0 := reachable_idle_zero board s hr h
    rw [ControlTask_IDLE board s h]
    split <;> exact h0
  · intro h
    rw [ControlTask_DISPLAY_RESULT board s h]
    exact ⟨rfl, rfl⟩

/-- A witness of C10: the state ten calls after a press latched at reset. -/
theorem result_field_zero_in_idle_witness :
    Reachable lowBoard (ControlTaskN lowBoard 10 statePressed) ∧
    (ControlTaskN lowBoard 10 statePressed).control_state = IDLE ∧
    (ControlTaskN lowBoard 10 statePressed).result_field = 0 :=
  have hr : Reachable lowBoard (ControlTaskN lowBoard 10 statePressed) :=
    Reachable.task _ (Reachable.task _ (Reachable.task _ (Reachable.task _ (Reachable.task _
      (Reachable.task _ (Reachable.task _ (Reachable.task _ (Reachable.task _
        (Reachable.task _ (Reachable.init statePressed rfl rfl))))))))))
  have hc : (ControlTaskN lowBoard 10 statePressed).control_state = IDLE := by decide
  ⟨hr, hc, (result_field_zero_in_idle lowBoard _ hr).1 hc⟩

/-- C11: for a result field with only bits 0..7, `DisplayResult` makes three display calls,
clear, cursor to (1,1) and the display of a prompt, and nothing else: the failure prompt
when no bit is set, the pass prompt of chip `i` when exactly bit `i` is set, and the
multipass prompt when more than one bit is set; a field with bits 0 and 1 set gives the
multipass prompt. -/
theorem DisplayResult_prompt (result_field : Nat) (s : State) (h : result_field < 256) :
    (setBits result_field = [] →
      (DisplayResult result_field s).lcd = s.lcd ++
        [LcdCall.clearDisplay, LcdCall.moveCursor 1 1, LcdCall.displayString FailPrompt]) ∧
    (∀ i, setBits result_field = [i] →
      ∃ p, passPrompts[i]? = some p ∧
        (DisplayResult result_field s).lcd = s.lcd ++
          [LcdCall.clearDisplay, LcdCall.moveCursor 1 1, LcdCall.displayString p]) ∧
    (2 ≤ (setBits result_field).length →
      (DisplayResult result_field s).lcd = s.lcd ++
        [LcdCall.clearDisplay, LcdCall.moveCursor 1 1, LcdCall.displayString MultiPrompt]) ∧
    (setBits 3 = [0, 1] ∧
      (DisplayResult 3 s).lcd = s.lcd ++
        [LcdCall.clearDisplay, LcdCall.moveCursor 1 1, LcdCall.displayString MultiPrompt]) ∧
    DisplayResult result_field s = { s with lcd := (DisplayResult result_field s).lcd } ∧
    (FailPrompt = "Test Fail" ∧ MultiPrompt = "Multipass Error" ∧
      passPrompts = ["74HC00 Passed", "74HC02 Passed", "74HC04 Passed", "74HC08 Passed",
        "74HC10 Passed", "74HC20 Passed", "74HC27 Passed", "74HC86 Passed"]) := by
  refine ⟨?_, ?_, ?_, ⟨by decide, rfl⟩, (DisplayResult_frame result_field s).1,
    ⟨rfl, rfl, rfl⟩⟩
  · intro h0
    rw [DisplayResult_eq_promptOf result_field s h, h0]
    rfl
  · intro i hi
    have hmem : i ∈ setBits result_field := by rw [hi]; simp
    have hlt : i < 8 := by
      simp only [setBits, List.mem_filter, List.mem_range] at hmem
      exact hmem.1
    rw [DisplayResult_eq_promptOf result_field s h, hi]
    interval_cases i <;> exact ⟨_, rfl, rfl⟩
  · intro h2
    rw [DisplayResult_eq_promptOf result_field s h]
    rcases hb : setBits result_field with _ | ⟨a, _ | ⟨b, l⟩⟩
    · rw [hb] at h2; simp at h2
    · rw [hb] at h2; simp at h2
    · rfl

/-- A witness of C11: on the field 0x04 (bit 2 only) the display log grows by clear, cursor
to (1,1) and the pass prompt of the 74HC04. -/
theorem DisplayResult_prompt_witness :
    (4 < 256 ∧ setBits 4 = [2]) ∧
    ∃ p, passPrompts[2]? = some p ∧
      (DisplayResult 4 stateReset).lcd = stateReset.lcd ++
        [LcdCall.clearDisplay, LcdCall.moveCursor 1 1, LcdCall.displayString p] :=
  ⟨by decide, (DisplayResult_prompt 4 stateReset (by decide)).2.1 2 (by decide)⟩

theorem ButtonDBReadTask_skip (idr : Nat) (s : State) (h : s.slice_counter = 0) :
    ButtonDBReadTask idr s = { s with slice_counter := 1 } := by
  unfold ButtonDBReadTask
  simp [h]

theorem ButtonDBReadTask_UP (idr : Nat) (s : State) (hc : 0 < s.slice_counter)
    (h : s.button_state = BUTTON_UP) :
    ButtonDBReadTask idr s =
      { s with slice_counter := 0,
               button_state := if asserted idr then BUTTON_EDGE else BUTTON_UP } := by
  unfold ButtonDBReadTask asserted
  simp only [hc, if_true, h]
  by_cases hp : BUTTON_STATE idr = BUTTON_PRESSED <;> simp [hp]

theorem ButtonDBReadTask_EDGE (idr : Nat) (s : State) (hc : 0 < s.slice_counter)
    (h : s.button_state = BUTTON_EDGE) :
    ButtonDBReadTask idr s =
      { s with slice_counter := 0,
               button_state := if asserted idr then BUTTON_VERF else BUTTON_UP } := by
  unfold ButtonDBReadTask asserted
  simp only [hc, if_true, h]
  by_cases hp : BUTTON_STATE idr = BUTTON_PRESSED <;> simp [hp]

theorem ButtonDBReadTask_VERF (idr : Nat) (s : State) (hc : 0 < s.slice_counter)
    (h : s.button_state = BUTTON_VERF) :
    ButtonDBReadTask idr s =
      { s with slice_counter := 0, buttonLatch := PRESSED, button_state := BUTTON_HELD } := by
  unfold ButtonDBReadTask
  simp only [hc, if_true, h]

theorem ButtonDBReadTask_HELD (idr : Nat) (s : State) (hc : 0 < s.slice_counter)
    (h : s.button_state = BUTTON_HELD) :
    ButtonDBReadTask idr s =
      { s with slice_counter := 0,
               button_state := if asserted idr then BUTTON_HELD else BUTTON_UP } := by
  unfold ButtonDBReadTask asserted
  simp only [hc, if_true, h]
  by_cases hp : BUTTON_STATE idr = BUTTON_PRESSED <;> simp [hp]

theorem ButtonDBReadTask_frame (idr : Nat) (s : State) :
    (ButtonDBReadTask idr s).hw = s.hw ∧ (ButtonDBReadTask idr s).lcd = s.lcd ∧
    (ButtonDBReadTask idr s).control_state = s.control_state ∧
    (ButtonDBReadTask idr s).result_field = s.result_field := by
  unfold ButtonDBReadTask
  dsimp only
  split
  · split <;> first | (split <;> exact ⟨rfl, rfl, rfl, rfl⟩) | exact ⟨rfl, rfl, rfl, rfl⟩
  · exact ⟨rfl, rfl, rfl, rfl⟩

theorem ButtonDBReadTask_latch (idr : Nat) (s : State) :
    (ButtonDBReadTask idr s).buttonLatch =
      if 0 < s.slice_counter ∧ s.button_state = BUTTON_VERF then PRESSED else s.buttonLatch := by
  by_cases hc : 0 < s.slice_counter
  · by_cases hv : s.button_state = BUTTON_VERF
    · rw [ButtonDBReadTask_VERF idr s hc hv]; simp [hc, hv]
    · have : ¬ (0 < s.slice_counter ∧ s.button_state = BUTTON_VERF) := fun h => hv h.2
      rw [if_neg this]
      unfold ButtonDBReadTask
      simp only [hc, if_true]
      split <;> first | (split <;> rfl) | rfl | exact absurd (by assumption) hv
  · have h0 : s.slice_counter = 0 := by omega
    rw [ButtonDBReadTask_skip idr s h0]
    simp [h0]

theorem ButtonGet_snd_frame (s : State) :
    (ButtonGet s).2.slice_counter = s.slice_counter ∧
    (ButtonGet s).2.button_state = s.button_state ∧
    (ButtonGet s).2.hw = s.hw ∧ (ButtonGet s).2.lcd = s.lcd ∧
    (ButtonGet s).2.control_state = s.control_state ∧
    (ButtonGet s).2.result_field = s.result_field := by
  unfold ButtonGet
  dsimp only
  split <;> exact ⟨rfl, rfl, rfl, rfl, rfl, rfl⟩

theorem ButtonGet_snd_latch (s : State) :
    (ButtonGet s).2.buttonLatch = if s.buttonLatch = PRESSED then NOT_PRESSED else s.buttonLatch := by
  unfold ButtonGet
  dsimp only
  split <;> rfl

theorem debounceRun_slice_counter (idr : Nat → Nat) (get : Nat → Bool) (s : State)
    (h : s.slice_counter = 1) (n : Nat) :
    (debounceRun idr get n s).slice_counter = if n % 2 = 0 then 1 else 0 := by
  induction n with
  | zero => simpa using h
  | succ n ih =>
    have hstep : (debounceRun idr get (n + 1) s).slice_counter =
        (ButtonDBReadTask (idr n) (debounceRun idr get n s)).slice_counter := by
      show (if get n then _ else _ : State).slice_counter = _
      split
      · exact (ButtonGet_snd_frame _).1
      · rfl
    rw [hstep]
    by_cases he : n % 2 = 0
    · rw [if_pos he] at ih
      have : (n + 1) % 2 ≠ 0 := by omega
      rw [if_neg this]
      unfold ButtonDBReadTask
      dsimp only
      rw [ih]
      simp only [Nat.lt_one_iff, Nat.one_pos, if_true]
      split <;> first | (split <;> rfl) | rfl
    · rw [if_neg he] at ih
      have : (n + 1) % 2 = 0 := by omega
      rw [if_pos this, ButtonDBReadTask_skip _ _ ih]

/-- C12: `ButtonDBReadTask` evaluates its state machine on every second call, beginning
with the first; a call that does not evaluate leaves the state and the latch unchanged
whatever the pin level.  On an evaluating call: UP goes to EDGE if the pin is asserted, else
UP; EDGE goes to VERF if asserted, else UP; VERF goes to HELD and sets the latch; HELD stays
HELD if asserted, else goes to UP; the latch is written in no other case. -/
theorem ButtonDBReadTask_transitions (idr : Nat) (s : State) :
    (s.slice_counter = 0 → ButtonDBReadTask idr s = { s with slice_counter := 1 }) ∧
    (0 < s.slice_counter →
      (ButtonDBReadTask idr s).slice_counter = 0 ∧
      (s.button_state = BUTTON_UP →
        (ButtonDBReadTask idr s).button_state = (if asserted idr then BUTTON_EDGE else BUTTON_UP)) ∧
      (s.button_state = BUTTON_EDGE →
        (ButtonDBReadTask idr s).button_state = (if asserted idr then BUTTON_VERF else BUTTON_UP)) ∧
      (s.button_state = BUTTON_VERF →
        (ButtonDBReadTask idr s).button_state = BUTTON_HELD ∧
        (ButtonDBReadTask idr s).buttonLatch = PRESSED) ∧
      (s.button_state = BUTTON_HELD →
        (ButtonDBReadTask idr s).button_state = (if asserted idr then BUTTON_HELD else BUTTON_UP)) ∧
      (s.button_state ≠ BUTTON_VERF →
        (ButtonDBReadTask idr s).buttonLatch = s.buttonLatch)) ∧
    (∀ (pins : Nat → Nat) (get : Nat → Bool) (n : Nat), s.slice_counter = 1 →
      (debounceRun pins get n s).slice_counter = if n % 2 = 0 then 1 else 0) := by
  refine ⟨ButtonDBReadTask_skip idr s, ?_, fun pins get n h =>
    debounceRun_slice_counter pins get s h n⟩
  intro hc
  refine ⟨?_, ?_, ?_, ?_, ?_, ?_⟩
  · unfold ButtonDBReadTask
    simp only [hc, if_true]
    split <;> first | (split <;> rfl) | rfl
  · intro h; rw [ButtonDBReadTask_UP idr s hc h]
  · intro h; rw [ButtonDBReadTask_EDGE idr s hc h]
  · intro h; rw [ButtonDBReadTask_VERF idr s hc h]; exact ⟨rfl, rfl⟩
  · intro h; rw [ButtonDBReadTask_HELD idr s hc h]
  · intro h
    rw [ButtonDBReadTask_latch]
    exact if_neg (fun hh => h hh.2)

/-- A witness of C12: from reset, the first call (pin asserted) evaluates and goes to
EDGE, and the second call changes nothing but the slice counter. -/
theorem ButtonDBReadTask_transitions_witness :
    (0 < stateReset.slice_counter ∧ stateReset.button_state = BUTTON_UP) ∧
    (ButtonDBReadTask 1 stateReset).button_state = BUTTON_EDGE ∧
    ButtonDBReadTask 0 (ButtonDBReadTask 1 stateReset) =
      { ButtonDBReadTask 1 stateReset with slice_counter := 1 } :=
  ⟨by decide,
   ((ButtonDBReadTask_transitions 1 stateReset).2.1 (by decide)).2.1 rfl,
   (ButtonDBReadTask_transitions 0 (ButtonDBReadTask 1 stateReset)).1 (by decide)⟩

theorem debounceRun_latch_clear (idr : Nat → Nat) (get : Nat → Bool) (s : State)
    (h0 : s.buttonLatch = NOT_PRESSED) (n : Nat)
    (hno : ∀ j, j < n → ¬ (0 < (debounceRun idr get j s).slice_counter ∧
      (debounceRun idr get j s).button_state = BUTTON_VERF)) :
    (debounceRun idr get n s).buttonLatch = NOT_PRESSED := by
  induction n with
  | zero => exact h0
  | succ n ih =>
    have ih' := ih (fun j hj => hno j (by omega))
    have hb : (ButtonDBReadTask (idr n) (debounceRun idr get n s)).buttonLatch = NOT_PRESSED := by
      rw [ButtonDBReadTask_latch, if_neg (hno n (by omega))]
      exact ih'
    show (if get n then _ else _ : State).buttonLatch = _
    split
    · rw [ButtonGet_snd_latch, hb]; rfl
    · exact hb

/-- C15: `ButtonGet` returns `PRESSED` if and only if the latch was set when it was
called, and the latch is clear afterwards in every case; after that every further
`ButtonGet` returns `NOT_PRESSED` as long as no call of `ButtonDBReadTask` sets the latch
again.  The latch holds one of the two values the firmware ever stores in it, and both
functions keep it so. -/
theorem ButtonGet_consumes (s : State)
    (h : s.buttonLatch = PRESSED ∨ s.buttonLatch = NOT_PRESSED) :
    ((ButtonGet s).1 = PRESSED ↔ s.buttonLatch = PRESSED) ∧
    ((ButtonGet s).1 = NOT_PRESSED ↔ s.buttonLatch = NOT_PRESSED) ∧
    (ButtonGet s).2 = { s with buttonLatch := NOT_PRESSED } ∧
    (ButtonGet (ButtonGet s).2).1 = NOT_PRESSED ∧
    (∀ (idr : Nat → Nat) (get : Nat → Bool) (n : Nat),
      (∀ j, j < n → ¬ (0 < (debounceRun idr get j (ButtonGet s).2).slice_counter ∧
        (debounceRun idr get j (ButtonGet s).2).button_state = BUTTON_VERF)) →
      (ButtonGet (debounceRun idr get n (ButtonGet s).2)).1 = NOT_PRESSED) ∧
    (∀ idr, (ButtonDBReadTask idr s).buttonLatch = PRESSED ∨
      (ButtonDBReadTask idr s).buttonLatch = NOT_PRESSED) := by
  have h2 : (ButtonGet s).2 = { s with buttonLatch := NOT_PRESSED } := by
    unfold ButtonGet
    dsimp only
    rcases h with h | h
    · rw [if_pos h]
    · rw [if_neg (by rw [h]; decide)]
      cases s
      simp only at h
      subst h
      rfl
  have hl : (ButtonGet s).2.buttonLatch = NOT_PRESSED := by rw [h2]
  refine ⟨Iff.rfl, Iff.rfl, h2, hl, ?_, ?_⟩
  · intro idr get n hno
    exact debounceRun_latch_clear idr get _ hl n hno
  · intro idr
    rw [ButtonDBReadTask_latch]
    split
    · exact Or.inl rfl
    · exact h

/-- A witness of C15: with the latch set at reset, the first `ButtonGet` returns
`PRESSED` and the second `NOT_PRESSED`. -/
theorem ButtonGet_consumes_witness :
    (statePressed.buttonLatch = PRESSED ∨ statePressed.buttonLatch = NOT_PRESSED) ∧
    (ButtonGet statePressed).1 = PRESSED ∧
    (ButtonGet (ButtonGet statePressed).2).1 = NOT_PRESSED :=
  have h := ButtonGet_consumes statePressed (Or.inl rfl)
  ⟨Or.inl rfl, h.1.2 rfl, h.2.2.2.1⟩

theorem idr_bit7_congr (x y : Nat) (h : x / 2 = y / 2) :
    (x &&& GPIO_IDR_ID_Msk 7) >>> 7 = (y &&& GPIO_IDR_ID_Msk 7) >>> 7 := by
  have hs : ∀ n, x.testBit (n + 1) = y.testBit (n + 1) := fun n => by
    rw [Nat.testBit_succ, Nat.testBit_succ, h]
  apply Nat.eq_of_testBit_eq
  intro i
  simp only [Nat.testBit_shiftRight, Nat.testBit_and]
  rw [show 7 + i = (6 + i) + 1 by omega, hs]

theorem checkerReadICOutput_congr (board1 board2 : Board)
    (hA : ∀ hw, board2 hw Port.A = board1 hw Port.A)
    (hB : ∀ hw, board2 hw Port.B = board1 hw Port.B)
    (hC : ∀ hw, board2 hw Port.C / 2 = board1 hw Port.C / 2) :
    checkerReadICOutput board2 = checkerReadICOutput board1 := by
  funext ic_pin hw
  unfold checkerReadICOutput
  split <;> first
    | rfl
    | (unfold readLine; dsimp only; rw [hA])
    | (unfold readLine; dsimp only; rw [hB])
    | (unfold readLine; dsimp only; rw [idr_bit7_congr _ _ (hC _)])

theorem CheckerTestIC_congr (board1 board2 : Board)
    (hr : checkerReadICOutput board2 = checkerReadICOutput board1) :
    CheckerTestIC board2 = CheckerTestIC board1 := by
  have ha : applyVector board2 = applyVector board1 := by
    funext IC f gs g a b c d hw
    unfold applyVector
    rw [hr]
  have hv : vectorBody board2 = vectorBody board1 := by
    funext IC f gs g a b c d hw
    unfold vectorBody
    rw [ha]
  have hl : laneLoops board2 = laneLoops board1 := by
    funext IC f gs g hw
    unfold laneLoops
    rw [hv]
  have hg : ∀ (IC : IC_PARAMETERS_T) (k f : Nat) (l : List Nat) (gs : Nat) (hw : HW),
      gateLoop board2 IC k f l gs hw = gateLoop board1 IC k f l gs hw := by
    intro IC k f l
    induction l with
    | nil => intro gs hw; rfl
    | cons g l ih =>
      intro gs hw
      simp only [gateLoop, hl]
      split
      · rfl
      · exact ih _ _
  funext IC hw
  unfold CheckerTestIC
  exact hg _ _ _ _ _ _

theorem checkCase_button (board : Board) (IC : IC_PARAMETERS_T) (mask : Nat)
    (next : CONTROL_STATE_T) (s : State) :
    (checkCase board IC mask next s).slice_counter = s.slice_counter ∧
    (checkCase board IC mask next s).button_state = s.button_state := by
  unfold checkCase
  dsimp only
  split <;> exact ⟨rfl, rfl⟩

theorem checkCase_congr (board1 board2 : Board) (IC : IC_PARAMETERS_T) (mask : Nat)
    (next : CONTROL_STATE_T) (s1 s2 : State)
    (hCT : CheckerTestIC board2 = CheckerTestIC board1)
    (hhw : s2.hw = s1.hw) (hlcd : s2.lcd = s1.lcd) (hrf : s2.result_field = s1.result_field) :
    ((checkCase board1 IC mask next s1).buttonLatch = s1.buttonLatch ∧
      (checkCase board1 IC mask next s1).slice_counter = s1.slice_counter ∧
      (checkCase board1 IC mask next s1).button_state = s1.button_state) ∧
    (checkCase board2 IC mask next s2).control_state =
      (checkCase board1 IC mask next s1).control_state ∧
    (checkCase board2 IC mask next s2).result_field =
      (checkCase board1 IC mask next s1).result_field ∧
    (checkCase board2 IC mask next s2).hw = (checkCase board1 IC mask next s1).hw ∧
    (checkCase board2 IC mask next s2).lcd = (checkCase board1 IC mask next s1).lcd := by
  refine ⟨⟨checkCase_buttonLatch _ _ _ _ _, (checkCase_button _ _ _ _ _).1,
    (checkCase_button _ _ _ _ _).2⟩, rfl, ?_, ?_, ?_⟩
  · rw [checkCase_result_field, checkCase_result_field, hCT, hhw, hrf]
  · rw [checkCase_hw, checkCase_hw, hCT, hhw]
  · rw [checkCase_lcd, checkCase_lcd, hlcd]

/-- C17: while `ControlTask` is in a `CHECK` state or in `DISPLAY_RESULT` it leaves the
latch (and the statics of the debouncer) as they are, and its next state, result field,
hardware effects and display calls are the same for every value of the latch and of the
debouncer statics and for every level of the button line (bit 0 of port C): the next
state is the successor fixed by the current state alone. -/
theorem ControlTask_ignores_button (board1 board2 : Board) (s1 s2 : State)
    (hA : ∀ hw, board2 hw Port.A = board1 hw Port.A)
    (hB : ∀ hw, board2 hw Port.B = board1 hw Port.B)
    (hC : ∀ hw, board2 hw Port.C / 2 = board1 hw Port.C / 2)
    (hc1 : s1.control_state ≠ IDLE) (hc9 : s1.control_state ≤ DISPLAY_RESULT)
    (hcs : s2.control_state = s1.control_state)
    (hhw : s2.hw = s1.hw) (hlcd : s2.lcd = s1.lcd) (hrf : s2.result_field = s1.result_field) :
    ((ControlTask board1 s1).buttonLatch = s1.buttonLatch ∧
      (ControlTask board1 s1).slice_counter = s1.slice_counter ∧
      (ControlTask board1 s1).button_state = s1.button_state) ∧
    (ControlTask board2 s2).control_state = (ControlTask board1 s1).control_state ∧
    (ControlTask board2 s2).result_field = (ControlTask board1 s1).result_field ∧
    (ControlTask board2 s2).hw = (ControlTask board1 s1).hw ∧
    (ControlTask board2 s2).lcd = (ControlTask board1 s1).lcd ∧
    (ControlTask board1 s1).control_state =
      (if s1.control_state = DISPLAY_RESULT then IDLE else s1.control_state + 1) := by
  have hCT := CheckerTestIC_congr board1 board2 (checkerReadICOutput_congr board1 board2 hA hB hC)
  obtain ⟨c, hcv⟩ : ∃ c : Nat, c = s1.control_state := ⟨_, rfl⟩
  have hc1' : c ≠ 0 := by rw [hcv]; exact hc1
  have hc9' : c ≤ 9 := by rw [hcv]; exact hc9
  have hcases : c = 1 ∨ c = 2 ∨ c = 3 ∨ c = 4 ∨ c = 5 ∨ c = 6 ∨ c = 7 ∨ c = 8 ∨ c = 9 := by
    omega
  rw [hcv] at hcases
  rcases hcases with h | h | h | h | h | h | h | h | h
  · rw [ControlTask_CHECK_74HC00 board1 s1 h, ControlTask_CHECK_74HC00 board2 s2 (hcs.trans h)]
    obtain ⟨a, b, c, d, e⟩ := checkCase_congr board1 board2 IC_74HC00_PARAM MASK_74HC00
      CHECK_74HC02 s1 s2 hCT hhw hlcd hrf
    exact ⟨a, b, c, d, e, by rw [h]; rfl⟩
  · rw [ControlTask_CHECK_74HC02 board1 s1 h, ControlTask_CHECK_74HC02 board2 s2 (hcs.trans h)]
    obtain ⟨a, b, c, d, e⟩ := checkCase_congr board1 board2 IC_74HC02_PARAM MASK_74HC02
      CHECK_74HC04 s1 s2 hCT hhw hlcd hrf
    exact ⟨a, b, c, d, e, by rw [h]; rfl⟩
  · rw [ControlTask_CHECK_74HC04 board1 s1 h, ControlTask_CHECK_74HC04 board2 s2 (hcs.trans h)]
    obtain ⟨a, b, c, d, e⟩ := checkCase_congr board1 board2 IC_74HC04_PARAM MASK_74HC04
      CHECK_74HC08 s1 s2 hCT hhw hlcd hrf
    exact ⟨a, b, c, d, e, by rw [h]; rfl⟩
  · rw [ControlTask_CHECK_74HC08 board1 s1 h, ControlTask_CHECK_74HC08 board2 s2 (hcs.trans h)]
    obtain ⟨a, b, c, d, e⟩ := checkCase_congr board1 board2 IC_74HC08_PARAM MASK_74HC08
      CHECK_74HC10 s1 s2 hCT hhw hlcd hrf
    exact ⟨a, b, c, d, e, by rw [h]; rfl⟩
  · rw [ControlTask_CHECK_74HC10 board1 s1 h, ControlTask_CHECK_74HC10 board2 s2 (hcs.trans h)]
    obtain ⟨a, b, c, d, e⟩ := checkCase_congr board1 board2 IC_74HC10_PARAM MASK_74HC10
      CHECK_74HC20 s1 s2 hCT hhw hlcd hrf
    exact ⟨a, b, c, d, e, by rw [h]; rfl⟩
  · rw [ControlTask_CHECK_74HC20 board1 s1 h, ControlTask_CHECK_74HC20 board2 s2 (hcs.trans h)]
    obtain ⟨a, b, c, d, e⟩ := checkCase_congr board1 board2 IC_74HC20_PARAM MASK_74HC20
      CHECK_74HC27 s1 s2 hCT hhw hlcd hrf
    exact ⟨a, b, c, d, e, by rw [h]; rfl⟩
  · rw [ControlTask_CHECK_74HC27 board1 s1 h, ControlTask_CHECK_74HC27 board2 s2 (hcs.trans h)]
    obtain ⟨a, b, c, d, e⟩ := checkCase_congr board1 board2 IC_74HC27_PARAM MASK_74HC27
      CHECK_74HC86 s1 s2 hCT hhw hlcd hrf
    exact ⟨a, b, c, d, e, by rw [h]; rfl⟩
  · rw [ControlTask_CHECK_74HC86 board1 s1 h, ControlTask_CHECK_74HC86 board2 s2 (hcs.trans h)]
    obtain ⟨a, b, c, d, e⟩ := checkCase_congr board1 board2 IC_74HC86_PARAM MASK_74HC86
      DISPLAY_RESULT s1 s2 hCT hhw hlcd hrf
    exact ⟨a, b, c, d, e, by rw [h]; rfl⟩
  · rw [ControlTask_DISPLAY_RESULT board1 s1 h,
      ControlTask_DISPLAY_RESULT board2 s2 (hcs.trans h), hrf]
    have hd : ∀ (rf : Nat) (s : State), (DisplayResult rf s).buttonLatch = s.buttonLatch ∧
        (DisplayResult rf s).slice_counter = s.slice_counter ∧
        (DisplayResult rf s).button_state = s.button_state ∧
        (DisplayResult rf s).hw = s.hw ∧
        ∃ p, (DisplayResult rf s).lcd = s.lcd ++
          [LcdCall.clearDisplay, LcdCall.moveCursor 1 1, LcdCall.displayString p] ∧
          ∀ t : State, (DisplayResult rf t).lcd = t.lcd ++
            [LcdCall.clearDisplay, LcdCall.moveCursor 1 1, LcdCall.displayString p] := by
      intro rf s
      unfold DisplayResult
      split <;> exact ⟨rfl, rfl, rfl, rfl, _, rfl, fun _ => rfl⟩
    obtain ⟨l1, l2, l3, l4, p, l5, l6⟩ := hd s1.result_field s1
    refine ⟨⟨l1, l2, l3⟩, rfl, rfl, ?_, ?_, by rw [h]; rfl⟩
    · show (DisplayResult s1.result_field s2).hw = (DisplayResult s1.result_field s1).hw
      rw [(hd s1.result_field s2).2.2.2.1, l4, hhw]
    · show (DisplayResult s1.result_field s2).lcd = (DisplayResult s1.result_field s1).lcd
      rw [l6 s2, l5, hlcd]

/-- A witness of C17: in `CHECK_74HC08`, with the latch set and the button line high or
not, the next state is `CHECK_74HC10`. -/
theorem ControlTask_ignores_button_witness :
    (CHECK_74HC08 ≠ IDLE ∧ CHECK_74HC08 ≤ DISPLAY_RESULT) ∧
    (ControlTask buttonHighBoard
        { stateReset with control_state := CHECK_74HC08, buttonLatch := PRESSED }).control_state =
      (ControlTask lowBoard { stateReset with control_state := CHECK_74HC08 }).control_state ∧
    (ControlTask lowBoard { stateReset with control_state := CHECK_74HC08 }).control_state =
      CHECK_74HC10 :=
  have h := ControlTask_ignores_button lowBoard buttonHighBoard
    { stateReset with control_state := CHECK_74HC08 }
    { stateReset with control_state := CHECK_74HC08, buttonLatch := PRESSED }
    (fun _ => rfl) (fun _ => rfl) (fun _ => by simp [buttonHighBoard, lowBoard])
    (by decide) (by decide) rfl rfl rfl rfl
  ⟨by decide, h.2.1, h.2.2.2.2.2⟩

theorem elapse_frame (n : Nat) (t : SysTick) :
    (elapse n t).systickLastCount = t.systickLastCount ∧
    (elapse n t).systickInitFlag = t.systickInitFlag := by
  induction n with
  | zero => exact ⟨rfl, rfl⟩
  | succ n ih => exact ih

theorem elapse_count (n : Nat) (t : SysTick) (h : t.systickCurrentCount < 4294967296) :
    (elapse n t).systickCurrentCount = (t.systickCurrentCount + n) % 4294967296 := by
  induction n with
  | zero => simp [elapse, Nat.mod_eq_of_lt h]
  | succ n ih =>
    show ((elapse n t).systickCurrentCount + 1) % 4294967296 = _
    rw [ih]
    omega

theorem elapse_succ_handler (n : Nat) (t : SysTick) :
    elapse n (SysTick_Handler t) = elapse (n + 1) t := by
  induction n with
  | zero => rfl
  | succ n ih =>
    show SysTick_Handler (elapse n (SysTick_Handler t)) = SysTick_Handler (elapse (n + 1) t)
    rw [ih]

theorem systickElapsed_handler (t : SysTick) (hc : t.systickCurrentCount < 4294967296)
    (hl : t.systickLastCount < 4294967296) :
    systickElapsed (SysTick_Handler t) = (systickElapsed t + 1) % 4294967296 := by
  unfold systickElapsed SysTick_Handler
  dsimp only
  omega

theorem sysTickWaitLoop_done (ts_period fuel : Nat) (t : SysTick)
    (h : ¬ systickElapsed t < ts_period) : sysTickWaitLoop ts_period fuel t = some t := by
  cases fuel <;> simp [sysTickWaitLoop, h]

theorem sysTickWaitLoop_waits (ts_period : Nat) (hts : ts_period < 4294967296) (j : Nat) :
    ∀ (fuel : Nat) (t : SysTick), t.systickCurrentCount < 4294967296 →
      t.systickLastCount < 4294967296 → systickElapsed t + j = ts_period → j ≤ fuel →
      sysTickWaitLoop ts_period fuel t = some (elapse j t) := by
  induction j with
  | zero =>
    intro fuel t _ _ he _
    exact sysTickWaitLoop_done _ _ _ (by omega)
  | succ j ih =>
    intro fuel t hc hl he hf
    obtain ⟨f, rfl⟩ : ∃ f, fuel = f + 1 := ⟨fuel - 1, by omega⟩
    have hlt : systickElapsed t < ts_period := by omega
    have hh : systickElapsed (SysTick_Handler t) = systickElapsed t + 1 := by
      rw [systickElapsed_handler t hc hl]
      exact Nat.mod_eq_of_lt (by omega)
    show (if systickElapsed t < ts_period then
      sysTickWaitLoop ts_period f (SysTick_Handler t) else some t) = _
    rw [if_pos hlt, ih f (SysTick_Handler t) (Nat.mod_lt _ (by decide)) hl (by omega) (by omega),
      elapse_succ_handler]

theorem sysTickWaitLoop_sound (ts_period : Nat) (fuel : Nat) :
    ∀ (t u : SysTick), sysTickWaitLoop ts_period fuel t = some u →
      ts_period ≤ systickElapsed u ∧ ∃ j, j ≤ fuel ∧ u = elapse j t := by
  induction fuel with
  | zero =>
    intro t u h
    by_cases hlt : systickElapsed t < ts_period
    · simp [sysTickWaitLoop, hlt] at h
    · simp only [sysTickWaitLoop, hlt, if_false, Option.some.injEq] at h
      subst h
      exact ⟨by omega, 0, Nat.le_refl _, rfl⟩
  | succ f ih =>
    intro t u h
    by_cases hlt : systickElapsed t < ts_period
    · simp only [sysTickWaitLoop, hlt, if_true] at h
      obtain ⟨h1, j, hj, rfl⟩ := ih _ _ h
      exact ⟨h1, j + 1, by omega, elapse_succ_handler j t⟩
    · simp only [sysTickWaitLoop, hlt, if_false, Option.some.injEq] at h
      subst h
      exact ⟨by omega, 0, Nat.zero_le _, rfl⟩

theorem SysTickWaitTask_waiting_path (fuel ts_period : Nat) (t : SysTick)
    (h : t.systickInitFlag = 0) :
    SysTickWaitTask fuel ts_period t =
      (sysTickWaitLoop ts_period fuel t).map
        (fun u => { u with systickLastCount := u.systickCurrentCount }) := by
  unfold SysTickWaitTask
  simp [h]

theorem SysTickWaitTask_flag (fuel ts_period : Nat) (t u : SysTick)
    (h : SysTickWaitTask fuel ts_period t = some u) : u.systickInitFlag = 0 := by
  unfold SysTickWaitTask at h
  dsimp only at h
  split at h
  · rename_i hf
    cases hl : sysTickWaitLoop ts_period fuel t with
    | none => rw [hl] at h; simp at h
    | some v =>
      rw [hl] at h
      simp only [Option.map_some', Option.some.injEq] at h
      obtain ⟨_, j, _, rfl⟩ := sysTickWaitLoop_sound _ _ _ _ hl
      rw [← h]
      show (elapse j t).systickInitFlag = 0
      rw [(elapse_frame j t).2, hf]
  · simp only [Option.map_some', Option.some.injEq] at h
    rw [← h]

theorem SysTickLater_flag (t u : SysTick) (h0 : t.systickInitFlag = 0)
    (h : SysTickLater t u) : u.systickInitFlag = 0 := by
  induction h with
  | refl => exact h0
  | tick u _ ih => exact ih
  | wait u v fuel ts _ hw _ => exact SysTickWaitTask_flag fuel ts u v hw

/-- C18: the first `SysTickWaitTask` call after `SysTickInit` returns without waiting,
whatever `ts_period` and the tick count are (it returns even with no interrupt allowed
during the call, and the count is as at entry), and records the current count as the
baseline; every later call takes the waiting path. -/
theorem SysTickWaitTask_first_call (st_error : Nat) (t0 : SysTick) (n fuel ts_period : Nat) :
    SysTickWaitTask fuel ts_period (elapse n (SysTickInit st_error t0).2) =
      some { elapse n (SysTickInit st_error t0).2 with
        systickInitFlag := 0,
        systickLastCount := (elapse n (SysTickInit st_error t0).2).systickCurrentCount } ∧
    ∀ u, SysTickLater { elapse n (SysTickInit st_error t0).2 with
        systickInitFlag := 0,
        systickLastCount := (elapse n (SysTickInit st_error t0).2).systickCurrentCount } u →
      u.systickInitFlag = 0 ∧
      ∀ fuel' ts', SysTickWaitTask fuel' ts' u =
        (sysTickWaitLoop ts' fuel' u).map
          (fun v => { v with systickLastCount := v.systickCurrentCount }) := by
  have hflag : (elapse n (SysTickInit st_error t0).2).systickInitFlag = 1 := by
    rw [(elapse_frame n _).2]; rfl
  constructor
  · unfold SysTickWaitTask
    simp [hflag]
  · intro u hu
    have hf := SysTickLater_flag _ u rfl hu
    exact ⟨hf, fun fuel' ts' => SysTickWaitTask_waiting_path fuel' ts' u hf⟩

/-- A witness of C18: three interrupts after `SysTickInit`, a first call with period 7
and no interrupt allowed returns with baseline 3; the next call takes the waiting path and
returns at count 10. -/
theorem SysTickWaitTask_first_call_witness :
    SysTickWaitTask 0 7 (elapse 3 (SysTickInit 0 ⟨5, 9, 0⟩).2) = some ⟨3, 3, 0⟩ ∧
    SysTickWaitTask 7 7 ⟨3, 3, 0⟩ = some ⟨10, 10, 0⟩ ∧
    (SysTick_Handler ⟨3, 3, 0⟩).systickInitFlag = 0 :=
  have h := SysTickWaitTask_first_call 0 ⟨5, 9, 0⟩ 3 0 7
  ⟨h.1.trans (by decide), by decide,
   (h.2 (SysTick_Handler ⟨3, 3, 0⟩) (SysTickLater.tick _ SysTickLater.refl)).1⟩

theorem SysTickWaitTask_returns (fuel ts_period : Nat) (t : SysTick)
    (hflag : t.systickInitFlag = 0) (hc : t.systickCurrentCount < 4294967296)
    (hl : t.systickLastCount < 4294967296) (hts : ts_period < 4294967296)
    (hfuel : ts_period - systickElapsed t ≤ fuel) :
    SysTickWaitTask fuel ts_period t =
      some { elapse (ts_period - systickElapsed t) t with
        systickLastCount := (elapse (ts_period - systickElapsed t) t).systickCurrentCount } := by
  rw [SysTickWaitTask_waiting_path fuel ts_period t hflag]
  by_cases hlt : systickElapsed t < ts_period
  · rw [sysTickWaitLoop_waits ts_period hts (ts_period - systickElapsed t) fuel t hc hl
      (by omega) hfuel]
    rfl
  · rw [sysTickWaitLoop_done _ _ _ hlt]
    have : ts_period - systickElapsed t = 0 := by omega
    rw [this]
    rfl

theorem SysTickWaitTask_sound (fuel ts_period : Nat) (t u : SysTick)
    (hflag : t.systickInitFlag = 0) (h : SysTickWaitTask fuel ts_period t = some u) :
    ts_period ≤ (u.systickCurrentCount + 4294967296 - t.systickLastCount) % 4294967296 ∧
    u.systickLastCount = u.systickCurrentCount ∧
    ∃ j, j ≤ fuel ∧ u.systickCurrentCount = (elapse j t).systickCurrentCount := by
  rw [SysTickWaitTask_waiting_path fuel ts_period t hflag] at h
  cases hl : sysTickWaitLoop ts_period fuel t with
  | none => rw [hl] at h; simp at h
  | some v =>
    rw [hl] at h
    simp only [Option.map_some', Option.some.injEq] at h
    obtain ⟨h1, j, hj, hv⟩ := sysTickWaitLoop_sound _ _ _ _ hl
    subst h
    refine ⟨?_, rfl, j, hj, by rw [hv]⟩
    have : v.systickLastCount = t.systickLastCount := by rw [hv]; exact (elapse_frame j t).1
    unfold systickElapsed at h1
    rw [this] at h1
    exact h1

/-- C19: a `SysTickWaitTask` call after the first returns (given a period below 2^32 and
enough interrupts) and, at return, the tick count is at least `ts_period` past the
baseline the previous call recorded, in 32-bit arithmetic and, when the count has not
wrapped since the baseline, as plain numbers; the baseline it records is the count at
return, so the next return is again at least its period later. -/
theorem SysTickWaitTask_period (fuel ts_period : Nat) (t u : SysTick)
    (hflag : t.systickInitFlag = 0) (hc : t.systickCurrentCount < 4294967296)
    (hl : t.systickLastCount < 4294967296)
    (hret : SysTickWaitTask fuel ts_period t = some u) :
    ts_period ≤ (u.systickCurrentCount + 4294967296 - t.systickLastCount) % 4294967296 ∧
    (t.systickLastCount ≤ u.systickCurrentCount →
      t.systickLastCount + ts_period ≤ u.systickCurrentCount) ∧
    u.systickLastCount = u.systickCurrentCount ∧
    (∀ k fuel2 ts2 v, SysTickWaitTask fuel2 ts2 (elapse k u) = some v →
      ts2 ≤ (v.systickCurrentCount + 4294967296 - u.systickCurrentCount) % 4294967296 ∧
      (u.systickCurrentCount ≤ v.systickCurrentCount →
        u.systickCurrentCount + ts2 ≤ v.systickCurrentCount)) ∧
    (∀ fuel', ts_period < 4294967296 → ts_period ≤ fuel' →
      ∃ v, SysTickWaitTask fuel' ts_period t = some v) := by
  obtain ⟨h1, h2, j, _, hj⟩ := SysTickWaitTask_sound fuel ts_period t u hflag hret
  have huc : u.systickCurrentCount < 4294967296 := by
    rw [hj, elapse_count j t hc]
    exact Nat.mod_lt _ (by decide)
  have huf : u.systickInitFlag = 0 := SysTickWaitTask_flag _ _ _ _ hret
  refine ⟨h1, ?_, h2, ?_, ?_⟩
  · intro hle
    omega
  · intro k fuel2 ts2 v hv
    have hkf : (elapse k u).systickInitFlag = 0 := by rw [(elapse_frame k u).2, huf]
    obtain ⟨g1, _, i, _, hi⟩ := SysTickWaitTask_sound fuel2 ts2 (elapse k u) v hkf hv
    rw [(elapse_frame k u).1, h2] at g1
    have hvc : v.systickCurrentCount < 4294967296 := by
      rw [hi, elapse_count i _ (by rw [elapse_count k u huc]; exact Nat.mod_lt _ (by decide))]
      exact Nat.mod_lt _ (by decide)
    exact ⟨g1, fun hle => by omega⟩
  · intro fuel' hts hf
    exact ⟨_, SysTickWaitTask_returns fuel' ts_period t hflag hc hl hts (by omega)⟩

/-- A witness of C19: baseline 3, entry at count 5, period 7: the call returns at count 10. -/
theorem SysTickWaitTask_period_witness :
    SysTickWaitTask 7 7 ⟨5, 3, 0⟩ = some ⟨10, 10, 0⟩ ∧
    7 ≤ ((10 : Nat) + 4294967296 - 3) % 4294967296 ∧ (3 : Nat) + 7 ≤ 10 :=
  have h := SysTickWaitTask_period 7 7 ⟨5, 3, 0⟩ ⟨10, 10, 0⟩ rfl (by decide) (by decide)
    (by decide)
  ⟨by decide, h.1, h.2.1 (by decide)⟩

/-- C20: when a call is entered `e ≥ ts_period` ticks after the previous baseline,
`SysTickWaitTask` returns without waiting (with no interrupt allowed, the count as at
entry) and the new baseline is the current count, which is the old baseline plus `e`, not
plus `ts_period`; the next call returns when the count is that baseline plus `ts_period`,
so the overrun is not made up. -/
theorem SysTickWaitTask_no_catch_up (ts_period e : Nat) (t : SysTick)
    (hflag : t.systickInitFlag = 0) (hl : t.systickLastCount < 4294967296)
    (hcur : t.systickCurrentCount = (t.systickLastCount + e) % 4294967296)
    (he1 : ts_period ≤ e) (he2 : e < 4294967296) :
    (∀ fuel, SysTickWaitTask fuel ts_period t =
      some { t with systickLastCount := t.systickCurrentCount }) ∧
    (ts_period < e →
      (t.systickLastCount + e) % 4294967296 ≠ (t.systickLastCount + ts_period) % 4294967296) ∧
    (∀ k fuel, k ≤ ts_period → ts_period - k ≤ fuel →
      ∃ v, SysTickWaitTask fuel ts_period
          (elapse k { t with systickLastCount := t.systickCurrentCount }) = some v ∧
        v.systickCurrentCount = (t.systickCurrentCount + ts_period) % 4294967296 ∧
        v.systickCurrentCount = (t.systickLastCount + e + ts_period) % 4294967296 ∧
        v.systickLastCount = v.systickCurrentCount) := by
  have hc : t.systickCurrentCount < 4294967296 := by
    rw [hcur]; exact Nat.mod_lt _ (by decide)
  have hel : systickElapsed t = e := by
    unfold systickElapsed
    rw [hcur]
    omega
  refine ⟨?_, ?_, ?_⟩
  · intro fuel
    rw [SysTickWaitTask_waiting_path fuel ts_period t hflag,
      sysTickWaitLoop_done _ _ _ (by omega)]
    rfl
  · intro hlt
    omega
  · intro k fuel hk hf
    have hts : ts_period < 4294967296 := by omega
    have hkc : (elapse k { t with systickLastCount := t.systickCurrentCount }).systickCurrentCount
        = (t.systickCurrentCount + k) % 4294967296 := elapse_count k _ hc
    have hkl : (elapse k { t with systickLastCount := t.systickCurrentCount }).systickLastCount
        = t.systickCurrentCount := (elapse_frame k _).1
    have hkf : (elapse k { t with systickLastCount := t.systickCurrentCount }).systickInitFlag
        = 0 := by rw [(elapse_frame k _).2]; exact hflag
    have hke : systickElapsed (elapse k { t with systickLastCount := t.systickCurrentCount })
        = k := by
      unfold systickElapsed
      rw [hkc, hkl]
      omega
    have hret := SysTickWaitTask_returns fuel ts_period _ hkf
      (by rw [hkc]; exact Nat.mod_lt _ (by decide)) (by rw [hkl]; exact hc) hts
      (by rw [hke]; exact hf)
    refine ⟨_, hret, ?_, ?_, rfl⟩
    · show (elapse _ _).systickCurrentCount = _
      rw [elapse_count _ _ (by rw [hkc]; exact Nat.mod_lt _ (by decide)), hkc, hke]
      omega
    · show (elapse _ _).systickCurrentCount = _
      rw [elapse_count _ _ (by rw [hkc]; exact Nat.mod_lt _ (by decide)), hkc, hke, hcur]
      omega

/-- A witness of C20: baseline 3, period 7, entry 12 ticks later at count 15: the call
returns at once with baseline 15 (not 10), and the next call returns at count 22. -/
theorem SysTickWaitTask_no_catch_up_witness :
    SysTickWaitTask 0 7 ⟨15, 3, 0⟩ = some ⟨15, 15, 0⟩ ∧
    ∃ v, SysTickWaitTask 7 7 (elapse 0 ⟨15, 15, 0⟩) = some v ∧
      v.systickCurrentCount = (15 + 7) % 4294967296 :=
  have h := SysTickWaitTask_no_catch_up 7 12 ⟨15, 3, 0⟩ rfl (by decide) (by decide)
    (by decide) (by decide)
  ⟨h.1 0, (h.2.2 0 7 (by decide) (by decide)).imp (fun _ hv => ⟨hv.1, hv.2.1⟩)⟩

theorem ControlTask_idle_no_press (board : Board) (s : State) (hc : s.control_state = IDLE)
    (hl : s.buttonLatch = NOT_PRESSED) : ControlTask board s = s := by
  rw [ControlTask_IDLE board s hc, if_neg (by rw [hl]; decide)]
  cases s
  simp only at hc
  subst hc
  rfl

theorem superLoopN_succ (board : Board) (idr : Nat → Nat) (n : Nat) (s : State) :
    superLoopN board idr (n + 1) s =
      ControlTask board (ButtonDBReadTask (idr n) (superLoopN board idr n s)) := rfl

/-- C13: from the initial state of the debouncer and of the sequencer, if the pin is never
asserted on two consecutive evaluated samples (the calls 0, 2, 4, ... of the super loop),
the latch is never set, neither between `ButtonDBReadTask` and `ControlTask` nor after the
pass, `ButtonGet` returns `NOT_PRESSED`, and `ControlTask` stays in `IDLE`, runs no test
(the hardware state and call log stay as they were) and shows nothing. -/
theorem short_press_ignored (board : Board) (idr : Nat → Nat) (s : State)
    (hinit : InitialState s)
    (hshort : ∀ i, ¬ (asserted (idr (2 * i)) = true ∧ asserted (idr (2 * i + 2)) = true))
    (n : Nat) :
    (superLoopN board idr n s).buttonLatch = NOT_PRESSED ∧
    (ButtonDBReadTask (idr n) (superLoopN board idr n s)).buttonLatch = NOT_PRESSED ∧
    (ButtonGet (ButtonDBReadTask (idr n) (superLoopN board idr n s))).1 = NOT_PRESSED ∧
    (superLoopN board idr n s).control_state = IDLE ∧
    (superLoopN board idr n s).hw = s.hw ∧
    (superLoopN board idr n s).lcd = s.lcd ∧
    (superLoopN board idr n s).result_field = 0 := by
  obtain ⟨i1, i2, i3, i4, i5⟩ := hinit
  have key : ∀ n, (superLoopN board idr n s).buttonLatch = NOT_PRESSED ∧
      (superLoopN board idr n s).control_state = IDLE ∧
      (superLoopN board idr n s).hw = s.hw ∧
      (superLoopN board idr n s).lcd = s.lcd ∧
      (superLoopN board idr n s).result_field = 0 ∧
      (superLoopN board idr n s).slice_counter = (if n % 2 = 0 then 1 else 0) ∧
      ((superLoopN board idr n s).button_state = BUTTON_UP ∨
        ((superLoopN board idr n s).button_state = BUTTON_EDGE ∧
          ((n % 2 = 0 ∧ 2 ≤ n ∧ asserted (idr (n - 2)) = true) ∨
           (n % 2 = 1 ∧ asserted (idr (n - 1)) = true)))) := by
    intro n
    induction n with
    | zero => exact ⟨i3, i4, rfl, rfl, i5, by simpa using i1, Or.inl i2⟩
    | succ n ih =>
      obtain ⟨a1, a2, a3, a4, a5, a6, a7⟩ := ih
      obtain ⟨f1, f2, f3, f4⟩ := ButtonDBReadTask_frame (idr n) (superLoopN board idr n s)
      have hnv : (superLoopN board idr n s).button_state ≠ BUTTON_VERF := by
        rcases a7 with h | ⟨h, _⟩ <;> rw [h] <;> decide
      have hlatch : (ButtonDBReadTask (idr n) (superLoopN board idr n s)).buttonLatch
          = NOT_PRESSED := by
        rw [ButtonDBReadTask_latch, if_neg (fun hh => hnv hh.2)]
        exact a1
      have hct : superLoopN board idr (n + 1) s =
          ButtonDBReadTask (idr n) (superLoopN board idr n s) := by
        rw [superLoopN_succ]
        exact ControlTask_idle_no_press board _ (by rw [f3]; exact a2) hlatch
      rw [hct]
      refine ⟨hlatch, by rw [f3]; exact a2, by rw [f1]; exact a3, by rw [f2]; exact a4,
        by rw [f4]; exact a5, ?_, ?_⟩
      · by_cases he : n % 2 = 0
        · rw [if_pos he] at a6
          rw [if_neg (by omega)]
          unfold ButtonDBReadTask
          dsimp only
          rw [a6]
          simp only [Nat.lt_one_iff, Nat.one_pos, if_true]
          split <;> first | (split <;> rfl) | rfl
        · rw [if_neg he] at a6
          rw [if_pos (by omega), ButtonDBReadTask_skip _ _ a6]
      · by_cases he : n % 2 = 0
        · rw [if_pos he] at a6
          have hc : 0 < (superLoopN board idr n s).slice_counter := by rw [a6]; decide
          rcases a7 with h | ⟨h, h' | h'⟩
          · rw [ButtonDBReadTask_UP _ _ hc h]
            by_cases hp : asserted (idr n) = true
            · right
              refine ⟨by simp [hp], Or.inr ⟨by omega, ?_⟩⟩
              simpa using hp
            · left
              simp [hp]
          · rw [ButtonDBReadTask_EDGE _ _ hc h]
            have hp : ¬ asserted (idr n) = true := by
              intro hp
              have e1 : 2 * ((n - 2) / 2) = n - 2 := by omega
              have e2 : 2 * ((n - 2) / 2) + 2 = n := by omega
              have hs := hshort ((n - 2) / 2)
              rw [e2, e1] at hs
              exact hs ⟨h'.2.2, hp⟩
            left
            simp [hp]
          · omega
        · rw [if_neg he] at a6
          rw [ButtonDBReadTask_skip _ _ a6]
          rcases a7 with h | ⟨h, h' | h'⟩
          · exact Or.inl h
          · omega
          · right
            refine ⟨h, Or.inl ⟨by omega, by omega, ?_⟩⟩
            have : n + 1 - 2 = n - 1 := by omega
            rw [this]
            exact h'.2
  obtain ⟨a1, a2, a3, a4, a5, _, a7⟩ := key n
  have hnv : (superLoopN board idr n s).button_state ≠ BUTTON_VERF := by
    rcases a7 with h | ⟨h, _⟩ <;> rw [h] <;> decide
  have hlatch : (ButtonDBReadTask (idr n) (superLoopN board idr n s)).buttonLatch
      = NOT_PRESSED := by
    rw [ButtonDBReadTask_latch, if_neg (fun hh => hnv hh.2)]
    exact a1
  exact ⟨a1, hlatch, hlatch, a2, a3, a4, a5⟩

/-- A witness of C13: a press lasting pass 3 only (not an evaluated one), from reset. -/
theorem short_press_ignored_witness :
    (InitialState stateReset ∧
      ∀ i, ¬ (asserted (singleTickPress (2 * i)) = true ∧
        asserted (singleTickPress (2 * i + 2)) = true)) ∧
    (superLoopN lowBoard singleTickPress 9 stateReset).buttonLatch = NOT_PRESSED ∧
    (superLoopN lowBoard singleTickPress 9 stateReset).control_state = IDLE :=
  have hs : ∀ i, ¬ (asserted (singleTickPress (2 * i)) = true ∧
      asserted (singleTickPress (2 * i + 2)) = true) := by
    intro i h
    have h1 := h.1
    unfold singleTickPress at h1
    split at h1
    · omega
    · exact absurd h1 (by decide)
  have hi : InitialState stateReset := ⟨rfl, rfl, rfl, rfl, rfl⟩
  have h := short_press_ignored lowBoard singleTickPress stateReset hi hs 9
  ⟨⟨hi, hs⟩, h.1, h.2.2.2.1⟩

theorem debounceRun_succ (idr : Nat → Nat) (get : Nat → Bool) (n : Nat) (s : State) :
    (debounceRun idr get (n + 1) s).button_state =
      (ButtonDBReadTask (idr n) (debounceRun idr get n s)).button_state ∧
    (debounceRun idr get (n + 1) s).slice_counter =
      (ButtonDBReadTask (idr n) (debounceRun idr get n s)).slice_counter ∧
    ((ButtonDBReadTask (idr n) (debounceRun idr get n s)).buttonLatch = NOT_PRESSED →
      (debounceRun idr get (n + 1) s).buttonLatch = NOT_PRESSED) := by
  show (if get n then _ else _ : State).button_state = _ ∧
    (if get n then _ else _ : State).slice_counter = _ ∧
    (_ → (if get n then _ else _ : State).buttonLatch = _)
  split
  · refine ⟨(ButtonGet_snd_frame _).2.1, (ButtonGet_snd_frame _).1, fun h => ?_⟩
    rw [ButtonGet_snd_latch, h]
    rfl
  · exact ⟨rfl, rfl, fun h => h⟩

theorem debounceRun_add (idr : Nat → Nat) (get : Nat → Bool) (m j : Nat) (s : State) :
    debounceRun idr get (m + j) s =
      debounceRun (fun i => idr (m + i)) (fun i => get (m + i)) j (debounceRun idr get m s) := by
  induction j with
  | zero => rfl
  | succ j ih =>
    show (let t := ButtonDBReadTask (idr (m + j)) (debounceRun idr get (m + j) s)
      if get (m + j) then (ButtonGet t).2 else t) = _
    rw [ih]
    rfl

theorem debounceRun_idle_prefix (idr : Nat → Nat) (get : Nat → Bool) (s : State) (m : Nat)
    (hup : s.button_state = BUTTON_UP) (hl : s.buttonLatch = NOT_PRESSED)
    (hpre : ∀ n, n < m → asserted (idr n) = false) (n : Nat) (hn : n ≤ m) :
    (debounceRun idr get n s).button_state = BUTTON_UP ∧
    (debounceRun idr get n s).buttonLatch = NOT_PRESSED := by
  induction n with
  | zero => exact ⟨hup, hl⟩
  | succ n ih =>
    obtain ⟨h1, h2⟩ := ih (by omega)
    obtain ⟨e1, _, e3⟩ := debounceRun_succ idr get n s
    have hlatch : (ButtonDBReadTask (idr n) (debounceRun idr get n s)).buttonLatch
        = NOT_PRESSED := by
      rw [ButtonDBReadTask_latch, if_neg (fun hh => by rw [h1] at hh; exact absurd hh.2 (by decide))]
      exact h2
    refine ⟨?_, e3 hlatch⟩
    rw [e1]
    by_cases hc : 0 < (debounceRun idr get n s).slice_counter
    · rw [ButtonDBReadTask_UP _ _ hc h1]
      simp [hpre n (by omega)]
    · rw [ButtonDBReadTask_skip _ _ (by omega)]
      exact h1

theorem debounceRun_sustained (idr : Nat → Nat) (get : Nat → Bool) (t : State)
    (hup : t.button_state = BUTTON_UP) (hl : t.buttonLatch = NOT_PRESSED)
    (hsc : 0 < t.slice_counter) (hon : ∀ n, asserted (idr n) = true) :
    (debounceRun idr get 4 t).buttonLatch = NOT_PRESSED ∧
    (ButtonDBReadTask (idr 4) (debounceRun idr get 4 t)).buttonLatch = PRESSED ∧
    ∀ n, n ≠ 4 → (ButtonDBReadTask (idr n) (debounceRun idr get n t)).buttonLatch =
      (debounceRun idr get n t).buttonLatch := by
  have step : ∀ n, (debounceRun idr get (n + 1) t).button_state =
        (ButtonDBReadTask (idr n) (debounceRun idr get n t)).button_state ∧
      (debounceRun idr get (n + 1) t).slice_counter =
        (ButtonDBReadTask (idr n) (debounceRun idr get n t)).slice_counter ∧
      ((ButtonDBReadTask (idr n) (debounceRun idr get n t)).buttonLatch = NOT_PRESSED →
        (debounceRun idr get (n + 1) t).buttonLatch = NOT_PRESSED) :=
    fun n => debounceRun_succ idr get n t
  have nolatch : ∀ n, ¬ (0 < (debounceRun idr get n t).slice_counter ∧
      (debounceRun idr get n t).button_state = BUTTON_VERF) →
      (ButtonDBReadTask (idr n) (debounceRun idr get n t)).buttonLatch =
        (debounceRun idr get n t).buttonLatch :=
    fun n h => by rw [ButtonDBReadTask_latch, if_neg h]
  -- call 0: UP, evaluated
  have b0 : (debounceRun idr get 0 t).button_state = BUTTON_UP := hup
  have c0 : 0 < (debounceRun idr get 0 t).slice_counter := hsc
  have l0 : (debounceRun idr get 0 t).buttonLatch = NOT_PRESSED := hl
  have n0 := nolatch 0 (fun h => by rw [b0] at h; exact absurd h.2 (by decide))
  have b1 : (debounceRun idr get 1 t).button_state = BUTTON_EDGE := by
    rw [(step 0).1, ButtonDBReadTask_UP _ _ c0 b0]; simp [hon 0]
  have c1 : (debounceRun idr get 1 t).slice_counter = 0 := by
    rw [(step 0).2.1, ButtonDBReadTask_UP _ _ c0 b0]
  have l1 : (debounceRun idr get 1 t).buttonLatch = NOT_PRESSED := (step 0).2.2 (by rw [n0]; exact l0)
  -- call 1: skipped
  have n1 := nolatch 1 (fun h => by rw [c1] at h; exact absurd h.1 (by decide))
  have b2 : (debounceRun idr get 2 t).button_state = BUTTON_EDGE := by
    rw [(step 1).1, ButtonDBReadTask_skip _ _ c1]; exact b1
  have c2 : (debounceRun idr get 2 t).slice_counter = 1 := by
    rw [(step 1).2.1, ButtonDBReadTask_skip _ _ c1]
  have l2 : (debounceRun idr get 2 t).buttonLatch = NOT_PRESSED := (step 1).2.2 (by rw [n1]; exact l1)
  -- call 2: EDGE, evaluated
  have c2' : 0 < (debounceRun idr get 2 t).slice_counter := by rw [c2]; decide
  have n2 := nolatch 2 (fun h => by rw [b2] at h; exact absurd h.2 (by decide))
  have b3 : (debounceRun idr get 3 t).button_state = BUTTON_VERF := by
    rw [(step 2).1, ButtonDBReadTask_EDGE _ _ c2' b2]; simp [hon 2]
  have c3 : (debounceRun idr get 3 t).slice_counter = 0 := by
    rw [(step 2).2.1, ButtonDBReadTask_EDGE _ _ c2' b2]
  have l3 : (debounceRun idr get 3 t).buttonLatch = NOT_PRESSED := (step 2).2.2 (by rw [n2]; exact l2)
  -- call 3: skipped
  have n3 := nolatch 3 (fun h => by rw [c3] at h; exact absurd h.1 (by decide))
  have b4 : (debounceRun idr get 4 t).button_state = BUTTON_VERF := by
    rw [(step 3).1, ButtonDBReadTask_skip _ _ c3]; exact b3
  have c4 : (debounceRun idr get 4 t).slice_counter = 1 := by
    rw [(step 3).2.1, ButtonDBReadTask_skip _ _ c3]
  have l4 : (debounceRun idr get 4 t).buttonLatch = NOT_PRESSED := (step 3).2.2 (by rw [n3]; exact l3)
  -- call 4: VERF, evaluated: the latch is set
  have c4' : 0 < (debounceRun idr get 4 t).slice_counter := by rw [c4]; decide
  have s4 : (ButtonDBReadTask (idr 4) (debounceRun idr get 4 t)).buttonLatch = PRESSED := by
    rw [ButtonDBReadTask_VERF _ _ c4' b4]
  have b5 : (debounceRun idr get 5 t).button_state = BUTTON_HELD := by
    rw [(step 4).1, ButtonDBReadTask_VERF _ _ c4' b4]
  -- from call 5 on: HELD
  have held : ∀ j, (debounceRun idr get (5 + j) t).button_state = BUTTON_HELD := by
    intro j
    induction j with
    | zero => exact b5
    | succ j ih =>
      show (debounceRun idr get ((5 + j) + 1) t).button_state = BUTTON_HELD
      rw [(step (5 + j)).1]
      by_cases hc : 0 < (debounceRun idr get (5 + j) t).slice_counter
      · rw [ButtonDBReadTask_HELD _ _ hc ih]; simp [hon (5 + j)]
      · rw [ButtonDBReadTask_skip _ _ (by omega)]; exact ih
  refine ⟨l4, s4, ?_⟩
  intro n hn
  by_cases h5 : 5 ≤ n
  · obtain ⟨j, rfl⟩ : ∃ j, n = 5 + j := ⟨n - 5, by omega⟩
    exact nolatch _ (fun h => by rw [held j] at h; exact absurd h.2 (by decide))
  · have : n = 0 ∨ n = 1 ∨ n = 2 ∨ n = 3 := by omega
    rcases this with rfl | rfl | rfl | rfl
    · exact n0
    · exact n1
    · exact n2
    · exact n3

/-- C14: from debouncer state UP with the latch clear, if the pin is not asserted before
call `m` and asserted on every call from call `m` on, exactly one call of
`ButtonDBReadTask` sets the latch (call `m + 4` or `m + 5`): before it the latch is clear
and after it the latch is set, and every other call leaves the latch as it finds it,
however long the pin stays asserted and whichever calls are followed by `ButtonGet`. -/
theorem sustained_press_latches_once (idr : Nat → Nat) (get : Nat → Bool) (s : State)
    (m : Nat) (hup : s.button_state = BUTTON_UP) (hl : s.buttonLatch = NOT_PRESSED)
    (hpre : ∀ n, n < m → asserted (idr n) = false)
    (hon : ∀ n, m ≤ n → asserted (idr n) = true) :
    ∃ k, m ≤ k ∧ k ≤ m + 5 ∧
      (debounceRun idr get k s).buttonLatch = NOT_PRESSED ∧
      (ButtonDBReadTask (idr k) (debounceRun idr get k s)).buttonLatch = PRESSED ∧
      ∀ n, n ≠ k → (ButtonDBReadTask (idr n) (debounceRun idr get n s)).buttonLatch =
        (debounceRun idr get n s).buttonLatch := by
  have pre := debounceRun_idle_prefix idr get s m hup hl hpre
  have nolatch_pre : ∀ n, n ≤ m → ¬ (BUTTON_UP = BUTTON_VERF) →
      (ButtonDBReadTask (idr n) (debounceRun idr get n s)).buttonLatch =
        (debounceRun idr get n s).buttonLatch := by
    intro n hn _
    rw [ButtonDBReadTask_latch, if_neg (fun hh => by
      rw [(pre n hn).1] at hh; exact absurd hh.2 (by decide))]
  -- the first call `j0 ≥ m` that evaluates
  have hj0 : ∃ j0, m ≤ j0 ∧ j0 ≤ m + 1 ∧
      (debounceRun idr get j0 s).button_state = BUTTON_UP ∧
      (debounceRun idr get j0 s).buttonLatch = NOT_PRESSED ∧
      0 < (debounceRun idr get j0 s).slice_counter ∧
      ∀ n, n < j0 → (ButtonDBReadTask (idr n) (debounceRun idr get n s)).buttonLatch =
        (debounceRun idr get n s).buttonLatch := by
    by_cases hc : 0 < (debounceRun idr get m s).slice_counter
    · exact ⟨m, Nat.le_refl _, by omega, (pre m (Nat.le_refl _)).1, (pre m (Nat.le_refl _)).2, hc,
        fun n hn => nolatch_pre n (by omega) (by decide)⟩
    · have h0 : (debounceRun idr get m s).slice_counter = 0 := by omega
      obtain ⟨e1, e2, e3⟩ := debounceRun_succ idr get m s
      have hsame := nolatch_pre m (Nat.le_refl _) (by decide)
      refine ⟨m + 1, by omega, Nat.le_refl _, ?_, ?_, ?_, ?_⟩
      · rw [e1, ButtonDBReadTask_skip _ _ h0]; exact (pre m (Nat.le_refl _)).1
      · exact e3 (by rw [hsame]; exact (pre m (Nat.le_refl _)).2)
      · rw [e2, ButtonDBReadTask_skip _ _ h0]; exact Nat.one_pos
      · intro n hn
        exact nolatch_pre n (by omega) (by decide)
  obtain ⟨j0, hm, hm1, hb, hlc, hsc, hbefore⟩ := hj0
  obtain ⟨k1, k2, k3⟩ := debounceRun_sustained (fun i => idr (j0 + i)) (fun i => get (j0 + i))
    (debounceRun idr get j0 s) hb hlc hsc (fun n => hon (j0 + n) (by omega))
  refine ⟨j0 + 4, by omega, by omega, ?_, ?_, ?_⟩
  · rw [debounceRun_add]; exact k1
  · rw [debounceRun_add]; exact k2
  · intro n hn
    by_cases hlt : n < j0
    · exact hbefore n hlt
    · obtain ⟨j, rfl⟩ : ∃ j, n = j0 + j := ⟨n - j0, by omega⟩
      rw [debounceRun_add]
      exact k3 j (by omega)

/-- A witness of C14: the button held from call 2 on, with `ButtonGet` after every call,
from reset: one call between call 2 and call 7 finds the latch clear and sets it. -/
theorem sustained_press_latches_once_witness :
    (stateReset.button_state = BUTTON_UP ∧ stateReset.buttonLatch = NOT_PRESSED) ∧
    ∃ k, 2 ≤ k ∧ k ≤ 2 + 5 ∧
      (debounceRun heldFromTwo (fun _ => true) k stateReset).buttonLatch = NOT_PRESSED ∧
      (ButtonDBReadTask (heldFromTwo k)
        (debounceRun heldFromTwo (fun _ => true) k stateReset)).buttonLatch = PRESSED :=
  have h := sustained_press_latches_once heldFromTwo (fun _ => true) stateReset 2 rfl rfl
    (by intro n hn; unfold heldFromTwo; rw [if_neg (by omega)]; decide)
    (by intro n hn; unfold heldFromTwo; rw [if_pos hn]; decide)
  ⟨⟨rfl, rfl⟩, h.imp (fun _ hk => ⟨hk.1, hk.2.1, hk.2.2.1, hk.2.2.2.1⟩)⟩

theorem ControlTask_busy (board : Board) (s : State) (hc1 : s.control_state ≠ IDLE)
    (hc9 : s.control_state ≤ DISPLAY_RESULT) :
    (ControlTask board s).buttonLatch = s.buttonLatch ∧
    (ControlTask board s).control_state =
      (if s.control_state = DISPLAY_RESULT then IDLE else s.control_state + 1) := by
  obtain ⟨c, hcv⟩ : ∃ c : Nat, c = s.control_state := ⟨_, rfl⟩
  have hc1' : c ≠ 0 := by rw [hcv]; exact hc1
  have hc9' : c ≤ 9 := by rw [hcv]; exact hc9
  have hcases : c = 1 ∨ c = 2 ∨ c = 3 ∨ c = 4 ∨ c = 5 ∨ c = 6 ∨ c = 7 ∨ c = 8 ∨ c = 9 := by
    omega
  rw [hcv] at hcases
  rcases hcases with h | h | h | h | h | h | h | h | h
  · rw [ControlTask_CHECK_74HC00 board s h, h]; exact ⟨checkCase_buttonLatch _ _ _ _ _, rfl⟩
  · rw [ControlTask_CHECK_74HC02 board s h, h]; exact ⟨checkCase_buttonLatch _ _ _ _ _, rfl⟩
  · rw [ControlTask_CHECK_74HC04 board s h, h]; exact ⟨checkCase_buttonLatch _ _ _ _ _, rfl⟩
  · rw [ControlTask_CHECK_74HC08 board s h, h]; exact ⟨checkCase_buttonLatch _ _ _ _ _, rfl⟩
  · rw [ControlTask_CHECK_74HC10 board s h, h]; exact ⟨checkCase_buttonLatch _ _ _ _ _, rfl⟩
  · rw [ControlTask_CHECK_74HC20 board s h, h]; exact ⟨checkCase_buttonLatch _ _ _ _ _, rfl⟩
  · rw [ControlTask_CHECK_74HC27 board s h, h]; exact ⟨checkCase_buttonLatch _ _ _ _ _, rfl⟩
  · rw [ControlTask_CHECK_74HC86 board s h, h]; exact ⟨checkCase_buttonLatch _ _ _ _ _, rfl⟩
  · rw [ControlTask_DISPLAY_RESULT board s h, h]
    refine ⟨?_, rfl⟩
    show (DisplayResult s.result_field s).buttonLatch = s.buttonLatch
    unfold DisplayResult
    split <;> rfl

theorem ButtonDBReadTask_keeps_latch (idr : Nat) (s : State) (h : s.buttonLatch = PRESSED) :
    (ButtonDBReadTask idr s).buttonLatch = PRESSED := by
  rw [ButtonDBReadTask_latch]
  split
  · rfl
  · exact h

/-- C16, the claim refuted: from reset on the low board, with the button pressed twice
(`doublePress`), the second press is confirmed by `ButtonDBReadTask` in pass 12, while
`ControlTask` is in `CHECK_74HC86`; the sequencer is back in `IDLE` after pass 13; pass 14
confirms no press (the latch is as `ButtonDBReadTask` found it, and the pin is not asserted
from pass 13 on); yet pass 14 starts a new cycle. -/
theorem press_during_cycle_not_lost :
    (superLoopN lowBoard doublePress 12 stateReset).control_state = CHECK_74HC86 ∧
    (superLoopN lowBoard doublePress 12 stateReset).buttonLatch = NOT_PRESSED ∧
    (ButtonDBReadTask (doublePress 12)
      (superLoopN lowBoard doublePress 12 stateReset)).buttonLatch = PRESSED ∧
    (superLoopN lowBoard doublePress 13 stateReset).control_state = DISPLAY_RESULT ∧
    (superLoopN lowBoard doublePress 14 stateReset).control_state = IDLE ∧
    (ButtonDBReadTask (doublePress 13)
      (superLoopN lowBoard doublePress 13 stateReset)).buttonLatch =
        (superLoopN lowBoard doublePress 13 stateReset).buttonLatch ∧
    (ButtonDBReadTask (doublePress 14)
      (superLoopN lowBoard doublePress 14 stateReset)).buttonLatch =
        (superLoopN lowBoard doublePress 14 stateReset).buttonLatch ∧
    asserted (doublePress 13) = false ∧ asserted (doublePress 14) = false ∧
    (superLoopN lowBoard doublePress 15 stateReset).control_state = CHECK_74HC00 := by
  decide

/-- C16 as amended: a press confirmed while `ControlTask` is in a `CHECK` state or in
`DISPLAY_RESULT` (the latch is set once `ButtonDBReadTask` has run in that pass) is not
consumed during the cycle and is not lost: the latch stays set through the `r` passes the
cycle still takes (`control_state + r = 10`), and the first pass made in `IDLE` consumes it
and starts a new cycle without any further press; the latch is then clear, however many
presses were confirmed meanwhile. -/
theorem press_during_cycle_queued (board : Board) (idr : Nat → Nat) (s : State) (r : Nat)
    (hc1 : s.control_state ≠ IDLE) (hc9 : s.control_state ≤ DISPLAY_RESULT)
    (hr : s.control_state + r = 10)
    (hconf : (ButtonDBReadTask (idr 0) s).buttonLatch = PRESSED) :
    (∀ n : Nat, 1 ≤ n → n ≤ r → (superLoopN board idr n s).buttonLatch = PRESSED) ∧
    (∀ n : Nat, n < r → (superLoopN board idr n s).control_state ≠ IDLE) ∧
    (superLoopN board idr r s).control_state = IDLE ∧
    (superLoopN board idr (r + 1) s).control_state = CHECK_74HC00 ∧
    (superLoopN board idr (r + 1) s).buttonLatch = NOT_PRESSED := by
  obtain ⟨c, hcv⟩ : ∃ c : Nat, c = s.control_state := ⟨_, rfl⟩
  have hc1' : c ≠ 0 := by rw [hcv]; exact hc1
  have hc9' : c ≤ 9 := by rw [hcv]; exact hc9
  have hr' : c + r = 10 := by rw [hcv]; exact hr
  have key : ∀ n : Nat, n ≤ r →
      (superLoopN board idr n s).control_state = (if n = r then 0 else c + n) ∧
      (1 ≤ n → (superLoopN board idr n s).buttonLatch = PRESSED) := by
    intro n
    induction n with
    | zero =>
      intro _
      refine ⟨?_, fun h => absurd h (by decide)⟩
      rw [if_neg (by omega)]
      exact hcv.symm
    | succ n ih =>
      intro hn
      obtain ⟨h1, h2⟩ := ih (by omega)
      rw [if_neg (by omega)] at h1
      have hf := (ButtonDBReadTask_frame (idr n) (superLoopN board idr n s)).2.2.1
      have hb1 : (ButtonDBReadTask (idr n) (superLoopN board idr n s)).control_state ≠ IDLE := by
        rw [hf, h1]; show c + n ≠ 0; omega
      have hb9 : (ButtonDBReadTask (idr n) (superLoopN board idr n s)).control_state
          ≤ DISPLAY_RESULT := by
        rw [hf, h1]; show c + n ≤ 9; omega
      obtain ⟨g1, g2⟩ := ControlTask_busy board _ hb1 hb9
      have hl : (ButtonDBReadTask (idr n) (superLoopN board idr n s)).buttonLatch = PRESSED := by
        cases n with
        | zero => exact hconf
        | succ k => exact ButtonDBReadTask_keeps_latch _ _ (h2 (by omega))
      rw [superLoopN_succ]
      refine ⟨?_, fun _ => by rw [g1]; exact hl⟩
      rw [g2, hf, h1]
      by_cases he : n + 1 = r
      · rw [if_pos he, if_pos (show c + n = DISPLAY_RESULT by show c + n = 9; omega)]
        rfl
      · rw [if_neg he, if_neg (show ¬ c + n = DISPLAY_RESULT by show ¬ c + n = 9; omega)]
        show (c + n + 1 : Nat) = c + (n + 1)
        omega
  have hidle := (key r (Nat.le_refl _)).1
  rw [if_pos rfl] at hidle
  have hlatch := (key r (Nat.le_refl _)).2 (by omega)
  refine ⟨fun n h1 hn => (key n hn).2 h1, ?_, hidle, ?_, ?_⟩
  · intro n hn
    rw [(key n (by omega)).1, if_neg (by omega)]
    show c + n ≠ 0
    omega
  · rw [superLoopN_succ, ControlTask_IDLE board _
      (by rw [(ButtonDBReadTask_frame _ _).2.2.1]; exact hidle),
      if_pos (ButtonDBReadTask_keeps_latch _ _ hlatch)]
  · rw [superLoopN_succ, ControlTask_IDLE board _
      (by rw [(ButtonDBReadTask_frame _ _).2.2.1]; exact hidle),
      if_pos (ButtonDBReadTask_keeps_latch _ _ hlatch)]
    rfl

/-- A witness of the amended C16: the state before pass 12 of the run with two presses,
with two passes left in the cycle. -/
theorem press_during_cycle_queued_witness :
    ((superLoopN lowBoard doublePress 12 stateReset).control_state ≠ IDLE ∧
      (superLoopN lowBoard doublePress 12 stateReset).control_state ≤ DISPLAY_RESULT ∧
      (superLoopN lowBoard doublePress 12 stateReset).control_state + 2 = 10 ∧
      (ButtonDBReadTask 0 (superLoopN lowBoard doublePress 12 stateReset)).buttonLatch
        = PRESSED) ∧
    (superLoopN lowBoard (fun _ => 0) 2
      (superLoopN lowBoard doublePress 12 stateReset)).control_state = IDLE ∧
    (superLoopN lowBoard (fun _ => 0) (2 + 1)
      (superLoopN lowBoard doublePress 12 stateReset)).control_state = CHECK_74HC00 :=
  have h := press_during_cycle_queued lowBoard (fun _ => 0)
    (superLoopN lowBoard doublePress 12 stateReset) 2 (by decide) (by decide) (by decide)
    (by decide)
  ⟨by decide, h.2.2.1, h.2.2.2.1⟩

/-- C21: each of the eight configured descriptors satisfies the descriptor invariant
(`num_inputs` a multiple of `num_outputs`, 1 to 6 gates, 1 to 4 inputs per gate, exactly
`num_inputs` input pins and `num_outputs` output pins listed, no pin in both lists), and
the tables of v1.5 and of v2.0 are the same. -/
theorem configured_descriptors_invariant :
    (∀ IC ∈ configuredICs, DescriptorInvariant IC) ∧
    configuredICsV15 = configuredICs ∧
    configuredICs.length = 8 ∧
    configuredICs.map inputsPerGate = [2, 2, 1, 2, 3, 4, 3, 2] ∧
    configuredICs.map (fun IC => IC.num_outputs) = [4, 4, 6, 4, 3, 2, 3, 4] := by
  decide

/-- A witness of C21: the descriptor of the 74HC10. -/
theorem configured_descriptors_invariant_witness :
    IC_74HC10_PARAM ∈ configuredICs ∧ DescriptorInvariant IC_74HC10_PARAM ∧
    V15.Main.IC_74HC10_PARAM = IC_74HC10_PARAM :=
  ⟨by decide, configured_descriptors_invariant.1 IC_74HC10_PARAM (by decide), rfl⟩

/-- C23: for each designator whose macro inverts the output, the failure predicates of
v1.5 (bitwise complement) and of v2.0 (logical negation) differ on output and lane bits:
on a correct output v2.0 reports no failure (and `checkerFailTest` returns `PASSED`) while
v1.5 reports a failure; v1.5 reports a failure on every output and lane bits, v2.0 does
not. -/
theorem inverted_predicates_differ :
    (∃ out a b : Bool, V15.IC_74HC00_FAIL (level out) (level a) (level b) = true ∧
      IC_74HC00_FAIL (level out) (level a) (level b) = false ∧
      checkerFailTest IC_74HC00 (level out) (level a) (level b) 1 1 = PASSED) ∧
    (∃ out a b : Bool, V15.IC_74HC02_FAIL (level out) (level a) (level b) = true ∧
      IC_74HC02_FAIL (level out) (level a) (level b) = false ∧
      checkerFailTest IC_74HC02 (level out) (level a) (level b) 1 1 = PASSED) ∧
    (∃ out a b c : Bool, V15.IC_74HC10_FAIL (level out) (level a) (level b) (level c) = true ∧
      IC_74HC10_FAIL (level out) (level a) (level b) (level c) = false ∧
      checkerFailTest IC_74HC10 (level out) (level a) (level b) (level c) 1 = PASSED) ∧
    (∃ out a b c d : Bool,
      V15.IC_74HC20_FAIL (level out) (level a) (level b) (level c) (level d) = true ∧
      IC_74HC20_FAIL (level out) (level a) (level b) (level c) (level d) = false ∧
      checkerFailTest IC_74HC20 (level out) (level a) (level b) (level c) (level d) = PASSED) ∧
    (∃ out a b c : Bool, V15.IC_74HC27_FAIL (level out) (level a) (level b) (level c) = true ∧
      IC_74HC27_FAIL (level out) (level a) (level b) (level c) = false ∧
      checkerFailTest IC_74HC27 (level out) (level a) (level b) (level c) 1 = PASSED) ∧
    (∀ out a b c d : Bool,
      V15.IC_74HC00_FAIL (level out) (level a) (level b) = true ∧
      V15.IC_74HC02_FAIL (level out) (level a) (level b) = true ∧
      V15.IC_74HC10_FAIL (level out) (level a) (level b) (level c) = true ∧
      V15.IC_74HC20_FAIL (level out) (level a) (level b) (level c) (level d) = true ∧
      V15.IC_74HC27_FAIL (level out) (level a) (level b) (level c) = true) ∧
    (∀ out a b : Bool,
      V15.IC_74HC04_FAIL (level out) (level a) = IC_74HC04_FAIL (level out) (level a) ∧
      V15.IC_74HC08_FAIL (level out) (level a) (level b) =
        IC_74HC08_FAIL (level out) (level a) (level b) ∧
      V15.IC_74HC86_FAIL (level out) (level a) (level b) =
        IC_74HC86_FAIL (level out) (level a) (level b)) := by
  refine ⟨⟨true, false, false, by decide⟩, ⟨true, false, false, by decide⟩,
    ⟨true, false, false, false, by decide⟩, ⟨true, false, false, false, false, by decide⟩,
    ⟨true, false, false, false, by decide⟩, by decide, by decide⟩

theorem debounceRun_skip_step (idr : Nat → Nat) (get : Nat → Bool) (s : State) (n : Nat)
    (h : (debounceRun idr get n s).slice_counter = 0) :
    (debounceRun idr get (n + 1) s).slice_counter = 1 ∧
    (debounceRun idr get (n + 1) s).button_state = (debounceRun idr get n s).button_state := by
  obtain ⟨h1, h2, _⟩ := debounceRun_succ idr get n s
  rw [h1, h2, ButtonDBReadTask_skip _ _ h]
  exact ⟨rfl, rfl⟩

/-- C26: when the debouncer is in `BUTTON_UP` before an evaluated call `n` and the pin is
asserted on call `n` and on the next evaluated call `n + 2`, call `n + 4` sets the latch,
whatever the pin level is on calls `n + 1`, `n + 3` and `n + 4`, and none of the calls `n`
to `n + 3` changes the latch (`ButtonGet` may be called after any of the calls). -/
theorem latch_set_four_slices_after_edge (idr : Nat → Nat) (get : Nat → Bool) (s : State)
    (n : Nat)
    (hup : (debounceRun idr get n s).button_state = BUTTON_UP)
    (hc : 0 < (debounceRun idr get n s).slice_counter)
    (ha0 : asserted (idr n) = true) (ha2 : asserted (idr (n + 2)) = true) :
    (ButtonDBReadTask (idr (n + 4)) (debounceRun idr get (n + 4) s)).buttonLatch = PRESSED ∧
    (ButtonDBReadTask (idr (n + 4)) (debounceRun idr get (n + 4) s)).button_state
      = BUTTON_HELD ∧
    (∀ i : Nat, i < 4 →
      (ButtonDBReadTask (idr (n + i)) (debounceRun idr get (n + i) s)).buttonLatch =
        (debounceRun idr get (n + i) s).buttonLatch) ∧
    (debounceRun idr get (n + 1) s).button_state = BUTTON_EDGE ∧
    (debounceRun idr get (n + 3) s).button_state = BUTTON_VERF := by
  -- call n: UP to EDGE
  obtain ⟨a1, a2, _⟩ := debounceRun_succ idr get n s
  rw [ButtonDBReadTask_UP _ _ hc hup] at a1 a2
  have s1 : (debounceRun idr get (n + 1) s).button_state = BUTTON_EDGE := by
    rw [a1]; simp [ha0]
  have c1 : (debounceRun idr get (n + 1) s).slice_counter = 0 := by rw [a2]
  -- call n + 1: not evaluated
  obtain ⟨c2, s2⟩ := debounceRun_skip_step idr get s (n + 1) c1
  rw [s1] at s2
  -- call n + 2: EDGE to VERF
  obtain ⟨b1, b2, _⟩ := debounceRun_succ idr get (n + 2) s
  have hc2 : 0 < (debounceRun idr get (n + 2) s).slice_counter := by
    rw [show n + 2 = n + 1 + 1 from rfl, c2]; exact Nat.one_pos
  rw [ButtonDBReadTask_EDGE _ _ hc2 s2] at b1 b2
  have s3 : (debounceRun idr get (n + 3) s).button_state = BUTTON_VERF := by
    rw [show n + 3 = n + 2 + 1 from rfl, b1]; simp [ha2]
  have c3 : (debounceRun idr get (n + 3) s).slice_counter = 0 := by
    rw [show n + 3 = n + 2 + 1 from rfl, b2]
  -- call n + 3: not evaluated
  obtain ⟨c4, s4⟩ := debounceRun_skip_step idr get s (n + 3) c3
  rw [s3] at s4
  have hc4 : 0 < (debounceRun idr get (n + 4) s).slice_counter := by
    rw [show n + 4 = n + 3 + 1 from rfl, c4]; exact Nat.one_pos
  refine ⟨?_, ?_, ?_, s1, s3⟩
  · rw [ButtonDBReadTask_VERF _ _ hc4 s4]
  · rw [ButtonDBReadTask_VERF _ _ hc4 s4]
  · intro i hi
    rw [ButtonDBReadTask_latch]
    apply if_neg
    rintro ⟨p1, p2⟩
    interval_cases i
    · rw [Nat.add_zero, hup] at p2; exact absurd p2 (by decide)
    · rw [c1] at p1; exact absurd p1 (by decide)
    · rw [s2] at p2; exact absurd p2 (by decide)
    · rw [c3] at p1; exact absurd p1 (by decide)

/-- A witness of C26: from reset with the pin asserted from call 2 on, call 6 sets the
latch. -/
theorem latch_set_four_slices_after_edge_witness :
    ((debounceRun heldFromTwo (fun _ => false) 2 stateReset).button_state = BUTTON_UP ∧
      0 < (debounceRun heldFromTwo (fun _ => false) 2 stateReset).slice_counter ∧
      asserted (heldFromTwo 2) = true ∧ asserted (heldFromTwo (2 + 2)) = true) ∧
    (debounceRun heldFromTwo (fun _ => false) (2 + 4) stateReset).buttonLatch = NOT_PRESSED ∧
    (ButtonDBReadTask (heldFromTwo (2 + 4))
      (debounceRun heldFromTwo (fun _ => false) (2 + 4) stateReset)).buttonLatch = PRESSED :=
  ⟨by decide, by decide,
   (latch_set_four_slices_after_edge heldFromTwo (fun _ => false) stateReset 2
      (by decide) (by decide) (by decide) (by decide)).1⟩

/-- C27 fails: an evaluated call made in `BUTTON_EDGE` with the pin asserted moves the
state to `BUTTON_VERF` and leaves the latch clear; the latch is set by the next evaluated
call, two calls later, which moves the state from `BUTTON_VERF` to `BUTTON_HELD`. -/
theorem latch_not_set_on_entering_VERF :
    ({ stateReset with button_state := BUTTON_EDGE } : State).buttonLatch = NOT_PRESSED ∧
    (ButtonDBReadTask 1 { stateReset with button_state := BUTTON_EDGE }).button_state
      = BUTTON_VERF ∧
    (ButtonDBReadTask 1 { stateReset with button_state := BUTTON_EDGE }).buttonLatch
      = NOT_PRESSED ∧
    (ButtonDBReadTask 1
      (ButtonDBReadTask 1 { stateReset with button_state := BUTTON_EDGE })).buttonLatch
      = NOT_PRESSED ∧
    (ButtonDBReadTask 1 (ButtonDBReadTask 1
      (ButtonDBReadTask 1 { stateReset with button_state := BUTTON_EDGE }))).buttonLatch
      = PRESSED ∧
    (ButtonDBReadTask 1 (ButtonDBReadTask 1
      (ButtonDBReadTask 1 { stateReset with button_state := BUTTON_EDGE }))).button_state
      = BUTTON_HELD := by
  decide

/-- C27 as amended: `buttonLatch` is set when the debouncer state leaves `BUTTON_VERF`,
that is on the evaluated call made in `BUTTON_VERF`, which moves the state to
`BUTTON_HELD`; the call that moves the state from `BUTTON_EDGE` to `BUTTON_VERF` leaves the
latch as it was, and the latch is set two calls after it. -/
theorem latch_set_on_leaving_VERF (idr : Nat) (s : State) (hc : 0 < s.slice_counter) :
    (s.button_state = BUTTON_VERF →
      (ButtonDBReadTask idr s).buttonLatch = PRESSED ∧
      (ButtonDBReadTask idr s).button_state = BUTTON_HELD) ∧
    (s.button_state = BUTTON_EDGE →
      (ButtonDBReadTask idr s).buttonLatch = s.buttonLatch ∧
      (ButtonDBReadTask idr s).button_state
        = (if asserted idr then BUTTON_VERF else BUTTON_UP)) ∧
    (s.button_state ≠ BUTTON_VERF → (ButtonDBReadTask idr s).buttonLatch = s.buttonLatch) ∧
    (s.button_state = BUTTON_EDGE → asserted idr = true → ∀ idr1 idr2 : Nat,
      (ButtonDBReadTask idr1 (ButtonDBReadTask idr s)).buttonLatch = s.buttonLatch ∧
      (ButtonDBReadTask idr2 (ButtonDBReadTask idr1 (ButtonDBReadTask idr s))).buttonLatch
        = PRESSED) := by
  refine ⟨fun h => ?_, fun h => ?_, fun h => ?_, fun h ha idr1 idr2 => ?_⟩
  · rw [ButtonDBReadTask_VERF idr s hc h]; exact ⟨rfl, rfl⟩
  · rw [ButtonDBReadTask_EDGE idr s hc h]; exact ⟨rfl, rfl⟩
  · rw [ButtonDBReadTask_latch, if_neg (fun p => h p.2)]
  · rw [ButtonDBReadTask_EDGE idr s hc h, ha, if_pos rfl]
    rw [ButtonDBReadTask_skip idr1 _ rfl]
    refine ⟨rfl, ?_⟩
    rw [ButtonDBReadTask_VERF idr2 _ Nat.one_pos rfl]

/-- A witness of the amended C27: the reset state put in `BUTTON_VERF`. -/
theorem latch_set_on_leaving_VERF_witness :
    0 < ({ stateReset with button_state := BUTTON_VERF } : State).slice_counter ∧
    (ButtonDBReadTask 0 { stateReset with button_state := BUTTON_VERF }).buttonLatch
      = PRESSED :=
  ⟨by decide, ((latch_set_on_leaving_VERF 0 { stateReset with button_state := BUTTON_VERF }
    (by decide)).1 rfl).1⟩

theorem land_eq_zero_iff_halves (a b : Nat) :
    a &&& b = 0 ↔ (a % 2 = 0 ∨ b % 2 = 0) ∧ (a / 2) &&& (b / 2) = 0 := by
  constructor
  · intro h
    have ht : ∀ i, (a.testBit i && b.testBit i) = false := by
      intro i
      rw [← Nat.testBit_and, h, Nat.zero_testBit]
    constructor
    · have h0 := ht 0
      simp only [Nat.testBit_zero, Bool.and_eq_false_imp, decide_eq_true_eq,
        decide_eq_false_iff_not] at h0
      omega
    · apply Nat.eq_of_testBit_eq
      intro i
      rw [Nat.testBit_and, Nat.testBit_div_two, Nat.testBit_div_two, Nat.zero_testBit]
      exact ht (i + 1)
  · rintro ⟨h0, h1⟩
    apply Nat.eq_of_testBit_eq
    intro i
    rw [Nat.testBit_and, Nat.zero_testBit]
    cases i with
    | zero =>
      simp only [Nat.testBit_zero, Bool.and_eq_false_imp, decide_eq_true_eq,
        decide_eq_false_iff_not]
      omega
    | succ i =>
      rw [← Nat.testBit_div_two, ← Nat.testBit_div_two, ← Nat.testBit_and, h1,
        Nat.zero_testBit]

theorem land_pred_eq_zero_iff :
    ∀ x : Nat, x ≠ 0 → (x &&& (x - 1) = 0 ↔ ∃ i, x = 2 ^ i) := by
  intro x
  induction x using Nat.strong_induction_on with
  | _ x ih =>
    intro hx
    rw [land_eq_zero_iff_halves]
    rcases Nat.mod_two_eq_zero_or_one x with he | ho
    · -- even
      have hm : x / 2 ≠ 0 := by omega
      have hpred : (x - 1) / 2 = x / 2 - 1 := by omega
      rw [hpred, ih (x / 2) (by omega) hm]
      constructor
      · rintro ⟨_, j, hj⟩
        exact ⟨j + 1, by rw [Nat.pow_succ]; omega⟩
      · rintro ⟨i, hi⟩
        refine ⟨Or.inl he, ?_⟩
        cases i with
        | zero => rw [hi] at he; simp at he
        | succ j => exact ⟨j, by rw [hi, Nat.pow_succ]; omega⟩
    · -- odd
      have hpred : (x - 1) / 2 = x / 2 := by omega
      have hp0 : (x - 1) % 2 = 0 := by omega
      rw [hpred, Nat.and_self]
      constructor
      · rintro ⟨_, h⟩
        exact ⟨0, by rw [Nat.pow_zero]; omega⟩
      · rintro ⟨i, hi⟩
        refine ⟨Or.inr hp0, ?_⟩
        cases i with
        | zero => rw [hi]; rfl
        | succ j => rw [hi, Nat.pow_succ] at ho; omega

theorem bitsSet_two_pow (i : Nat) (hi : i < 32) : bitsSet (2 ^ i) = [i] := by
  interval_cases i <;> rfl

theorem testBit_of_bitsSet (x : Nat) (hx : x < 2 ^ 32) (j : Nat) :
    x.testBit j = decide (j ∈ bitsSet x) := by
  by_cases hj : j < 32
  · simp [bitsSet, hj]
  · have hlt : x < 2 ^ j :=
      Nat.lt_of_lt_of_le hx (Nat.pow_le_pow_right (by decide) (by omega))
    rw [Nat.testBit_lt_two_pow hlt]
    simp [bitsSet, hj]

theorem bitsSet_length_one_iff (x : Nat) (hx : x < 2 ^ 32) :
    (bitsSet x).length = 1 ↔ ∃ i, x = 2 ^ i := by
  constructor
  · intro h
    obtain ⟨i, hi⟩ := List.length_eq_one.1 h
    refine ⟨i, Nat.eq_of_testBit_eq (fun j => ?_)⟩
    rw [testBit_of_bitsSet x hx, hi, Nat.testBit_two_pow]
    simp [eq_comm]
  · rintro ⟨i, rfl⟩
    have hi : i < 32 := (Nat.pow_lt_pow_iff_right (by decide)).1 hx
    rw [bitsSet_two_pow i hi]
    rfl

theorem bitsSet_eq_nil_iff (x : Nat) (hx : x < 2 ^ 32) : bitsSet x = [] ↔ x = 0 := by
  constructor
  · intro h
    apply Nat.eq_of_testBit_eq
    intro j
    rw [testBit_of_bitsSet x hx, h]
    simp
  · rintro rfl
    rfl

/-- C28: for a non-zero 32-bit `result_field`, `result_field & (result_field - 1)` is zero
if and only if exactly one bit of `result_field` is set; so the presenting step of the v1.5
`ControlTask` turns on the red light when no bit is set, the green light when exactly one
bit is set and the orange light when more than one bit is set. -/
theorem presenting_step_one_bit (test : IC_PARAMETERS_T → HW → Nat × HW) (s : V15.State)
    (hs : s.control_state = DISPLAY_RESULT) (hrf : s.result_field < 2 ^ 32) :
    (s.result_field ≠ 0 →
      (s.result_field + 0xFFFFFFFF) % 2 ^ 32 = s.result_field - 1 ∧
      (s.result_field &&& (s.result_field - 1) = 0 ↔ (bitsSet s.result_field).length = 1)) ∧
    ((bitsSet s.result_field).length = 0 →
      (V15.ControlTask test s).led = s.led ++ [V15.LedCall.LEDRedOn]) ∧
    ((bitsSet s.result_field).length = 1 →
      (V15.ControlTask test s).led = s.led ++ [V15.LedCall.LEDGreenOn]) ∧
    (2 ≤ (bitsSet s.result_field).length →
      (V15.ControlTask test s).led = s.led ++ [V15.LedCall.LEDOrangeOn]) := by
  have hsub : s.result_field ≠ 0 →
      (s.result_field + 0xFFFFFFFF) % 2 ^ 32 = s.result_field - 1 := by
    intro h0
    norm_num at hrf ⊢
    omega
  have hiff : s.result_field ≠ 0 →
      (s.result_field &&& (s.result_field - 1) = 0 ↔ (bitsSet s.result_field).length = 1) :=
    fun h0 => (land_pred_eq_zero_iff _ h0).trans (bitsSet_length_one_iff _ hrf).symm
  have hstep : (V15.ControlTask test s).led =
      (if s.result_field = 0x0000 then s.led ++ [V15.LedCall.LEDRedOn]
       else if s.result_field &&& ((s.result_field + 0xFFFFFFFF) % 2 ^ 32) = 0x0000 then
         s.led ++ [V15.LedCall.LEDGreenOn]
       else s.led ++ [V15.LedCall.LEDOrangeOn]) := by
    unfold V15.ControlTask
    simp only [hs]
    split <;> first | rfl | (split <;> rfl)
  refine ⟨fun h0 => ⟨hsub h0, hiff h0⟩, fun h => ?_, fun h => ?_, fun h => ?_⟩
  · have h0 : s.result_field = 0 :=
      (bitsSet_eq_nil_iff _ hrf).1 (List.length_eq_zero.1 h)
    rw [hstep, if_pos h0]
  · have h0 : s.result_field ≠ 0 := by
      intro h0
      rw [(bitsSet_eq_nil_iff _ hrf).2 h0] at h
      exact absurd h (by decide)
    rw [hstep, if_neg h0, hsub h0, if_pos ((hiff h0).2 h)]
  · have h0 : s.result_field ≠ 0 := by
      intro h0
      rw [(bitsSet_eq_nil_iff _ hrf).2 h0] at h
      exact absurd h (by decide)
    have h1 : ¬ (s.result_field &&& (s.result_field - 1) = 0) := by
      intro hz
      rw [(hiff h0).1 hz] at h
      exact absurd h (by decide)
    rw [hstep, if_neg h0, hsub h0, if_neg h1]

/-- A witness of C28: the result field 0x28 (bits 3 and 5) gives orange. -/
theorem presenting_step_one_bit_witness :
    bitsSet 0x28 = [3, 5] ∧
    (V15.ControlTask (fun _ hw => (FAILED, hw))
      { hw := hwReset, led := [], buttonLatch := NOT_PRESSED,
        control_state := DISPLAY_RESULT, result_field := 0x28 }).led
      = [V15.LedCall.LEDOrangeOn] :=
  ⟨by decide,
   (presenting_step_one_bit (fun _ hw => (FAILED, hw))
      { hw := hwReset, led := [], buttonLatch := NOT_PRESSED,
        control_state := DISPLAY_RESULT, result_field := 0x28 } rfl (by decide)).2.2.2
      (by decide)⟩

theorem vectors_getElem? (k m : Nat) (h : m < 2 ^ k) : (vectors k)[m]? = some (vectorAt k m) := by
  simp [vectors, vectorAt, List.getElem?_map, List.getElem?_range, h]

theorem steps_getElem?_aux (k : Nat) (n : Nat) : ∀ (s i : Nat), i < n * 2 ^ k →
    ((List.range' s n).flatMap (fun g => (vectors k).map (fun v => (g, v))))[i]? =
      some (s + i / 2 ^ k, vectorAt k (i % 2 ^ k)) := by
  induction n with
  | zero => intro s i h; simp at h
  | succ n ih =>
    intro s i h
    have hpos : 0 < 2 ^ k := Nat.two_pow_pos k
    have hlen : ((vectors k).map (fun v => (s, v))).length = 2 ^ k := by simp [vectors]
    rw [List.range'_succ, List.flatMap_cons]
    by_cases hi : i < 2 ^ k
    · rw [List.getElem?_append_left (by rw [hlen]; exact hi), List.getElem?_map,
        vectors_getElem? k i hi, Nat.div_eq_of_lt hi, Nat.mod_eq_of_lt hi]
      rfl
    · have hge : 2 ^ k ≤ i := Nat.le_of_not_lt hi
      rw [List.getElem?_append_right (by rw [hlen]; exact hge), hlen,
        ih (s + 1) (i - 2 ^ k) (by rw [Nat.succ_mul] at h; omega),
        Nat.div_eq_sub_div hpos hge, Nat.mod_eq_sub_mod hge]
      congr 2
      omega

theorem steps_getElem? (n k i : Nat) (h : i < n * 2 ^ k) :
    (steps n k)[i]? = some (i / 2 ^ k, vectorAt k (i % 2 ^ k)) := by
  have := steps_getElem?_aux k n 0 i h
  rw [Nat.zero_add] at this
  exact this

theorem vectorAt_binaryValue (k m : Nat) (hk1 : 1 ≤ k) (hk4 : k ≤ 4) (hm : m < 2 ^ k) :
    binaryValue k (vectorAt k m) = m ∧
    (∀ j, j < 4 → lane (vectorAt k m) j ≤ 1) ∧
    (∀ j, k ≤ j → j < 4 → lane (vectorAt k m) j = 1) := by
  interval_cases k <;> simp only [Nat.reducePow] at hm <;> interval_cases m <;> decide

/-- C25: in every run of `CheckerTestIC` on a descriptor with 1 to 6 gates and `k` inputs
per gate, `1 ≤ k ≤ 4`, the vectors evaluated and the output pins read are, in order, those
of the first `m` steps of one fixed list, whatever the board and the starting state (all
of them when the run passes); step `i` of that list belongs to gate `i / 2 ^ k` and its
vector, read as a binary number with lane A most significant and lane `k - 1` least
significant, is `i % 2 ^ k`: gates in index order and, within a gate, vectors in ascending
binary order, for a 2-input gate (0,0), (0,1), (1,0), (1,1). -/
theorem CheckerTestIC_order (board : Board) (IC : IC_PARAMETERS_T) (hw : HW)
    (hn1 : 1 ≤ IC.num_outputs) (hn6 : IC.num_outputs ≤ 6)
    (hk1 : 1 ≤ inputsPerGate IC) (hk4 : inputsPerGate IC ≤ 4) :
    (∃ m, m ≤ (steps IC.num_outputs (inputsPerGate IC)).length ∧
      evaluations (newCalls hw (CheckerTestIC board IC hw).2) =
        ((steps IC.num_outputs (inputsPerGate IC)).take m).map Prod.snd ∧
      readPins (newCalls hw (CheckerTestIC board IC hw).2) =
        ((steps IC.num_outputs (inputsPerGate IC)).take m).map
          (fun st => IC.output_pins.getD st.1 0) ∧
      ((CheckerTestIC board IC hw).1 = PASSED →
        m = (steps IC.num_outputs (inputsPerGate IC)).length)) ∧
    (steps IC.num_outputs (inputsPerGate IC)).length
      = IC.num_outputs * 2 ^ inputsPerGate IC ∧
    (∀ i : Nat, i < IC.num_outputs * 2 ^ inputsPerGate IC →
      ∃ v : Lanes, (steps IC.num_outputs (inputsPerGate IC))[i]? =
          some (i / 2 ^ inputsPerGate IC, v) ∧
        i / 2 ^ inputsPerGate IC < IC.num_outputs ∧
        binaryValue (inputsPerGate IC) v = i % 2 ^ inputsPerGate IC ∧
        (∀ j, j < 4 → lane v j ≤ 1) ∧
        (∀ j, inputsPerGate IC ≤ j → j < 4 → lane v j = 1)) ∧
    (inputsPerGate IC = 2 → ∀ g : Nat, g < IC.num_outputs →
      ((steps IC.num_outputs (inputsPerGate IC)).drop (4 * g)).take 4 =
        [(g, (0, 0, 1, 1)), (g, (0, 1, 1, 1)), (g, (1, 0, 1, 1)), (g, (1, 1, 1, 1))]) ∧
    (∀ (board' : Board) (hw' : HW), (CheckerTestIC board IC hw).1 = PASSED →
      (CheckerTestIC board' IC hw').1 = PASSED →
      evaluations (newCalls hw' (CheckerTestIC board' IC hw').2) =
        evaluations (newCalls hw (CheckerTestIC board IC hw).2) ∧
      readPins (newCalls hw' (CheckerTestIC board' IC hw').2) =
        readPins (newCalls hw (CheckerTestIC board IC hw).2)) := by
  have _ := hn1
  have main : ∀ (board : Board) (hw : HW),
      ∃ m, m ≤ (steps IC.num_outputs (inputsPerGate IC)).length ∧
      evaluations (newCalls hw (CheckerTestIC board IC hw).2) =
        ((steps IC.num_outputs (inputsPerGate IC)).take m).map Prod.snd ∧
      readPins (newCalls hw (CheckerTestIC board IC hw).2) =
        ((steps IC.num_outputs (inputsPerGate IC)).take m).map
          (fun st => IC.output_pins.getD st.1 0) ∧
      ((CheckerTestIC board IC hw).1 = PASSED →
        m = (steps IC.num_outputs (inputsPerGate IC)).length) := by
    intro board hw
    have he : ∃ m, m ≤ (steps IC.num_outputs (inputsPerGate IC)).length ∧
        (CheckerTestIC board IC hw).2 =
          runAll ((steps IC.num_outputs (inputsPerGate IC)).take m) (stepBody board IC) hw ∧
        ((CheckerTestIC board IC hw).1 = PASSED →
          m = (steps IC.num_outputs (inputsPerGate IC)).length) := by
      rcases CheckerTestIC_outcome board IC hw hn6 hk1 hk4 with
        ⟨h1, _⟩ | ⟨i, st, hst, _, _, he⟩
      · exact ⟨_, Nat.le_refl _, by rw [h1]; simp [stateBefore], fun _ => rfl⟩
      · refine ⟨i + 1, ?_, by rw [he]; rfl, fun hp => ?_⟩
        · by_contra hc
          rw [List.getElem?_eq_none (by omega)] at hst
          exact absurd hst (by simp)
        · rw [he] at hp
          exact absurd hp (by simp [PASSED, FAILED])
    obtain ⟨m, hm, he, hp⟩ := he
    obtain ⟨segs, hseg, htr⟩ := runAll_trace board IC hk1 hk4
      ((steps IC.num_outputs (inputsPerGate IC)).take m) hw (fun st hst => mem_take_steps hst)
    have hnew : newCalls hw (CheckerTestIC board IC hw).2 = segs.flatten := by
      rw [he]; exact newCalls_eq _ _ _ htr
    exact ⟨m, hm, by rw [hnew, evaluations_segs IC _ _ hseg],
      by rw [hnew, readPins_segs IC _ _ hseg], hp⟩
  refine ⟨main board hw, length_steps _ _, ?_, ?_, ?_⟩
  · intro i hi
    have hpos : 0 < 2 ^ inputsPerGate IC := Nat.two_pow_pos _
    obtain ⟨b1, b2, b3⟩ := vectorAt_binaryValue (inputsPerGate IC) (i % 2 ^ inputsPerGate IC)
      hk1 hk4 (Nat.mod_lt _ hpos)
    exact ⟨_, steps_getElem? _ _ i hi,
      (Nat.div_lt_iff_lt_mul hpos).2 hi, b1, b2, b3⟩
  · intro h2 g hg
    rw [h2]
    have h6 : g < 6 := by omega
    apply List.ext_getElem?
    intro j
    rw [List.getElem?_take, List.getElem?_drop]
    by_cases hj : j < 4
    · rw [if_pos hj, steps_getElem? _ _ _ (by norm_num; omega)]
      interval_cases j
      · have e1 : (4 * g + 0) / 2 ^ 2 = g := by norm_num
        have e2 : (4 * g + 0) % 2 ^ 2 = 0 := by norm_num
        rw [e1, e2]; rfl
      · have e1 : (4 * g + 1) / 2 ^ 2 = g := by norm_num; omega
        have e2 : (4 * g + 1) % 2 ^ 2 = 1 := by norm_num; omega
        rw [e1, e2]; rfl
      · have e1 : (4 * g + 2) / 2 ^ 2 = g := by norm_num; omega
        have e2 : (4 * g + 2) % 2 ^ 2 = 2 := by norm_num; omega
        rw [e1, e2]; rfl
      · have e1 : (4 * g + 3) / 2 ^ 2 = g := by norm_num; omega
        have e2 : (4 * g + 3) % 2 ^ 2 = 3 := by norm_num; omega
        rw [e1, e2]; rfl
    · rw [if_neg hj]
      have : [(g, ((0 : Nat), (0 : Nat), (1 : Nat), (1 : Nat))), (g, (0, 1, 1, 1)),
          (g, (1, 0, 1, 1)), (g, (1, 1, 1, 1))].length ≤ j := by simp; omega
      rw [List.getElem?_eq_none this]
  · intro board' hw' hp hp'
    obtain ⟨m, _, e1, e2, e3⟩ := main board hw
    obtain ⟨m', _, e1', e2', e3'⟩ := main board' hw'
    rw [e1, e2, e1', e2', e3 hp, e3' hp']
    exact ⟨rfl, rfl⟩

/-- A witness of C25: the 74HC08 descriptor on the low board stops after the fourth
vector of gate 0; the vectors evaluated are the first four of the list. -/
theorem CheckerTestIC_order_witness :
    (1 ≤ IC_74HC08_PARAM.num_outputs ∧ IC_74HC08_PARAM.num_outputs ≤ 6 ∧
      1 ≤ inputsPerGate IC_74HC08_PARAM ∧ inputsPerGate IC_74HC08_PARAM ≤ 4) ∧
    evaluations (newCalls hwReset (CheckerTestIC lowBoard IC_74HC08_PARAM hwReset).2) =
      [(0, 0, 1, 1), (0, 1, 1, 1), (1, 0, 1, 1), (1, 1, 1, 1)] ∧
    ((steps IC_74HC08_PARAM.num_outputs (inputsPerGate IC_74HC08_PARAM)).drop (4 * 2)).take 4 =
      [(2, (0, 0, 1, 1)), (2, (0, 1, 1, 1)), (2, (1, 0, 1, 1)), (2, (1, 1, 1, 1))] :=
  ⟨by decide, by decide,
   (CheckerTestIC_order lowBoard IC_74HC08_PARAM hwReset
      (by decide) (by decide) (by decide) (by decide)).2.2.2.1 (by decide) 2 (by decide)⟩

/-- C22 fails: `CheckerTestIC` makes no check of the descriptor.  For a descriptor with
five inputs declared for two gates (not a multiple) it applies the four vectors of each of
the two gates and returns `PASSED` on a board with a working 74HC08; for a descriptor with
one input declared for two gates (no input per gate) it evaluates one vector per gate and
returns `PASSED` on a board whose lines read high. -/
theorem invalid_descriptor_not_rejected :
    (¬ DescriptorInvariant oddInputs ∧ oddInputs.num_inputs % oddInputs.num_outputs ≠ 0 ∧
      (CheckerTestIC chip74HC08 oddInputs hwReset).1 = PASSED ∧
      evaluations (newCalls hwReset (CheckerTestIC chip74HC08 oddInputs hwReset).2) =
        [(0, 0, 1, 1), (0, 1, 1, 1), (1, 0, 1, 1), (1, 1, 1, 1),
         (0, 0, 1, 1), (0, 1, 1, 1), (1, 0, 1, 1), (1, 1, 1, 1)] ∧
      drivenPins (newCalls hwReset (CheckerTestIC chip74HC08 oddInputs hwReset).2) =
        [1, 2, 1, 2, 1, 2, 1, 2, 4, 5, 4, 5, 4, 5, 4, 5]) ∧
    (¬ DescriptorInvariant noLanes ∧ inputsPerGate noLanes = 0 ∧
      (CheckerTestIC highBoard noLanes hwReset).1 = PASSED ∧
      evaluations (newCalls hwReset (CheckerTestIC highBoard noLanes hwReset).2) =
        [(1, 1, 1, 1), (1, 1, 1, 1)] ∧
      readPins (newCalls hwReset (CheckerTestIC highBoard noLanes hwReset).2) = [3, 6]) := by
  decide

theorem Extends_refl (hw : HW) : Extends 0 hw hw := ⟨[], by simp, Nat.zero_le _⟩

theorem Extends_trans {a b : Nat} {hw hw' hw'' : HW} (h1 : Extends a hw hw')
    (h2 : Extends b hw' hw'') : Extends (a + b) hw hw'' := by
  obtain ⟨t1, e1, l1⟩ := h1
  obtain ⟨t2, e2, l2⟩ := h2
  refine ⟨t1 ++ t2, by rw [e2, e1, List.append_assoc], ?_⟩
  rw [evaluations_append, List.length_append]
  omega

theorem Extends_of_trace {hw hw' : HW} (t : List Call) (h : hw'.trace = hw.trace ++ t) :
    Extends 0 hw hw' := ⟨t, h, Nat.zero_le _⟩

theorem checkerSetClrInputs_extends (pins : List Nat) (x gs off : Nat) (hw : HW) :
    Extends 0 hw (checkerSetClrInputs pins x gs off hw) := by
  unfold checkerSetClrInputs
  split
  · exact Extends_of_trace _ (trace_checkerClrICInput _ _)
  · split
    · exact Extends_of_trace _ (trace_checkerSetICInput _ _)
    · exact Extends_refl hw

theorem applyVector_extends (board : Board) (IC : IC_PARAMETERS_T) (f gs g a b c d : Nat)
    (hw : HW) : Extends 0 hw (applyVector board IC f gs g a b c d hw).2 := by
  have step : ∀ (P : Prop) [Decidable P] (x off : Nat) (h h' : HW), Extends 0 h h' →
      Extends 0 h (if P then checkerSetClrInputs IC.input_pins x gs off h' else h') := by
    intro P _ x off h h' hh
    split
    · exact Extends_trans hh (checkerSetClrInputs_extends _ _ _ _ _)
    · exact hh
  have key : ∀ h4 : HW, Extends 0 hw h4 →
      Extends 0 hw (checkerReadICOutput board (IC.output_pins.getD g 0) h4).2 := by
    intro h4 e4
    obtain ⟨w, hr⟩ := trace_checkerReadICOutput board (IC.output_pins.getD g 0) h4
    exact Extends_trans e4 (Extends_of_trace _ hr)
  unfold applyVector
  exact key _ (step _ _ _ hw _ (step _ _ _ hw _ (step _ _ _ hw _
    (step _ _ _ hw hw (Extends_refl hw)))))

theorem vectorBody_extends (board : Board) (IC : IC_PARAMETERS_T) (f gs g a b c d : Nat)
    (hw : HW) : Extends 1 hw (vectorBody board IC f gs g a b c d hw).2 := by
  rw [vectorBody_snd]
  have h2 : Extends 1 (applyVector board IC f gs g a b c d hw).2
      ((applyVector board IC f gs g a b c d hw).2.log
        (Call.failTest IC.ic_designator (applyVector board IC f gs g a b c d hw).1 a b c d)) :=
    ⟨[Call.failTest IC.ic_designator (applyVector board IC f gs g a b c d hw).1 a b c d],
      rfl, by simp [evaluations]⟩
  exact Extends_trans (applyVector_extends board IC f gs g a b c d hw) h2

theorem forEach_extends {α : Type} (body : α → HW → Option Nat × HW)
    (hb : ∀ x hw, Extends 1 hw (body x hw).2) (xs : List α) :
    ∀ hw, Extends 0 hw (forEach xs body hw).2 ∧
      (xs ≠ [] → Extends 1 hw (forEach xs body hw).2) := by
  induction xs with
  | nil => intro hw; exact ⟨Extends_refl hw, fun h => absurd rfl h⟩
  | cons x xs ih =>
    intro hw
    have hx := hb x hw
    have h1 : Extends 1 hw (forEach (x :: xs) body hw).2 := by
      rcases h : body x hw with ⟨_ | r, s'⟩
      · have e : forEach (x :: xs) body hw = forEach xs body s' := by simp [forEach, h]
        rw [e]
        rw [h] at hx
        exact Extends_trans hx (ih s').1
      · have e : forEach (x :: xs) body hw = (some r, s') := by simp [forEach, h]
        rw [e]
        rw [h] at hx
        exact hx
    exact ⟨⟨h1.choose, h1.choose_spec.1, Nat.zero_le _⟩, fun _ => h1⟩

theorem gateLoop_extends (board : Board) (IC : IC_PARAMETERS_T) (k f : Nat)
    (gates : List Nat) : ∀ (gs : Nat) (hw : HW),
    Extends 0 hw (gateLoop board IC k f gates gs hw).2 ∧
      (gates ≠ [] → Extends 1 hw (gateLoop board IC k f gates gs hw).2) := by
  induction gates with
  | nil => intro gs hw; exact ⟨Extends_refl hw, fun h => absurd rfl h⟩
  | cons g rest ih =>
    intro gs hw
    obtain ⟨v, vs, hv⟩ := loopVectors_ne_nil f
    have hl : Extends 1 hw (laneLoops board IC f gs g hw).2 := by
      rw [laneLoops_eq]
      exact (forEach_extends _ (fun (st : Nat × Lanes) h => vectorBody_extends board IC f gs
        st.1 st.2.1 st.2.2.1 st.2.2.2.1 st.2.2.2.2 h)
        ((loopVectors f).map (fun v => (g, v))) hw).2 (by rw [hv]; simp)
    have h1 : Extends 1 hw (gateLoop board IC k f (g :: rest) gs hw).2 := by
      rcases h : laneLoops board IC f gs g hw with ⟨_ | r, s'⟩
      · have e : gateLoop board IC k f (g :: rest) gs hw =
            gateLoop board IC k f rest ((gs + k) % 256) s' := by simp [gateLoop, h]
        rw [e]
        rw [h] at hl
        exact Extends_trans hl (ih _ s').1
      · have e : gateLoop board IC k f (g :: rest) gs hw = (r, s') := by simp [gateLoop, h]
        rw [e]
        rw [h] at hl
        exact hl
    exact ⟨⟨h1.choose, h1.choose_spec.1, Nat.zero_le _⟩, fun _ => h1⟩

theorem gateLoop_num_inputs (board : Board) (IC : IC_PARAMETERS_T) (x k f : Nat)
    (gates : List Nat) : ∀ (gs : Nat) (hw : HW),
    gateLoop board { IC with num_inputs := x } k f gates gs hw =
      gateLoop board IC k f gates gs hw := by
  induction gates with
  | nil => intro gs hw; rfl
  | cons g rest ih =>
    intro gs hw
    have hl : laneLoops board { IC with num_inputs := x } f gs g hw =
        laneLoops board IC f gs g hw := rfl
    simp only [gateLoop, hl]
    rcases laneLoops board IC f gs g hw with ⟨_ | r, s'⟩
    · exact ih _ s'
    · rfl

/-- C22 as amended: a descriptor that violates the descriptor invariant is not rejected,
`CheckerTestIC` makes no check of its descriptor.  For every descriptor with at least one
gate it applies at least one vector (the predicate is evaluated at least once); a
descriptor whose `num_inputs` is not a multiple of `num_outputs` is tested exactly like the
one with `num_inputs` rounded down to a multiple; and with 1 to 6 gates and a quotient
between 1 and 4 it is reported `PASSED` exactly when every enumerated vector passes. -/
theorem CheckerTestIC_no_validation (board : Board) (IC : IC_PARAMETERS_T) (hw : HW)
    (hn : 1 ≤ IC.num_outputs) :
    1 ≤ (evaluations (newCalls hw (CheckerTestIC board IC hw).2)).length ∧
    CheckerTestIC board IC hw =
      CheckerTestIC board
        { IC with num_inputs := IC.num_outputs * (IC.num_inputs / IC.num_outputs) } hw ∧
    (IC.num_outputs ≤ 6 → 1 ≤ inputsPerGate IC → inputsPerGate IC ≤ 4 →
      ((CheckerTestIC board IC hw).1 = PASSED ↔
        ∀ i st, (steps IC.num_outputs (inputsPerGate IC))[i]? = some st →
          verdict board IC st (stateBefore board IC hw i) = PASSED)) := by
  refine ⟨?_, ?_, fun h6 h1 h4 => (CheckerTestIC_fst_cases board IC hw h6 h1 h4).1⟩
  · obtain ⟨n, hn'⟩ : ∃ n, IC.num_outputs = n + 1 := ⟨IC.num_outputs - 1, by omega⟩
    have h := (gateLoop_extends board IC (IC.num_inputs / IC.num_outputs)
      ((0xFF <<< (IC.num_inputs / IC.num_outputs)) % 256)
      (List.range' 0 IC.num_outputs) 0 hw).2 (by rw [hn', List.range'_succ]; simp)
    obtain ⟨t, ht, hl⟩ := h
    have e : newCalls hw (CheckerTestIC board IC hw).2 = t := newCalls_eq _ _ _ ht
    rw [e]
    exact hl
  · unfold CheckerTestIC
    dsimp only
    rw [Nat.mul_div_cancel_left _ (by omega : 0 < IC.num_outputs)]
    exact (gateLoop_num_inputs board IC _ _ _ _ 0 hw).symm

/-- A witness of the amended C22: the descriptor with five inputs declared for two gates,
on the board with a working 74HC08. -/
theorem CheckerTestIC_no_validation_witness :
    (1 ≤ oddInputs.num_outputs ∧ ¬ DescriptorInvariant oddInputs) ∧
    1 ≤ (evaluations (newCalls hwReset
      (CheckerTestIC chip74HC08 oddInputs hwReset).2)).length ∧
    CheckerTestIC chip74HC08 oddInputs hwReset =
      CheckerTestIC chip74HC08 { oddInputs with num_inputs := 4 } hwReset :=
  have h := CheckerTestIC_no_validation chip74HC08 oddInputs hwReset (by decide)
  ⟨by decide, h.1, h.2.1⟩

theorem testBit_clearBits (M mask i : Nat) :
    (clearBits M mask).testBit i = (M.testBit i && (decide (i < 32) != mask.testBit i)) := by
  unfold clearBits
  rw [Nat.testBit_and, Nat.testBit_xor,
    show (0xFFFFFFFF : Nat) = 2 ^ 32 - 1 from rfl, Nat.testBit_two_pow_sub_one]

theorem testBit_one_shiftLeft (n i : Nat) : ((1 : Nat) <<< n).testBit i = decide (i = n) := by
  rw [Nat.one_shiftLeft, Nat.testBit_two_pow]
  by_cases h : i = n
  · subst h; simp
  · simp [h, Ne.symm h]

theorem testBit_MODE_Msk (n i : Nat) :
    (GPIO_MODER_MODE_Msk n).testBit i = decide (i = 2 * n ∨ i = 2 * n + 1) := by
  unfold GPIO_MODER_MODE_Msk
  rw [Nat.testBit_shiftLeft, show (3 : Nat) = 2 ^ 2 - 1 from rfl, Nat.testBit_two_pow_sub_one]
  by_cases h : i = 2 * n ∨ i = 2 * n + 1
  · rw [decide_eq_true h]
    simp only [Bool.and_eq_true, decide_eq_true_eq]
    omega
  · rw [decide_eq_false h]
    simp only [Bool.and_eq_false_imp, decide_eq_true_eq, decide_eq_false_iff_not]
    omega

theorem testBit_MODE_0 (n i : Nat) : (GPIO_MODER_MODE_0 n).testBit i = decide (i = 2 * n) :=
  testBit_one_shiftLeft _ _

theorem testBit_ODR_OD (n i : Nat) : (GPIO_ODR_OD n).testBit i = decide (i = n) :=
  testBit_one_shiftLeft _ _

theorem port_setPort (hw : HW) (p p' : Port) (g : GPIO_TypeDef) :
    (hw.setPort p g).port p' = if p' = p then g else hw.port p' := by
  cases p <;> cases p' <;> rfl

theorem port_log (hw : HW) (c : Call) (p : Port) : (hw.log c).port p = hw.port p := by
  cases p <;> rfl

theorem lineMode_log (hw : HW) (c : Call) (l : Port × Nat) :
    lineMode (hw.log c) l = lineMode hw l := by
  unfold lineMode; rw [port_log]

theorem lineLevel_log (hw : HW) (c : Call) (l : Port × Nat) :
    lineLevel (hw.log c) l = lineLevel hw l := by
  unfold lineLevel; rw [port_log]

theorem setLine_line (p : Port) (n : Nat) (hw : HW) (hn : n < 16) :
    lineMode (setLine p n hw) (p, n) = 1 ∧ lineLevel (setLine p n hw) (p, n) = 1 := by
  unfold lineMode lineLevel setLine
  simp only [port_setPort, if_true, Nat.testBit_or, testBit_clearBits, testBit_MODE_Msk,
    testBit_MODE_0, testBit_ODR_OD]
  have h1 : ¬ (2 * n + 1 = 2 * n) := by omega
  have h2 : 2 * n + 1 < 32 := by omega
  simp [h1, h2]

theorem clrLine_line (p : Port) (n : Nat) (hw : HW) (hn : n < 16) :
    lineMode (clrLine p n hw) (p, n) = 1 ∧ lineLevel (clrLine p n hw) (p, n) = 0 := by
  unfold lineMode lineLevel clrLine
  simp only [port_setPort, if_true, Nat.testBit_or, testBit_clearBits, testBit_MODE_Msk,
    testBit_MODE_0, testBit_ODR_OD]
  have h1 : ¬ (2 * n + 1 = 2 * n) := by omega
  have h2 : 2 * n + 1 < 32 := by omega
  have h3 : n < 32 := by omega
  simp [h1, h2, h3]

theorem setLine_frame (p : Port) (n : Nat) (hw : HW) (l : Port × Nat) (hl : l ≠ (p, n))
    (h16 : l.2 < 16) :
    lineMode (setLine p n hw) l = lineMode hw l ∧
    lineLevel (setLine p n hw) l = lineLevel hw l := by
  obtain ⟨p', n'⟩ := l
  unfold lineMode lineLevel setLine
  simp only [port_setPort]
  by_cases hp : p' = p
  · subst hp
    have hn : n' ≠ n := fun h => hl (by rw [h])
    simp only [if_true, Nat.testBit_or, testBit_clearBits, testBit_MODE_Msk,
      testBit_MODE_0, testBit_ODR_OD]
    have a1 : ¬ (2 * n' + 1 = 2 * n ∨ 2 * n' + 1 = 2 * n + 1) := by omega
    have a2 : ¬ (2 * n' = 2 * n ∨ 2 * n' = 2 * n + 1) := by omega
    have a3 : ¬ (2 * n' + 1 = 2 * n) := by omega
    have a4 : ¬ (2 * n' = 2 * n) := by omega
    have a5 : 2 * n' + 1 < 32 := by omega
    have a6 : 2 * n' < 32 := by omega
    have a8 : ¬ (2 * n' = 2 * n + 1) := by omega
    simp [a1, a2, a3, a4, a5, a6, a8, hn]
  · simp only [if_neg hp]
    exact ⟨trivial, trivial⟩

theorem clrLine_frame (p : Port) (n : Nat) (hw : HW) (l : Port × Nat) (hl : l ≠ (p, n))
    (h16 : l.2 < 16) :
    lineMode (clrLine p n hw) l = lineMode hw l ∧
    lineLevel (clrLine p n hw) l = lineLevel hw l := by
  obtain ⟨p', n'⟩ := l
  unfold lineMode lineLevel clrLine
  simp only [port_setPort]
  by_cases hp : p' = p
  · subst hp
    have hn : n' ≠ n := fun h => hl (by rw [h])
    simp only [if_true, Nat.testBit_or, testBit_clearBits, testBit_MODE_Msk,
      testBit_MODE_0, testBit_ODR_OD]
    have a1 : ¬ (2 * n' + 1 = 2 * n ∨ 2 * n' + 1 = 2 * n + 1) := by omega
    have a2 : ¬ (2 * n' = 2 * n ∨ 2 * n' = 2 * n + 1) := by omega
    have a3 : ¬ (2 * n' + 1 = 2 * n) := by omega
    have a4 : ¬ (2 * n' = 2 * n) := by omega
    have a5 : 2 * n' + 1 < 32 := by omega
    have a6 : 2 * n' < 32 := by omega
    have a7 : n' < 32 := by omega
    have a8 : ¬ (2 * n' = 2 * n + 1) := by omega
    simp [a1, a2, a3, a4, a5, a6, a7, a8, hn]
  · simp only [if_neg hp]
    exact ⟨trivial, trivial⟩

theorem lineOf_lt (pin : Nat) (l : Port × Nat) (h : lineOf pin = some l) :
    pin < 14 ∧ l.2 < 16 := by
  unfold lineOf at h
  split at h <;> first | (cases h; exact ⟨by decide, by decide⟩) | exact absurd h (by simp)

theorem lineOf_inj (p1 p2 : Nat) (l : Port × Nat) (h1 : lineOf p1 = some l)
    (h2 : lineOf p2 = some l) : p1 = p2 := by
  have a1 := (lineOf_lt p1 l h1).1
  have a2 := (lineOf_lt p2 l h2).1
  have e : lineOf p1 = lineOf p2 := h1.trans h2.symm
  have hne : lineOf p1 ≠ none := by rw [h1]; simp
  clear h1 h2
  interval_cases p1 <;> interval_cases p2 <;>
    first | rfl | exact absurd e (by decide) | exact absurd rfl hne

theorem checkerSetICInput_eq (pin : Nat) (hw : HW) :
    checkerSetICInput pin hw =
      match lineOf pin with
      | some l => setLine l.1 l.2 (hw.log (Call.set pin))
      | none => hw.log (Call.set pin) := by
  unfold checkerSetICInput lineOf
  split <;> rfl

theorem checkerClrICInput_eq (pin : Nat) (hw : HW) :
    checkerClrICInput pin hw =
      match lineOf pin with
      | some l => clrLine l.1 l.2 (hw.log (Call.clr pin))
      | none => hw.log (Call.clr pin) := by
  unfold checkerClrICInput lineOf
  split <;> rfl

theorem readLine_eq (board : Board) (pin : Nat) (p : Port) (n : Nat) (hw : HW) :
    readLine board pin p n p n n hw =
      (((board (samplingState (p, n) hw) p) &&& GPIO_IDR_ID_Msk n) >>> n,
        (samplingState (p, n) hw).log
          (Call.read pin (((board (samplingState (p, n) hw) p) &&& GPIO_IDR_ID_Msk n) >>> n)
            ((hw.TIM22.SR &&& TIM_SR_UIF_Msk) == 0))) := by
  simp [readLine, samplingState, tim22Wait]

theorem checkerReadICOutput_eq (board : Board) (pin : Nat) (hw : HW) (l : Port × Nat)
    (h : lineOf pin = some l) :
    checkerReadICOutput board pin hw =
      (((board (samplingState l hw) l.1) &&& GPIO_IDR_ID_Msk l.2) >>> l.2,
        (samplingState l hw).log
          (Call.read pin (((board (samplingState l hw) l.1) &&& GPIO_IDR_ID_Msk l.2) >>> l.2)
            ((hw.TIM22.SR &&& TIM_SR_UIF_Msk) == 0))) := by
  unfold checkerReadICOutput
  unfold lineOf at h
  split at h <;> first | (cases h; exact readLine_eq _ _ _ _ _) | exact absurd h (by simp)

theorem samplingState_port (l : Port × Nat) (hw : HW) (p : Port) :
    (samplingState l hw).port p =
      if p = l.1 then
        { hw.port l.1 with MODER := clearBits (hw.port l.1).MODER (GPIO_MODER_MODE_Msk l.2) }
      else hw.port p := by
  unfold samplingState tim22Wait
  rw [← port_setPort]
  cases p <;> rfl

theorem samplingState_line (l : Port × Nat) (hw : HW) (h16 : l.2 < 16) :
    lineMode (samplingState l hw) l = 0 := by
  unfold lineMode
  simp only [samplingState_port, if_true, testBit_clearBits, testBit_MODE_Msk]
  have h2 : 2 * l.2 + 1 < 32 := by omega
  have h3 : 2 * l.2 < 32 := by omega
  simp [h2, h3]

theorem samplingState_frame (l : Port × Nat) (hw : HW) (l' : Port × Nat) (hl : l' ≠ l)
    (h16 : l'.2 < 16) :
    lineMode (samplingState l hw) l' = lineMode hw l' ∧
    lineLevel (samplingState l hw) l' = lineLevel hw l' := by
  obtain ⟨p, n⟩ := l
  obtain ⟨p', n'⟩ := l'
  unfold lineMode lineLevel
  simp only [samplingState_port]
  by_cases hp : p' = p
  · subst hp
    have hn : n' ≠ n := fun h => hl (by rw [h])
    simp only [if_true, testBit_clearBits, testBit_MODE_Msk]
    have a1 : ¬ (2 * n' + 1 = 2 * n ∨ 2 * n' + 1 = 2 * n + 1) := by omega
    have a2 : ¬ (2 * n' = 2 * n ∨ 2 * n' = 2 * n + 1) := by omega
    have a3 : ¬ (2 * n' + 1 = 2 * n) := by omega
    have a5 : 2 * n' + 1 < 32 := by omega
    have a6 : 2 * n' < 32 := by omega
    have a8 : ¬ (2 * n' = 2 * n + 1) := by omega
    simp [a1, a2, a3, a5, a6, a8, hn]
  · simp only [if_neg hp]
    exact ⟨trivial, trivial⟩

theorem applyVector_eq_drive (board : Board) (IC : IC_PARAMETERS_T) (k gs g a b c d : Nat)
    (hw : HW) (hk1 : 1 ≤ k) (hk4 : k ≤ 4) :
    applyVector board IC ((0xFF <<< k) % 256) gs g a b c d hw =
      checkerReadICOutput board (IC.output_pins.getD g 0)
        (driveLanes IC.input_pins gs 0 ([a, b, c, d].take k) hw) := by
  unfold applyVector
  interval_cases k
  · obtain ⟨e1, e2, e3, e4⟩ := INPUT_LOOP_SKIP_1
    simp only [e1, e2, e3, e4]
    rfl
  · obtain ⟨e1, e2, e3, e4⟩ := INPUT_LOOP_SKIP_2
    simp only [e1, e2, e3, e4]
    rfl
  · obtain ⟨e1, e2, e3, e4⟩ := INPUT_LOOP_SKIP_3
    simp only [e1, e2, e3, e4]
    rfl
  · obtain ⟨e1, e2, e3, e4⟩ := INPUT_LOOP_SKIP_4
    simp only [e1, e2, e3, e4]
    rfl

theorem tim22Wait_twice (hw : HW) : (tim22Wait (tim22Wait hw).2).1 = false := by
  have h : (hw.TIM22.SR ||| 1) &&& 1 = 1 := by
    rw [Nat.and_one_is_mod]
    have := Nat.mod_two_eq_one_iff_testBit_zero.2
      (show (hw.TIM22.SR ||| 1).testBit 0 = true by rw [Nat.testBit_or]; simp)
    exact this
  simp [tim22Wait, TIM_SR_UIF_Msk, h]

/-- C29 fails on the code: IC pin 10 is on line PB6, the SCL line of the I2C bus.  After
`I2CInit` the mode fields of PB6 and PB7 are 2 (alternate function); a passing test of
the 74HC08 descriptor leaves the mode field of PB6 at 1 (output), that of PB7 unchanged.
Every call of a pin function on pin 10 rewrites the mode field of PB6, and each of the
eight configured descriptors lists pin 10. -/
theorem CheckerTestIC_rewrites_SCL_mode :
    (lineMode hwInit (Port.B, 6) = 2 ∧ lineMode hwInit (Port.B, 7) = 2) ∧
    (CheckerTestIC chip74HC08 IC_74HC08_PARAM hwInit).1 = PASSED ∧
    lineMode (CheckerTestIC chip74HC08 IC_74HC08_PARAM hwInit).2 (Port.B, 6) = 1 ∧
    lineMode (CheckerTestIC chip74HC08 IC_74HC08_PARAM hwInit).2 (Port.B, 7) = 2 ∧
    lineOf 10 = some (Port.B, 6) ∧
    (∀ IC ∈ configuredICs, 10 ∈ IC.input_pins ∨ 10 ∈ IC.output_pins) ∧
    (∀ (board : Board) (hw : HW),
      lineMode (checkerSetICInput 10 hw) (Port.B, 6) = 1 ∧
      lineMode (checkerClrICInput 10 hw) (Port.B, 6) = 1 ∧
      lineMode (checkerReadICOutput board 10 hw).2 (Port.B, 6) = 0) := by
  refine ⟨by decide, by decide, by decide, by decide, by decide, by decide, ?_⟩
  intro board hw
  refine ⟨?_, ?_, ?_⟩
  · rw [checkerSetICInput_eq]
    exact (setLine_line Port.B 6 _ (by decide)).1
  · rw [checkerClrICInput_eq]
    exact (clrLine_line Port.B 6 _ (by decide)).1
  · rw [checkerReadICOutput_eq board 10 hw (Port.B, 6) rfl, lineMode_log]
    exact samplingState_line (Port.B, 6) hw (by decide)

/-- C30 fails on the code: nothing clears the update flag of TIM22, so only the first
read after `CheckerInit` waits for the timer; a second wait right after a first never
waits, and in a passing test of the 74HC08 descriptor the first of the sixteen reads
waits and the other fifteen find the flag set. -/
theorem later_reads_do_not_wait :
    (∀ hw : HW, (tim22Wait (tim22Wait hw).2).1 = false) ∧
    (checkerReadICOutput lowBoard 3 (CheckerInit hwReset)).2.trace = [Call.read 3 0 true] ∧
    (checkerReadICOutput lowBoard 3
      (checkerReadICOutput lowBoard 3 (CheckerInit hwReset)).2).2.trace =
      [Call.read 3 0 true, Call.read 3 0 false] ∧
    (CheckerTestIC chip74HC08 IC_74HC08_PARAM hwInit).1 = PASSED ∧
    readDelays (newCalls hwInit (CheckerTestIC chip74HC08 IC_74HC08_PARAM hwInit).2) =
      true :: List.replicate 15 false := by
  refine ⟨tim22Wait_twice, by decide, by decide, by decide, by decide⟩

theorem complement_ne_gate_value (x out : Nat) : ((x : Int) != ~~~ (out : Int)) = true := by
  have hneg : ~~~ (out : Int) < 0 := by
    show Int.negSucc out < 0
    exact Int.negSucc_lt_zero out
  simp only [bne_iff_ne, ne_eq]
  intro h
  have : (0 : Int) ≤ (x : Int) := Int.ofNat_nonneg x
  omega

theorem checkerFailTest_inverted_v15 (ic_id : Nat) (h : ic_id ∈ invertedDesignators)
    (out in_A in_B in_C in_D : Nat) :
    V15.Checker.checkerFailTest ic_id out in_A in_B in_C in_D = FAILED := by
  simp only [invertedDesignators, List.mem_cons, List.mem_singleton, List.not_mem_nil,
    or_false] at h
  rcases h with rfl | rfl | rfl | rfl | rfl
  · show (if V15.IC_74HC00_FAIL out in_A in_B then FAILED else PASSED) = FAILED
    exact if_pos (complement_ne_gate_value _ out)
  · show (if V15.IC_74HC02_FAIL out in_A in_B then FAILED else PASSED) = FAILED
    exact if_pos (complement_ne_gate_value _ out)
  · show (if V15.IC_74HC10_FAIL out in_A in_B in_C then FAILED else PASSED) = FAILED
    exact if_pos (complement_ne_gate_value _ out)
  · show (if V15.IC_74HC20_FAIL out in_A in_B in_C in_D then FAILED else PASSED) = FAILED
    exact if_pos (complement_ne_gate_value _ out)
  · show (if V15.IC_74HC27_FAIL out in_A in_B in_C then FAILED else PASSED) = FAILED
    exact if_pos (complement_ne_gate_value _ out)

theorem forEach_all_fail {α σ : Type} (xs : List α) (body : α → σ → Option Nat × σ)
    (hne : ∃ x rest, xs = x :: rest) (hall : ∀ x s, (body x s).1 = some FAILED) (s : σ) :
    (forEach xs body s).1 = some FAILED := by
  obtain ⟨x, rest, rfl⟩ := hne
  rw [forEach_cons_some x rest body s FAILED (hall x s)]

theorem vectorBody_inverted_v15 (board : Board) (IC : IC_PARAMETERS_T)
    (h : IC.ic_designator ∈ invertedDesignators) (f gs g a b c d : Nat) (hw : HW) :
    (V15.Checker.vectorBody board IC f gs g a b c d hw).1 = some FAILED := by
  unfold V15.Checker.vectorBody
  simp only [checkerFailTest_inverted_v15 IC.ic_designator h, if_true]

theorem laneLoops_inverted_v15 (board : Board) (IC : IC_PARAMETERS_T)
    (h : IC.ic_designator ∈ invertedDesignators) (f gs g : Nat) (hw : HW) :
    (V15.Checker.laneLoops board IC f gs g hw).1 = some FAILED := by
  unfold V15.Checker.laneLoops
  apply forEach_all_fail _ _ (laneValues_ne_nil _ (INPUT_A_LOOP_SKIP_le f))
  intro a s1
  apply forEach_all_fail _ _ (laneValues_ne_nil _ (INPUT_B_LOOP_SKIP_le f))
  intro b s2
  apply forEach_all_fail _ _ (laneValues_ne_nil _ (INPUT_C_LOOP_SKIP_le f))
  intro c s3
  apply forEach_all_fail _ _ (laneValues_ne_nil _ (INPUT_D_LOOP_SKIP_le f))
  intro d s4
  exact vectorBody_inverted_v15 board IC h f gs g a b c d s4

theorem CheckerTestIC_inverted_v15 (board : Board) (IC : IC_PARAMETERS_T) (hw : HW)
    (h : IC.ic_designator ∈ invertedDesignators) (hn : 1 ≤ IC.num_outputs) :
    (V15.Checker.CheckerTestIC board IC hw).1 = FAILED := by
  unfold V15.Checker.CheckerTestIC
  dsimp only
  obtain ⟨n, hn'⟩ : ∃ n, IC.num_outputs = n + 1 := ⟨IC.num_outputs - 1, by omega⟩
  rw [hn', List.range'_succ]
  have hl := laneLoops_inverted_v15 board IC h
    ((0xFF <<< (IC.num_inputs / (n + 1))) % 256) 0 0 hw
  rcases hb : V15.Checker.laneLoops board IC
      ((0xFF <<< (IC.num_inputs / (n + 1))) % 256) 0 0 hw with ⟨_ | r, hw'⟩
  · rw [hb] at hl
    exact absurd hl (by simp)
  · rw [hb] at hl
    simp only [V15.Checker.gateLoop, hb]
    exact Option.some.inj hl

/-- C32: under the v1.5 predicates the designators 74HC00, 74HC02, 74HC10, 74HC20 and
74HC27 evaluate to a failure for every output value and all lane values (in particular
for every 8-bit output and all lane bits): the integer-promoted `~out` is negative, the
gate value on the other side of `!=` is not.  So the v1.5 `checkerFailTest` returns
`FAILED` for these designators on every evaluation, and the v1.5 `CheckerTestIC` returns
`FAILED` for every descriptor of these five types with at least one gate, on every board
and from every state: no chip of these types can pass. -/
theorem v15_inverted_predicates_always_fail (out in_A in_B in_C in_D : Nat) :
    V15.IC_74HC00_FAIL out in_A in_B = true ∧
    V15.IC_74HC02_FAIL out in_A in_B = true ∧
    V15.IC_74HC10_FAIL out in_A in_B in_C = true ∧
    V15.IC_74HC20_FAIL out in_A in_B in_C in_D = true ∧
    V15.IC_74HC27_FAIL out in_A in_B in_C = true ∧
    ~~~ (out : Int) < 0 ∧ ~~~ (out : Int) = -(out : Int) - 1 ∧
    (∀ ic_id ∈ invertedDesignators,
      V15.Checker.checkerFailTest ic_id out in_A in_B in_C in_D = FAILED) ∧
    (∀ (board : Board) (IC : IC_PARAMETERS_T) (hw : HW),
      IC.ic_designator ∈ invertedDesignators → 1 ≤ IC.num_outputs →
        (V15.Checker.CheckerTestIC board IC hw).1 = FAILED ∧
        (V15.Checker.CheckerTestIC board IC hw).1 ≠ PASSED) ∧
    (∀ IC ∈ [V15.Main.IC_74HC00_PARAM, V15.Main.IC_74HC02_PARAM, V15.Main.IC_74HC10_PARAM,
        V15.Main.IC_74HC20_PARAM, V15.Main.IC_74HC27_PARAM],
      ∀ (board : Board) (hw : HW), (V15.Checker.CheckerTestIC board IC hw).1 = FAILED) := by
  have hneg : ~~~ (out : Int) < 0 := by
    show Int.negSucc out < 0
    exact Int.negSucc_lt_zero out
  have hval : ~~~ (out : Int) = -(out : Int) - 1 := by
    show Int.negSucc out = _
    rw [Int.negSucc_eq]
    ring
  have hrun : ∀ (board : Board) (IC : IC_PARAMETERS_T) (hw : HW),
      IC.ic_designator ∈ invertedDesignators → 1 ≤ IC.num_outputs →
        (V15.Checker.CheckerTestIC board IC hw).1 = FAILED ∧
        (V15.Checker.CheckerTestIC board IC hw).1 ≠ PASSED := by
    intro board IC hw h hn
    have hf := CheckerTestIC_inverted_v15 board IC hw h hn
    exact ⟨hf, by rw [hf]; decide⟩
  refine ⟨complement_ne_gate_value _ out, complement_ne_gate_value _ out,
    complement_ne_gate_value _ out, complement_ne_gate_value _ out,
    complement_ne_gate_value _ out, hneg, hval,
    fun ic_id h => checkerFailTest_inverted_v15 ic_id h out in_A in_B in_C in_D, hrun, ?_⟩
  intro IC hIC board hw
  simp only [List.mem_cons, List.mem_singleton, List.not_mem_nil, or_false] at hIC
  rcases hIC with rfl | rfl | rfl | rfl | rfl <;>
    exact (hrun board _ hw (by decide) (by decide)).1

/-- A witness of C32: the v1.5 test of the v1.5 descriptor of the 74HC00 fails on the board
whose lines all read high, from reset. -/
theorem v15_inverted_predicates_always_fail_witness :
    (V15.Main.IC_74HC00_PARAM.ic_designator ∈ invertedDesignators ∧
      1 ≤ V15.Main.IC_74HC00_PARAM.num_outputs) ∧
    (V15.Checker.CheckerTestIC highBoard V15.Main.IC_74HC00_PARAM hwReset).1 = FAILED :=
  ⟨by decide,
    ((v15_inverted_predicates_always_fail 0 0 0 0 0).2.2.2.2.2.2.2.2.1 highBoard
      V15.Main.IC_74HC00_PARAM hwReset (by decide) (by decide)).1⟩

/-- C38: for 74HC04, 74HC08 and 74HC86 the failure predicates of v1.5 and of v2.0 are the
same function of the output and the lanes, for all values. -/
theorem unchanged_predicates_agree (out in_A in_B : Nat) :
    V15.IC_74HC04_FAIL out in_A = IC_74HC04_FAIL out in_A ∧
    V15.IC_74HC08_FAIL out in_A in_B = IC_74HC08_FAIL out in_A in_B ∧
    V15.IC_74HC86_FAIL out in_A in_B = IC_74HC86_FAIL out in_A in_B ∧
    (V15.IC_74HC04_FAIL out in_A = true ↔ in_A ≠ lnot out) ∧
    (V15.IC_74HC08_FAIL out in_A in_B = true ↔ in_A &&& in_B ≠ out) ∧
    (V15.IC_74HC86_FAIL out in_A in_B = true ↔ in_A ^^^ in_B ≠ out) := by
  refine ⟨rfl, rfl, rfl, ?_, ?_, ?_⟩ <;>
    simp [V15.IC_74HC04_FAIL, V15.IC_74HC08_FAIL, V15.IC_74HC86_FAIL]

theorem elapse_current_lt (n : Nat) (t : SysTick) (h : t.systickCurrentCount < 4294967296) :
    (elapse n t).systickCurrentCount < 4294967296 := by
  rw [elapse_count n t h]
  exact Nat.mod_lt _ (by decide)

theorem systickElapsed_elapse (n : Nat) (t : SysTick) (hc : t.systickCurrentCount < 4294967296)
    (hl : t.systickLastCount < 4294967296) :
    systickElapsed (elapse n t) = (systickElapsed t + n) % 4294967296 := by
  have h0 : systickElapsed t < 4294967296 := Nat.mod_lt _ (by decide)
  induction n with
  | zero => exact (Nat.mod_eq_of_lt h0).symm
  | succ n ih =>
    show systickElapsed (SysTick_Handler (elapse n t)) = _
    rw [systickElapsed_handler _ (elapse_current_lt n t hc)
      (by rw [(elapse_frame n t).1]; exact hl), ih]
    omega

/-- C39: `SysTickWaitTask` measures the elapsed time modulo 2^32.  When the tick counter is
`e < 2^32` ticks past the baseline, wrapped or not, the 32-bit difference the loop tests
is `e`; so a call entered with `e ≥ ts_period` returns at once, and a call entered with
`e < ts_period` returns after exactly `ts_period - e` further ticks, when the counter is
`ts_period` past the baseline modulo 2^32, and not before. -/
theorem elapsed_modulo_two_pow_32 (t : SysTick) (e : Nat)
    (hflag : t.systickInitFlag = 0) (hl : t.systickLastCount < 4294967296)
    (hcur : t.systickCurrentCount = (t.systickLastCount + e) % 4294967296)
    (he : e < 4294967296) :
    ((t.systickLastCount + e) % 4294967296 + 4294967296 - t.systickLastCount) % 4294967296
      = e ∧
    ((((t.systickLastCount + e) % 4294967296 : Nat) : Int) - (t.systickLastCount : Int))
      % 4294967296 = (e : Int) ∧
    systickElapsed t = e ∧
    (∀ ts_period fuel : Nat, ts_period ≤ e →
      SysTickWaitTask fuel ts_period t =
        some { t with systickLastCount := t.systickCurrentCount }) ∧
    (∀ ts_period fuel : Nat, e < ts_period → ts_period < 4294967296 →
      ts_period - e ≤ fuel →
      SysTickWaitTask fuel ts_period t =
        some { elapse (ts_period - e) t with
          systickLastCount := (elapse (ts_period - e) t).systickCurrentCount } ∧
      (elapse (ts_period - e) t).systickCurrentCount =
        (t.systickLastCount + ts_period) % 4294967296) ∧
    (∀ ts_period j : Nat, e + j < ts_period → ts_period < 4294967296 →
      SysTickWaitTask j ts_period t = none) := by
  have hc : t.systickCurrentCount < 4294967296 := by
    rw [hcur]; exact Nat.mod_lt _ (by decide)
  have h1 : ((t.systickLastCount + e) % 4294967296 + 4294967296 - t.systickLastCount)
      % 4294967296 = e := by omega
  have hel : systickElapsed t = e := by
    unfold systickElapsed
    rw [hcur]
    exact h1
  refine ⟨h1, by omega, hel, ?_, ?_, ?_⟩
  · intro ts fuel hts
    rw [SysTickWaitTask_waiting_path fuel ts t hflag,
      sysTickWaitLoop_done _ _ _ (by rw [hel]; omega)]
    rfl
  · intro ts fuel h1 h2 hf
    have hr := SysTickWaitTask_returns fuel ts t hflag hc hl h2 (by rw [hel]; exact hf)
    rw [hel] at hr
    refine ⟨hr, ?_⟩
    rw [elapse_count _ t hc, hcur]
    omega
  · intro ts j h1 h2
    rw [SysTickWaitTask_waiting_path j ts t hflag]
    rcases hloop : sysTickWaitLoop ts j t with _ | u
    · rfl
    · exfalso
      obtain ⟨hge, i, hi, rfl⟩ := sysTickWaitLoop_sound ts j t u hloop
      rw [systickElapsed_elapse i t hc hl, hel] at hge
      have : (e + i) % 4294967296 = e + i := Nat.mod_eq_of_lt (by omega)
      omega

/-- A witness of C39: baseline 0xFFFFFFFE, three ticks elapsed (the counter has wrapped to
1), period 7: the call returns after four more ticks, at count 5. -/
theorem elapsed_modulo_two_pow_32_witness :
    systickElapsed ⟨1, 0xFFFFFFFE, 0⟩ = 3 ∧
    SysTickWaitTask 4 7 ⟨1, 0xFFFFFFFE, 0⟩ = some ⟨5, 5, 0⟩ ∧
    SysTickWaitTask 3 7 ⟨1, 0xFFFFFFFE, 0⟩ = none :=
  have h := elapsed_modulo_two_pow_32 ⟨1, 0xFFFFFFFE, 0⟩ 3 rfl (by decide) (by decide)
    (by decide)
  ⟨h.2.2.1, (h.2.2.2.2.1 7 4 (by decide) (by decide) (by decide)).1.trans (by decide),
    h.2.2.2.2.2 7 3 (by decide) (by decide)⟩

theorem checkerReadICOutput_unmapped (board : Board) (pin : Nat) (hw : HW)
    (h : lineOf pin = none) :
    checkerReadICOutput board pin hw = (0xFF, hw.log (Call.read pin 0xFF false)) := by
  unfold checkerReadICOutput
  split <;> first | rfl | (exfalso; revert h; decide)

theorem lineOf_none_iff (pin : Nat) : lineOf pin = none ↔ pin = 0 ∨ pin = 7 ∨ 14 ≤ pin := by
  constructor
  · intro h
    by_contra hc
    have h14 : pin < 14 := by omega
    interval_cases pin <;> first | omega | (revert h; decide)
  · rintro (rfl | rfl | h)
    · rfl
    · rfl
    · unfold lineOf
      split <;> first | rfl | omega

theorem samplingState_level (l : Port × Nat) (hw : HW) (l' : Port × Nat) :
    lineLevel (samplingState l hw) l' = lineLevel hw l' := by
  unfold lineLevel
  rw [samplingState_port]
  by_cases h : l'.1 = l.1
  · simp [h]
  · simp [h]

theorem bits_of_lineMode_one (hw : HW) (port : Port) (n : Nat)
    (h : lineMode hw (port, n) = 1) :
    (hw.port port).MODER.testBit (2 * n + 1) = false ∧
    (hw.port port).MODER.testBit (2 * n) = true := by
  simp only [lineMode] at h
  cases h1 : (hw.port port).MODER.testBit (2 * n + 1) <;>
    cases h0 : (hw.port port).MODER.testBit (2 * n) <;> simp [h1, h0] at h ⊢

theorem bits_of_lineMode_zero (hw : HW) (port : Port) (n : Nat)
    (h : lineMode hw (port, n) = 0) :
    (hw.port port).MODER.testBit (2 * n + 1) = false ∧
    (hw.port port).MODER.testBit (2 * n) = false := by
  simp only [lineMode] at h
  cases h1 : (hw.port port).MODER.testBit (2 * n + 1) <;>
    cases h0 : (hw.port port).MODER.testBit (2 * n) <;> simp [h1, h0] at h ⊢

theorem bit_of_lineLevel_one (hw : HW) (port : Port) (n : Nat)
    (h : lineLevel hw (port, n) = 1) : (hw.port port).ODR.testBit n = true := by
  simp only [lineLevel] at h
  cases h1 : (hw.port port).ODR.testBit n <;> simp [h1] at h ⊢

theorem bit_of_lineLevel_zero (hw : HW) (port : Port) (n : Nat)
    (h : lineLevel hw (port, n) = 0) : (hw.port port).ODR.testBit n = false := by
  simp only [lineLevel] at h
  cases h1 : (hw.port port).ODR.testBit n <;> simp [h1] at h ⊢

/-- C35: the three pin functions `checkerSetICInput`, `checkerClrICInput` and
`checkerReadICOutput` reach an IC pin through one and the same table `lineOf` (1 to PA10,
2 to PB3, 3 to PB5, 4 to PB4, 5 to PB10, 6 to PA8, 8 to PA9, 9 to PC7, 10 to PB6, 11 to
PA7, 12 to PA6, 13 to PA5, every other pin number has no line), and no two IC pins share a
line.  On a pin with line `(port, n)` the set leaves mode bits `2n + 1, 2n` of the `MODER`
of that port at 01 and bit `n` of its `ODR` at 1, the clear leaves the mode at 01 and the
`ODR` bit at 0, and the read leaves the mode at 00 and returns bit `n` of the `IDR` of
that port, `(IDR & IDn_Msk) >> n`, as the board shows it once the line is an input. -/
theorem pin_functions_share_one_mapping :
    (∀ (pin : Nat) (hw : HW),
      checkerSetICInput pin hw =
        match lineOf pin with
        | some l => setLine l.1 l.2 (hw.log (Call.set pin))
        | none => hw.log (Call.set pin)) ∧
    (∀ (pin : Nat) (hw : HW),
      checkerClrICInput pin hw =
        match lineOf pin with
        | some l => clrLine l.1 l.2 (hw.log (Call.clr pin))
        | none => hw.log (Call.clr pin)) ∧
    (∀ (board : Board) (pin : Nat) (hw : HW),
      checkerReadICOutput board pin hw =
        match lineOf pin with
        | some l => readLine board pin l.1 l.2 l.1 l.2 l.2 hw
        | none => (0xFF, hw.log (Call.read pin 0xFF false))) ∧
    (lineOf 1 = some (Port.A, 10) ∧ lineOf 2 = some (Port.B, 3) ∧
      lineOf 3 = some (Port.B, 5) ∧ lineOf 4 = some (Port.B, 4) ∧
      lineOf 5 = some (Port.B, 10) ∧ lineOf 6 = some (Port.A, 8) ∧
      lineOf 8 = some (Port.A, 9) ∧ lineOf 9 = some (Port.C, 7) ∧
      lineOf 10 = some (Port.B, 6) ∧ lineOf 11 = some (Port.A, 7) ∧
      lineOf 12 = some (Port.A, 6) ∧ lineOf 13 = some (Port.A, 5)) ∧
    (∀ pin : Nat, lineOf pin = none ↔ pin = 0 ∨ pin = 7 ∨ 14 ≤ pin) ∧
    (∀ (p1 p2 : Nat) (l : Port × Nat), lineOf p1 = some l → lineOf p2 = some l → p1 = p2) ∧
    (∀ (pin : Nat) (port : Port) (n : Nat) (hw : HW), lineOf pin = some (port, n) →
      (((checkerSetICInput pin hw).port port).MODER.testBit (2 * n + 1) = false ∧
        ((checkerSetICInput pin hw).port port).MODER.testBit (2 * n) = true ∧
        ((checkerSetICInput pin hw).port port).ODR.testBit n = true) ∧
      (((checkerClrICInput pin hw).port port).MODER.testBit (2 * n + 1) = false ∧
        ((checkerClrICInput pin hw).port port).MODER.testBit (2 * n) = true ∧
        ((checkerClrICInput pin hw).port port).ODR.testBit n = false) ∧
      (∀ board : Board,
        ((checkerReadICOutput board pin hw).2.port port).MODER.testBit (2 * n + 1) = false ∧
        ((checkerReadICOutput board pin hw).2.port port).MODER.testBit (2 * n) = false ∧
        (checkerReadICOutput board pin hw).1 =
          ((board (samplingState (port, n) hw) port) &&& GPIO_IDR_ID_Msk n) >>> n ∧
        (samplingState (port, n) hw).port port =
          { hw.port port with
            MODER := clearBits (hw.port port).MODER (GPIO_MODER_MODE_Msk n) })) ∧
    (∀ (pin : Nat) (hw : HW), lineOf pin = none →
      (∀ q : Port, (checkerSetICInput pin hw).port q = hw.port q) ∧
      (∀ q : Port, (checkerClrICInput pin hw).port q = hw.port q) ∧
      (∀ (board : Board), (checkerReadICOutput board pin hw).1 = 0xFF ∧
        ∀ q : Port, (checkerReadICOutput board pin hw).2.port q = hw.port q)) := by
  refine ⟨checkerSetICInput_eq, checkerClrICInput_eq, ?_,
    ⟨rfl, rfl, rfl, rfl, rfl, rfl, rfl, rfl, rfl, rfl, rfl, rfl⟩, lineOf_none_iff, lineOf_inj,
    ?_, ?_⟩
  · intro board pin hw
    unfold checkerReadICOutput lineOf
    split <;> rfl
  · intro pin port n hw hl
    have h16 : n < 16 := (lineOf_lt pin (port, n) hl).2
    refine ⟨?_, ?_, fun board => ?_⟩
    · have h := setLine_line port n (hw.log (Call.set pin)) h16
      rw [checkerSetICInput_eq, hl]
      exact ⟨(bits_of_lineMode_one _ port n h.1).1, (bits_of_lineMode_one _ port n h.1).2,
        bit_of_lineLevel_one _ port n h.2⟩
    · have h := clrLine_line port n (hw.log (Call.clr pin)) h16
      rw [checkerClrICInput_eq, hl]
      exact ⟨(bits_of_lineMode_one _ port n h.1).1, (bits_of_lineMode_one _ port n h.1).2,
        bit_of_lineLevel_zero _ port n h.2⟩
    · have hm := samplingState_line (port, n) hw h16
      have hb := bits_of_lineMode_zero (samplingState (port, n) hw) port n hm
      rw [checkerReadICOutput_eq board pin hw (port, n) hl]
      dsimp only
      rw [port_log]
      refine ⟨hb.1, hb.2, rfl, ?_⟩
      rw [samplingState_port]
      simp
  · intro pin hw hnone
    refine ⟨fun q => ?_, fun q => ?_, fun board => ⟨?_, fun q => ?_⟩⟩
    · rw [checkerSetICInput_eq, hnone]
      exact port_log _ _ _
    · rw [checkerClrICInput_eq, hnone]
      exact port_log _ _ _
    · rw [checkerReadICOutput_unmapped board pin hw hnone]
    · rw [checkerReadICOutput_unmapped board pin hw hnone]
      exact port_log _ _ _

/-- A witness of C35: pins 5 and 1 both sit on line 10, of different ports; a set of pin 5
in the reset state leaves bit 20 of the `MODER` of port B and bit 10 of its `ODR` at 1. -/
theorem pin_functions_share_one_mapping_witness :
    lineOf 5 = some (Port.B, 10) ∧ lineOf 1 = some (Port.A, 10) ∧
    (∀ p : Nat, lineOf p = some (Port.B, 10) → p = 5) ∧
    ((checkerSetICInput 5 hwReset).port Port.B).MODER.testBit 20 = true ∧
    ((checkerSetICInput 5 hwReset).port Port.B).ODR.testBit 10 = true :=
  ⟨pin_functions_share_one_mapping.2.2.2.1.2.2.2.2.1,
    pin_functions_share_one_mapping.2.2.2.1.1,
    fun p h => pin_functions_share_one_mapping.2.2.2.2.2.1 p 5 (Port.B, 10) h rfl,
    (pin_functions_share_one_mapping.2.2.2.2.2.2.1 5 Port.B 10 hwReset rfl).1.2.1,
    (pin_functions_share_one_mapping.2.2.2.2.2.2.1 5 Port.B 10 hwReset rfl).1.2.2⟩

theorem checkerSetICInput_frame (p : Nat) (hw : HW) (l' : Port × Nat) (h16 : l'.2 < 16)
    (hne : lineOf p ≠ some l') :
    lineMode (checkerSetICInput p hw) l' = lineMode hw l' ∧
    lineLevel (checkerSetICInput p hw) l' = lineLevel hw l' := by
  rw [checkerSetICInput_eq]
  rcases h : lineOf p with _ | l
  · exact ⟨lineMode_log _ _ _, lineLevel_log _ _ _⟩
  · have hl : l' ≠ (l.1, l.2) := fun e => hne (by rw [h, e])
    have := setLine_frame l.1 l.2 (hw.log (Call.set p)) l' hl h16
    simpa [lineMode_log, lineLevel_log] using this

theorem checkerClrICInput_frame (p : Nat) (hw : HW) (l' : Port × Nat) (h16 : l'.2 < 16)
    (hne : lineOf p ≠ some l') :
    lineMode (checkerClrICInput p hw) l' = lineMode hw l' ∧
    lineLevel (checkerClrICInput p hw) l' = lineLevel hw l' := by
  rw [checkerClrICInput_eq]
  rcases h : lineOf p with _ | l
  · exact ⟨lineMode_log _ _ _, lineLevel_log _ _ _⟩
  · have hl : l' ≠ (l.1, l.2) := fun e => hne (by rw [h, e])
    have := clrLine_frame l.1 l.2 (hw.log (Call.clr p)) l' hl h16
    simpa [lineMode_log, lineLevel_log] using this

theorem checkerReadICOutput_frame (board : Board) (p : Nat) (hw : HW) (l' : Port × Nat)
    (h16 : l'.2 < 16) (hne : lineOf p ≠ some l') :
    lineMode (checkerReadICOutput board p hw).2 l' = lineMode hw l' ∧
    lineLevel (checkerReadICOutput board p hw).2 l' = lineLevel hw l' := by
  rcases h : lineOf p with _ | l
  · rw [checkerReadICOutput_unmapped board p hw h]
    exact ⟨lineMode_log _ _ _, lineLevel_log _ _ _⟩
  · rw [checkerReadICOutput_eq board p hw l h]
    have hl : l' ≠ l := fun e => hne (by rw [h, e])
    have := samplingState_frame l hw l' hl h16
    simpa [lineMode_log, lineLevel_log] using this

theorem checkerReadICOutput_level (board : Board) (p : Nat) (hw : HW) (l' : Port × Nat) :
    lineLevel (checkerReadICOutput board p hw).2 l' = lineLevel hw l' := by
  rcases h : lineOf p with _ | l
  · rw [checkerReadICOutput_unmapped board p hw h]
    exact lineLevel_log _ _ _
  · rw [checkerReadICOutput_eq board p hw l h]
    show lineLevel ((samplingState l hw).log _) l' = _
    rw [lineLevel_log, samplingState_level]

/-- C36: a call of `checkerSetICInput`, `checkerClrICInput` or `checkerReadICOutput` on IC
pin `p` leaves the mode field and the output-data bit of every line of GPIOA, GPIOB and
GPIOC other than the line of `p` as they were (the read leaves every output-data bit as it
was, that of its own line included), and on a pin number without a line (0, 7, 14 and
above) it leaves the registers of the three ports as they were. -/
theorem pin_functions_touch_one_line (board : Board) (p : Nat) (hw : HW) :
    (∀ l' : Port × Nat, l'.2 < 16 → lineOf p ≠ some l' →
      (lineMode (checkerSetICInput p hw) l' = lineMode hw l' ∧
        lineLevel (checkerSetICInput p hw) l' = lineLevel hw l') ∧
      (lineMode (checkerClrICInput p hw) l' = lineMode hw l' ∧
        lineLevel (checkerClrICInput p hw) l' = lineLevel hw l') ∧
      (lineMode (checkerReadICOutput board p hw).2 l' = lineMode hw l' ∧
        lineLevel (checkerReadICOutput board p hw).2 l' = lineLevel hw l')) ∧
    (∀ l' : Port × Nat,
      lineLevel (checkerReadICOutput board p hw).2 l' = lineLevel hw l') ∧
    (p = 0 ∨ p = 7 ∨ 14 ≤ p →
      (∀ q : Port, (checkerSetICInput p hw).port q = hw.port q) ∧
      (∀ q : Port, (checkerClrICInput p hw).port q = hw.port q) ∧
      (∀ q : Port, (checkerReadICOutput board p hw).2.port q = hw.port q)) := by
  refine ⟨fun l' h16 hne => ⟨checkerSetICInput_frame p hw l' h16 hne,
    checkerClrICInput_frame p hw l' h16 hne, checkerReadICOutput_frame board p hw l' h16 hne⟩,
    checkerReadICOutput_level board p hw, ?_⟩
  intro hp
  have hnone : lineOf p = none := (lineOf_none_iff p).2 hp
  refine ⟨fun q => ?_, fun q => ?_, fun q => ?_⟩
  · rw [checkerSetICInput_eq, hnone]
    exact port_log _ _ _
  · rw [checkerClrICInput_eq, hnone]
    exact port_log _ _ _
  · rw [checkerReadICOutput_unmapped board p hw hnone]
    exact port_log _ _ _

/-- A witness of C36: a set of IC pin 1 (line PA10) in the reset state leaves line PA9 as
it was, and a set of pin 7 leaves GPIOA as it was. -/
theorem pin_functions_touch_one_line_witness :
    lineMode (checkerSetICInput 1 hwReset) (Port.A, 9) = lineMode hwReset (Port.A, 9) ∧
    lineLevel (checkerSetICInput 1 hwReset) (Port.A, 9) = lineLevel hwReset (Port.A, 9) ∧
    (checkerSetICInput 7 hwReset).port Port.A = hwReset.port Port.A :=
  ⟨((pin_functions_touch_one_line lowBoard 1 hwReset).1 (Port.A, 9) (by decide)
      (by decide)).1.1,
    ((pin_functions_touch_one_line lowBoard 1 hwReset).1 (Port.A, 9) (by decide)
      (by decide)).1.2,
    ((pin_functions_touch_one_line lowBoard 7 hwReset).2.2 (Or.inr (Or.inl rfl))).1 Port.A⟩

theorem one_mem_laneValues (s : Nat) (h : s ≤ 1) : 1 ∈ laneValues s := by
  have : s = 0 ∨ s = 1 := by omega
  rcases this with rfl | rfl <;> decide

theorem ones_mem_loopVectors (f : Nat) : ((1, 1, 1, 1) : Lanes) ∈ loopVectors f := by
  simp only [loopVectors, List.mem_flatMap, List.mem_map]
  exact ⟨1, one_mem_laneValues _ (INPUT_A_LOOP_SKIP_le f),
    1, one_mem_laneValues _ (INPUT_B_LOOP_SKIP_le f),
    1, one_mem_laneValues _ (INPUT_C_LOOP_SKIP_le f),
    1, one_mem_laneValues _ (INPUT_D_LOOP_SKIP_le f), rfl⟩

theorem checkerFailTest_unread (ic_id : Nat) :
    checkerFailTest ic_id 0xFF 1 1 1 1 = FAILED := by
  unfold checkerFailTest
  split <;> rfl

theorem applyVector_unmapped (board : Board) (IC : IC_PARAMETERS_T) (f gs g a b c d : Nat)
    (hw : HW) (h : lineOf (IC.output_pins.getD g 0) = none) :
    (applyVector board IC f gs g a b c d hw).1 = 0xFF := by
  have key : ∀ h4 : HW, (checkerReadICOutput board (IC.output_pins.getD g 0) h4).1 = 0xFF := by
    intro h4
    rw [checkerReadICOutput_unmapped board _ h4 h]
  unfold applyVector
  exact key _

theorem forEach_fails {α σ : Type} (body : α → σ → Option Nat × σ)
    (hall : ∀ x s, (body x s).1 = none ∨ (body x s).1 = some FAILED) (xs : List α) :
    ∀ s, ((forEach xs body s).1 = none ∨ (forEach xs body s).1 = some FAILED) ∧
      ((∃ x ∈ xs, ∀ s', (body x s').1 = some FAILED) →
        (forEach xs body s).1 = some FAILED) := by
  induction xs with
  | nil =>
    intro s
    exact ⟨Or.inl rfl, fun ⟨x, hx, _⟩ => absurd hx (List.not_mem_nil x)⟩
  | cons y ys ih =>
    intro s
    rcases hall y s with hy | hy
    · rw [forEach_cons_none y ys body s hy]
      refine ⟨(ih _).1, ?_⟩
      rintro ⟨x, hx, hf⟩
      rcases List.mem_cons.1 hx with rfl | hx'
      · rw [hf s] at hy
        exact absurd hy (by simp)
      · exact (ih _).2 ⟨x, hx', hf⟩
    · rw [forEach_cons_some y ys body s FAILED hy]
      exact ⟨Or.inr rfl, fun _ => rfl⟩

theorem vectorBody_fst_cases (board : Board) (IC : IC_PARAMETERS_T) (f gs g a b c d : Nat)
    (hw : HW) :
    (vectorBody board IC f gs g a b c d hw).1 = none ∨
      (vectorBody board IC f gs g a b c d hw).1 = some FAILED := by
  rw [vectorBody_fst]
  split
  · exact Or.inr rfl
  · exact Or.inl rfl

theorem laneLoops_fails (board : Board) (IC : IC_PARAMETERS_T) (f gs g : Nat) (hw : HW) :
    ((laneLoops board IC f gs g hw).1 = none ∨
      (laneLoops board IC f gs g hw).1 = some FAILED) ∧
    (lineOf (IC.output_pins.getD g 0) = none →
      (laneLoops board IC f gs g hw).1 = some FAILED) := by
  rw [laneLoops_eq]
  have h := forEach_fails
    (fun (st : Nat × Lanes) =>
      vectorBody board IC f gs st.1 st.2.1 st.2.2.1 st.2.2.2.1 st.2.2.2.2)
    (fun st s => vectorBody_fst_cases board IC f gs st.1 _ _ _ _ s)
    ((loopVectors f).map (fun v => (g, v))) hw
  refine ⟨h.1, fun hpin => h.2 ⟨(g, (1, 1, 1, 1)), ?_, fun s' => ?_⟩⟩
  · exact List.mem_map.2 ⟨(1, 1, 1, 1), ones_mem_loopVectors f, rfl⟩
  · show (vectorBody board IC f gs g 1 1 1 1 s').1 = some FAILED
    rw [vectorBody_fst, applyVector_unmapped board IC f gs g 1 1 1 1 s' hpin,
      if_pos (checkerFailTest_unread _)]

theorem gateLoop_fails (board : Board) (IC : IC_PARAMETERS_T) (k f : Nat) (gates : List Nat) :
    ∀ (gs : Nat) (hw : HW),
      (∃ g ∈ gates, lineOf (IC.output_pins.getD g 0) = none) →
      (gateLoop board IC k f gates gs hw).1 = FAILED := by
  induction gates with
  | nil =>
    intro gs hw h
    obtain ⟨g, hg, _⟩ := h
    exact absurd hg (List.not_mem_nil g)
  | cons g0 rest ih =>
    intro gs hw h
    have hl := laneLoops_fails board IC f gs g0 hw
    rcases hb : laneLoops board IC f gs g0 hw with ⟨_ | r, hw'⟩
    · have e : gateLoop board IC k f (g0 :: rest) gs hw =
          gateLoop board IC k f rest ((gs + k) % 256) hw' := by
        simp [gateLoop, hb]
      rw [e]
      obtain ⟨g, hg, hpin⟩ := h
      rcases List.mem_cons.1 hg with rfl | hg'
      · have := hl.2 hpin
        rw [hb] at this
        exact absurd this (by simp)
      · exact ih _ _ ⟨g, hg', hpin⟩
    · have e : gateLoop board IC k f (g0 :: rest) gs hw = (r, hw') := by
        simp [gateLoop, hb]
      rw [e]
      rcases hl.1 with h1 | h1
      · rw [hb] at h1
        exact absurd h1 (by simp)
      · rw [hb] at h1
        exact Option.some.inj h1

/-- C31: when the output pin of some gate of a descriptor is not a mapped IC pin,
`checkerReadICOutput` returns 0xFF for it and `CheckerTestIC` returns `FAILED`, on every
board and from every state (whatever the other pins read): an unreadable output never
produces a pass.  This holds for every designator and every number of inputs per gate, so
in particular for a known designator with 1 to 4 inputs per gate. -/
theorem unreadable_output_fails (board : Board) (IC : IC_PARAMETERS_T) (hw : HW) (g : Nat)
    (hg : g < IC.num_outputs) (hpin : lineOf (IC.output_pins.getD g 0) = none) :
    (∀ (board' : Board) (hw' : HW),
      (checkerReadICOutput board' (IC.output_pins.getD g 0) hw').1 = 0xFF) ∧
    (CheckerTestIC board IC hw).1 = FAILED ∧ (CheckerTestIC board IC hw).1 ≠ PASSED := by
  have hf : (CheckerTestIC board IC hw).1 = FAILED := by
    unfold CheckerTestIC
    exact gateLoop_fails board IC _ _ _ 0 hw
      ⟨g, by simp only [List.mem_range'_1]; omega, hpin⟩
  refine ⟨fun board' hw' => ?_, hf, ?_⟩
  · rw [checkerReadICOutput_unmapped board' _ hw' hpin]
  · rw [hf]
    decide

/-- A witness of C31: on a board that carries a real 74HC08 the descriptor whose fourth
output is on pin 14 fails. -/
theorem unreadable_output_fails_witness :
    (CheckerTestIC chip74HC08 unreadable74HC08 hwReset).1 = FAILED :=
  (unreadable_output_fails chip74HC08 unreadable74HC08 hwReset 3 (by decide) (by decide)).2.1

theorem sampled_bit_le_one (x n : Nat) : (x &&& GPIO_IDR_ID_Msk n) >>> n ≤ 1 := by
  unfold GPIO_IDR_ID_Msk
  rw [Nat.shiftRight_eq_div_pow, Nat.one_shiftLeft]
  calc (x &&& 2 ^ n) / 2 ^ n ≤ 2 ^ n / 2 ^ n := Nat.div_le_div_right Nat.and_le_right
    _ = 1 := Nat.div_self (Nat.two_pow_pos n)

theorem sampled_le_one (board : Board) (IC : IC_PARAMETERS_T) (st : Nat × Lanes) (hw : HW)
    (hk1 : 1 ≤ inputsPerGate IC) (hk4 : inputsPerGate IC ≤ 4)
    (hout : (lineOf (IC.output_pins.getD st.1 0)).isSome = true) :
    sampled board IC st hw ≤ 1 := by
  obtain ⟨l, hl⟩ := Option.isSome_iff_exists.1 hout
  unfold sampled
  rw [applyVector_eq_drive board IC _ _ _ _ _ _ _ hw hk1 hk4,
    checkerReadICOutput_eq board _ _ l hl]
  exact sampled_bit_le_one _ _

theorem reachesLine_driveCall (pin value : Nat) (h : (lineOf pin).isSome = true) :
    reachesLine (driveCall pin value) = true := by
  unfold driveCall
  split <;> exact h

theorem stepCalls_reach (IC : IC_PARAMETERS_T) (st : Nat × Lanes) (out : Nat) (w : Bool)
    (hp : pinsMapped IC) (hg : st.1 < IC.num_outputs) (ho : out ≤ 1) :
    ∀ c ∈ stepCalls IC (inputsPerGate IC) st out w, reachesLine c = true := by
  intro c hc
  simp only [stepCalls, List.mem_append, List.mem_map, List.mem_range, List.mem_cons,
    List.mem_singleton, List.not_mem_nil, or_false] at hc
  rcases hc with ⟨j, hj, rfl⟩ | rfl | rfl
  · exact reachesLine_driveCall _ _ (hp.1 st.1 hg j hj)
  · show ((lineOf (IC.output_pins.getD st.1 0)).isSome && decide (out ≤ 1)) = true
    rw [hp.2 st.1 hg, decide_eq_true ho]
    rfl
  · rfl

theorem runAll_calls_reach (board : Board) (IC : IC_PARAMETERS_T)
    (hk1 : 1 ≤ inputsPerGate IC) (hk4 : inputsPerGate IC ≤ 4) (hp : pinsMapped IC)
    (xs : List (Nat × Lanes)) :
    ∀ (hw : HW), (∀ st ∈ xs, st ∈ steps IC.num_outputs (inputsPerGate IC)) →
    ∃ t, (runAll xs (stepBody board IC) hw).trace = hw.trace ++ t ∧
      ∀ c ∈ t, reachesLine c = true := by
  induction xs with
  | nil =>
    intro hw _
    exact ⟨[], by simp [runAll], fun c hc => absurd hc (List.not_mem_nil c)⟩
  | cons x rest ih =>
    intro hw hx
    have hmem := mem_steps (hx x (List.mem_cons_self x rest))
    obtain ⟨w, hw1⟩ := trace_stepBody board IC x hw hk1 hk4 hmem.2
    obtain ⟨t, ht, hgood⟩ := ih (stepBody board IC x hw).2
      (fun st hst => hx st (List.mem_cons_of_mem x hst))
    refine ⟨stepCalls IC (inputsPerGate IC) x (sampled board IC x hw) w ++ t, ?_, ?_⟩
    · show (runAll rest (stepBody board IC) (stepBody board IC x hw).2).trace = _
      rw [ht, hw1, List.append_assoc]
    · intro c hc
      rcases List.mem_append.1 hc with h | h
      · exact stepCalls_reach IC x _ w hp hmem.1
          (sampled_le_one board IC x hw hk1 hk4 (hp.2 x.1 hmem.1)) c h
      · exact hgood c h

theorem CheckerTestIC_calls_reach (board : Board) (IC : IC_PARAMETERS_T) (hw : HW)
    (hn : IC.num_outputs ≤ 6) (hk1 : 1 ≤ inputsPerGate IC) (hk4 : inputsPerGate IC ≤ 4)
    (hp : pinsMapped IC) :
    ∀ c ∈ newCalls hw (CheckerTestIC board IC hw).2, reachesLine c = true := by
  have key : ∀ j, ∀ c ∈ newCalls hw (stateBefore board IC hw j), reachesLine c = true := by
    intro j
    obtain ⟨t, ht, hgood⟩ := runAll_calls_reach board IC hk1 hk4 hp
      ((steps IC.num_outputs (inputsPerGate IC)).take j) hw
      (fun st hst => List.mem_of_mem_take hst)
    have : newCalls hw (stateBefore board IC hw j) = t := newCalls_eq hw _ t ht
    rw [this]
    exact hgood
  rcases CheckerTestIC_outcome board IC hw hn hk1 hk4 with ⟨h, _⟩ | ⟨i, st, _, _, _, h⟩
  · rw [h]
    exact key _
  · rw [h]
    exact key _

theorem configured_pinsMapped : ∀ IC ∈ configuredICs,
    IC.num_outputs ≤ 6 ∧ 1 ≤ inputsPerGate IC ∧ inputsPerGate IC ≤ 4 ∧ pinsMapped IC := by
  intro IC hIC
  simp only [configuredICs, List.mem_cons, List.mem_singleton, List.not_mem_nil,
    or_false] at hIC
  rcases hIC with rfl | rfl | rfl | rfl | rfl | rfl | rfl | rfl <;>
    exact ⟨by decide, by decide, by decide, by decide, by decide⟩

/-- C37: every pin number listed in the eight configured descriptors is one of the twelve
mapped IC pins (1 to 6 and 8 to 13), and every index a test uses hits a listed entry; so
during a test of a configured descriptor, on every board and from every state, every
drive is on a mapped pin (where it puts the line in output mode at the level asked, no
silent no-op) and every read is on a mapped pin and returns a sampled bit, never the
value 0xFF of an unmapped pin. -/
theorem configured_pins_are_mapped :
    (∀ IC ∈ configuredICs, ∀ p ∈ IC.input_pins ++ IC.output_pins,
      (1 ≤ p ∧ p ≤ 6 ∨ 8 ≤ p ∧ p ≤ 13) ∧ (lineOf p).isSome = true) ∧
    (∀ IC ∈ configuredICs, IC.input_pins.length = IC.num_inputs ∧
      IC.output_pins.length = IC.num_outputs ∧
      IC.num_outputs * inputsPerGate IC = IC.num_inputs ∧ pinsMapped IC) ∧
    (∀ IC ∈ configuredICs, ∀ (board : Board) (hw : HW),
      ∀ c ∈ newCalls hw (CheckerTestIC board IC hw).2, reachesLine c = true) ∧
    (∀ IC ∈ configuredICs, ∀ (board : Board) (hw : HW) (p v : Nat) (w : Bool),
      Call.read p v w ∈ newCalls hw (CheckerTestIC board IC hw).2 →
        v ≠ 0xFF ∧ (lineOf p).isSome = true) ∧
    (∀ (p : Nat) (l : Port × Nat) (hw : HW), lineOf p = some l →
      (lineMode (checkerSetICInput p hw) l = 1 ∧ lineLevel (checkerSetICInput p hw) l = 1) ∧
      (lineMode (checkerClrICInput p hw) l = 1 ∧ lineLevel (checkerClrICInput p hw) l = 0)) := by
  have hrun : ∀ IC ∈ configuredICs, ∀ (board : Board) (hw : HW),
      ∀ c ∈ newCalls hw (CheckerTestIC board IC hw).2, reachesLine c = true := by
    intro IC hIC board hw
    obtain ⟨hn, hk1, hk4, hp⟩ := configured_pinsMapped IC hIC
    exact CheckerTestIC_calls_reach board IC hw hn hk1 hk4 hp
  refine ⟨by decide, ?_, hrun, ?_, ?_⟩
  · intro IC hIC
    refine ⟨?_, ?_, ?_, (configured_pinsMapped IC hIC).2.2.2⟩ <;>
    · revert IC
      decide
  · intro IC hIC board hw p v w hc
    have := hrun IC hIC board hw _ hc
    simp only [reachesLine, Bool.and_eq_true, decide_eq_true_eq] at this
    exact ⟨by omega, this.1⟩
  · intro p l hw hl
    have h16 := (lineOf_lt p l hl).2
    rw [checkerSetICInput_eq, checkerClrICInput_eq, hl]
    exact ⟨setLine_line l.1 l.2 _ h16, clrLine_line l.1 l.2 _ h16⟩

/-- A witness of C37: in the test of the configured 74HC08 descriptor on a board carrying
a 74HC08, from the reset state, every call reaches a line. -/
theorem configured_pins_are_mapped_witness :
    ∀ c ∈ newCalls hwReset (CheckerTestIC chip74HC08 IC_74HC08_PARAM hwReset).2,
      reachesLine c = true :=
  configured_pins_are_mapped.2.2.1 IC_74HC08_PARAM (by decide) chip74HC08 hwReset

theorem verdict_of_fixedOutput (board : Board) (IC : IC_PARAMETERS_T) (hw : HW)
    (out : Nat → Lanes → Nat) (hn : IC.num_outputs ≤ 6) (hk1 : 1 ≤ inputsPerGate IC)
    (hk4 : inputsPerGate IC ≤ 4) (hfix : fixedOutput board IC hw out)
    (hpass : (CheckerTestIC board IC hw).1 = PASSED) (i : Nat) (st : Nat × Lanes)
    (hst : (steps IC.num_outputs (inputsPerGate IC))[i]? = some st) :
    checkerFailTest IC.ic_designator (out st.1 st.2) st.2.1 st.2.2.1 st.2.2.2.1 st.2.2.2.2
      = PASSED := by
  have h := (CheckerTestIC_fst_cases board IC hw hn hk1 hk4).1.1 hpass i st hst
  unfold verdict at h
  rw [hfix i st hst] at h
  exact h

theorem nand_and_disagree (x : Nat) : checkerFailTest IC_74HC00 x 0 0 1 1 = PASSED →
    checkerFailTest IC_74HC08 x 0 0 1 1 = PASSED → False := by
  by_cases hx : x = 0
  · subst hx
    intro h _
    revert h
    decide
  · intro _ h
    have : checkerFailTest IC_74HC08 x 0 0 1 1 = FAILED := by
      show (if IC_74HC08_FAIL x 0 0 then FAILED else PASSED) = FAILED
      simp [IC_74HC08_FAIL, Ne.symm hx]
    rw [this] at h
    exact absurd h (by decide)

theorem nand_xor_disagree (x : Nat) : checkerFailTest IC_74HC00 x 0 0 1 1 = PASSED →
    checkerFailTest IC_74HC86 x 0 0 1 1 = PASSED → False := by
  by_cases hx : x = 0
  · subst hx
    intro h _
    revert h
    decide
  · intro _ h
    have : checkerFailTest IC_74HC86 x 0 0 1 1 = FAILED := by
      show (if IC_74HC86_FAIL x 0 0 then FAILED else PASSED) = FAILED
      simp [IC_74HC86_FAIL, Ne.symm hx]
    rw [this] at h
    exact absurd h (by decide)

theorem and_xor_disagree (x : Nat) : checkerFailTest IC_74HC08 x 1 1 1 1 = PASSED →
    checkerFailTest IC_74HC86 x 1 1 1 1 = PASSED → False := by
  by_cases hx : x = 0
  · subst hx
    intro h _
    revert h
    decide
  · intro _ h
    have : checkerFailTest IC_74HC86 x 1 1 1 1 = FAILED := by
      show (if IC_74HC86_FAIL x 1 1 then FAILED else PASSED) = FAILED
      simp [IC_74HC86_FAIL, Ne.symm hx]
    rw [this] at h
    exact absurd h (by decide)

theorem nand3_nor3_disagree (x : Nat) : checkerFailTest IC_74HC10 x 0 0 1 1 = PASSED →
    checkerFailTest IC_74HC27 x 0 0 1 1 = PASSED → False := by
  by_cases hx : x = 0
  · subst hx
    intro h _
    revert h
    decide
  · intro _ h
    have : checkerFailTest IC_74HC27 x 0 0 1 1 = FAILED := by
      show (if IC_74HC27_FAIL x 0 0 1 then FAILED else PASSED) = FAILED
      simp [IC_74HC27_FAIL, lnot, hx]
    rw [this] at h
    exact absurd h (by decide)

theorem sampled_lowBoard (IC : IC_PARAMETERS_T) (st : Nat × Lanes) (hw : HW)
    (hk1 : 1 ≤ inputsPerGate IC) (hk4 : inputsPerGate IC ≤ 4)
    (hout : (lineOf (IC.output_pins.getD st.1 0)).isSome = true) :
    sampled lowBoard IC st hw = 0 := by
  obtain ⟨l, hl⟩ := Option.isSome_iff_exists.1 hout
  unfold sampled
  rw [applyVector_eq_drive lowBoard IC _ _ _ _ _ _ _ hw hk1 hk4,
    checkerReadICOutput_eq lowBoard _ _ l hl]
  simp [lowBoard]

theorem fixedOutput_lowBoard (IC : IC_PARAMETERS_T) (hw : HW)
    (hk1 : 1 ≤ inputsPerGate IC) (hk4 : inputsPerGate IC ≤ 4) (hp : pinsMapped IC) :
    fixedOutput lowBoard IC hw (fun _ _ => 0) := by
  intro i st hst
  have hmem : st ∈ steps IC.num_outputs (inputsPerGate IC) := List.mem_iff_getElem?.2 ⟨i, hst⟩
  exact sampled_lowBoard IC st _ hk1 hk4 (hp.2 st.1 (mem_steps hmem).1)

/-- C33: when the output sampled is a fixed function `out` of the gate index and the driven
input vector, at most one of the tests of 74HC00, 74HC08 and 74HC86 (whose descriptors
list the same pins) returns `PASSED`, and at most one of the tests of 74HC10 and 74HC27
(likewise) returns `PASSED`, whatever the states the tests start in: no two descriptors
with identical pins pass together. -/
theorem identical_pins_pass_at_most_once (board : Board) (out2 out3 : Nat → Lanes → Nat)
    (hw00 hw08 hw86 hw10 hw27 : HW)
    (h00 : fixedOutput board IC_74HC00_PARAM hw00 out2)
    (h08 : fixedOutput board IC_74HC08_PARAM hw08 out2)
    (h86 : fixedOutput board IC_74HC86_PARAM hw86 out2)
    (h10 : fixedOutput board IC_74HC10_PARAM hw10 out3)
    (h27 : fixedOutput board IC_74HC27_PARAM hw27 out3) :
    (IC_74HC00_PARAM.input_pins = IC_74HC08_PARAM.input_pins ∧
      IC_74HC08_PARAM.input_pins = IC_74HC86_PARAM.input_pins ∧
      IC_74HC00_PARAM.output_pins = IC_74HC08_PARAM.output_pins ∧
      IC_74HC08_PARAM.output_pins = IC_74HC86_PARAM.output_pins ∧
      IC_74HC10_PARAM.input_pins = IC_74HC27_PARAM.input_pins ∧
      IC_74HC10_PARAM.output_pins = IC_74HC27_PARAM.output_pins) ∧
    ¬ ((CheckerTestIC board IC_74HC00_PARAM hw00).1 = PASSED ∧
        (CheckerTestIC board IC_74HC08_PARAM hw08).1 = PASSED) ∧
    ¬ ((CheckerTestIC board IC_74HC00_PARAM hw00).1 = PASSED ∧
        (CheckerTestIC board IC_74HC86_PARAM hw86).1 = PASSED) ∧
    ¬ ((CheckerTestIC board IC_74HC08_PARAM hw08).1 = PASSED ∧
        (CheckerTestIC board IC_74HC86_PARAM hw86).1 = PASSED) ∧
    ¬ ((CheckerTestIC board IC_74HC10_PARAM hw10).1 = PASSED ∧
        (CheckerTestIC board IC_74HC27_PARAM hw27).1 = PASSED) := by
  refine ⟨⟨rfl, rfl, rfl, rfl, rfl, rfl⟩, ?_, ?_, ?_, ?_⟩
  · rintro ⟨p, q⟩
    exact nand_and_disagree (out2 0 (0, 0, 1, 1))
      (verdict_of_fixedOutput board IC_74HC00_PARAM hw00 out2 (by decide) (by decide)
        (by decide) h00 p 0 (0, (0, 0, 1, 1)) (by decide))
      (verdict_of_fixedOutput board IC_74HC08_PARAM hw08 out2 (by decide) (by decide)
        (by decide) h08 q 0 (0, (0, 0, 1, 1)) (by decide))
  · rintro ⟨p, q⟩
    exact nand_xor_disagree (out2 0 (0, 0, 1, 1))
      (verdict_of_fixedOutput board IC_74HC00_PARAM hw00 out2 (by decide) (by decide)
        (by decide) h00 p 0 (0, (0, 0, 1, 1)) (by decide))
      (verdict_of_fixedOutput board IC_74HC86_PARAM hw86 out2 (by decide) (by decide)
        (by decide) h86 q 0 (0, (0, 0, 1, 1)) (by decide))
  · rintro ⟨p, q⟩
    exact and_xor_disagree (out2 0 (1, 1, 1, 1))
      (verdict_of_fixedOutput board IC_74HC08_PARAM hw08 out2 (by decide) (by decide)
        (by decide) h08 p 3 (0, (1, 1, 1, 1)) (by decide))
      (verdict_of_fixedOutput board IC_74HC86_PARAM hw86 out2 (by decide) (by decide)
        (by decide) h86 q 3 (0, (1, 1, 1, 1)) (by decide))
  · rintro ⟨p, q⟩
    exact nand3_nor3_disagree (out3 0 (0, 0, 1, 1))
      (verdict_of_fixedOutput board IC_74HC10_PARAM hw10 out3 (by decide) (by decide)
        (by decide) h10 p 1 (0, (0, 0, 1, 1)) (by decide))
      (verdict_of_fixedOutput board IC_74HC27_PARAM hw27 out3 (by decide) (by decide)
        (by decide) h27 q 1 (0, (0, 0, 1, 1)) (by decide))

/-- A witness of C33: on a board whose lines all read low the sampled output is the
constant 0 in each of the five tests, and no two tests on identical pins pass together. -/
theorem identical_pins_pass_at_most_once_witness :
    fixedOutput lowBoard IC_74HC00_PARAM hwReset (fun _ _ => 0) ∧
    ¬ ((CheckerTestIC lowBoard IC_74HC08_PARAM hwReset).1 = PASSED ∧
        (CheckerTestIC lowBoard IC_74HC86_PARAM hwReset).1 = PASSED) ∧
    ¬ ((CheckerTestIC lowBoard IC_74HC10_PARAM hwReset).1 = PASSED ∧
        (CheckerTestIC lowBoard IC_74HC27_PARAM hwReset).1 = PASSED) :=
  have h := identical_pins_pass_at_most_once lowBoard (fun _ _ => 0) (fun _ _ => 0)
    hwReset hwReset hwReset hwReset hwReset
    (fixedOutput_lowBoard _ _ (by decide) (by decide)
      (configured_pinsMapped _ (by decide)).2.2.2)
    (fixedOutput_lowBoard _ _ (by decide) (by decide)
      (configured_pinsMapped _ (by decide)).2.2.2)
    (fixedOutput_lowBoard _ _ (by decide) (by decide)
      (configured_pinsMapped _ (by decide)).2.2.2)
    (fixedOutput_lowBoard _ _ (by decide) (by decide)
      (configured_pinsMapped _ (by decide)).2.2.2)
    (fixedOutput_lowBoard _ _ (by decide) (by decide)
      (configured_pinsMapped _ (by decide)).2.2.2)
  ⟨fixedOutput_lowBoard _ _ (by decide) (by decide)
      (configured_pinsMapped _ (by decide)).2.2.2, h.2.2.2.1, h.2.2.2.2⟩

theorem lane_congr (s : Nat) (pins pins' : List Nat) (x gs off : Nat) (hw : HW)
    (h : s ≠ TRUE → pins'.getD (gs + off) 0 = pins.getD (gs + off) 0) :
    (if s != TRUE then checkerSetClrInputs pins' x gs off hw else hw) =
      (if s != TRUE then checkerSetClrInputs pins x gs off hw else hw) := by
  by_cases hs : s = TRUE
  · simp [hs]
  · simp only [checkerSetClrInputs, h hs]

theorem applyVector_congr (board : Board) (IC IC' : IC_PARAMETERS_T) (f gs g a b c d : Nat)
    (hw : HW)
    (hin : ∀ j, j < 4 → laneSkip f j ≠ TRUE →
      IC'.input_pins.getD (gs + j) 0 = IC.input_pins.getD (gs + j) 0)
    (hout : IC'.output_pins.getD g 0 = IC.output_pins.getD g 0) :
    applyVector board IC' f gs g a b c d hw = applyVector board IC f gs g a b c d hw := by
  unfold applyVector
  dsimp only
  rw [lane_congr (INPUT_A_LOOP_SKIP f) IC.input_pins IC'.input_pins a gs 0 hw
      (hin 0 (by decide)),
    lane_congr (INPUT_B_LOOP_SKIP f) IC.input_pins IC'.input_pins b gs 1 _ (hin 1 (by decide)),
    lane_congr (INPUT_C_LOOP_SKIP f) IC.input_pins IC'.input_pins c gs 2 _ (hin 2 (by decide)),
    lane_congr (INPUT_D_LOOP_SKIP f) IC.input_pins IC'.input_pins d gs 3 _ (hin 3 (by decide)),
    hout]

theorem vectorBody_congr (board : Board) (IC IC' : IC_PARAMETERS_T) (f gs g a b c d : Nat)
    (hw : HW) (hid : IC'.ic_designator = IC.ic_designator)
    (hin : ∀ j, j < 4 → laneSkip f j ≠ TRUE →
      IC'.input_pins.getD (gs + j) 0 = IC.input_pins.getD (gs + j) 0)
    (hout : IC'.output_pins.getD g 0 = IC.output_pins.getD g 0) :
    vectorBody board IC' f gs g a b c d hw = vectorBody board IC f gs g a b c d hw := by
  unfold vectorBody
  rw [applyVector_congr board IC IC' f gs g a b c d hw hin hout, hid]

theorem forEach_congr {α σ : Type} (body body' : α → σ → Option Nat × σ) (xs : List α) :
    (∀ x ∈ xs, ∀ s, body' x s = body x s) → ∀ s, forEach xs body' s = forEach xs body s := by
  induction xs with
  | nil => intro _ s; rfl
  | cons y ys ih =>
    intro h s
    have hy := h y (List.mem_cons_self y ys) s
    have ih' := ih (fun x hx => h x (List.mem_cons_of_mem y hx))
    rcases hb : body y s with ⟨_ | r, s'⟩
    · have hb' : body' y s = (none, s') := by rw [hy, hb]
      simp only [forEach, hb, hb']
      exact ih' s'
    · have hb' : body' y s = (some r, s') := by rw [hy, hb]
      simp only [forEach, hb, hb']

theorem laneLoops_congr (board : Board) (IC IC' : IC_PARAMETERS_T) (f gs g : Nat) (hw : HW)
    (hid : IC'.ic_designator = IC.ic_designator)
    (hin : ∀ j, j < 4 → laneSkip f j ≠ TRUE →
      IC'.input_pins.getD (gs + j) 0 = IC.input_pins.getD (gs + j) 0)
    (hout : IC'.output_pins.getD g 0 = IC.output_pins.getD g 0) :
    laneLoops board IC' f gs g hw = laneLoops board IC f gs g hw := by
  rw [laneLoops_eq, laneLoops_eq]
  apply forEach_congr
  intro st hst s
  obtain ⟨v, _, rfl⟩ := List.mem_map.1 hst
  exact vectorBody_congr board IC IC' f gs g _ _ _ _ s hid hin hout

theorem used_indices_in_bounds (n m k : Nat) (hk : k = m / n) (h1 : 1 ≤ n) (h9 : m ≤ 9) :
    ∀ g j, g < n → j < 4 → laneSkip ((0xFF <<< k) % 256) j ≠ TRUE → g * k + j < 9 := by
  have hnk : n * k ≤ m := by rw [hk]; exact Nat.mul_div_le m n
  have hk9 : k ≤ 9 := by
    rw [hk]
    exact le_trans (Nat.div_le_self m n) h9
  intro g j hg hj hs
  have hgk : g * k + k ≤ n * k := by
    have : (g + 1) * k ≤ n * k := Nat.mul_le_mul_right k hg
    rwa [Nat.add_mul, Nat.one_mul] at this
  interval_cases k <;> interval_cases j <;>
    first
    | omega
    | exact absurd (by decide) hs

theorem gateLoop_congr (board : Board) (IC IC' : IC_PARAMETERS_T) (k f n : Nat)
    (hid : IC'.ic_designator = IC.ic_designator)
    (hin : ∀ g j, g < n → j < 4 → laneSkip f j ≠ TRUE →
      g * k + j < 9 ∧ IC'.input_pins.getD (g * k + j) 0 = IC.input_pins.getD (g * k + j) 0)
    (hout : ∀ g, g < n → IC'.output_pins.getD g 0 = IC.output_pins.getD g 0)
    (hnk : n * k ≤ 9) (cnt : Nat) :
    ∀ (g0 : Nat) (hw : HW), g0 + cnt ≤ n →
      gateLoop board IC' k f (List.range' g0 cnt) (g0 * k) hw =
        gateLoop board IC k f (List.range' g0 cnt) (g0 * k) hw := by
  induction cnt with
  | zero => intro g0 hw _; rfl
  | succ c ih =>
    intro g0 hw hle
    have hg0 : g0 < n := by omega
    have hl := laneLoops_congr board IC IC' f (g0 * k) g0 hw hid
      (fun j hj hs => (hin g0 j hg0 hj hs).2) (hout g0 hg0)
    have hnext : (g0 * k + k) % 256 = (g0 + 1) * k := by
      have : (g0 + 1) * k ≤ n * k := Nat.mul_le_mul_right k hg0
      rw [Nat.add_mul, Nat.one_mul] at this ⊢
      exact Nat.mod_eq_of_lt (by omega)
    rw [List.range'_succ]
    simp only [gateLoop, hl, hnext]
    rcases laneLoops board IC f (g0 * k) g0 hw with ⟨_ | r, hw'⟩
    · exact ih (g0 + 1) hw' (by omega)
    · rfl

/-- C34: for every descriptor with `1 ≤ num_outputs ≤ 6` and `num_inputs ≤ 9`, whatever the
quotient `num_inputs / num_outputs` is (zero, above 4, or with a remainder), every index
`CheckerTestIC` uses into `input_pins` is below 9 and every index it uses into
`output_pins` is below 6: the index `g * k + j` of every lane that is not skipped, for
every gate `g`, is below 9, and the run (verdict, registers and call log) is the same for
every descriptor that agrees on `input_pins[0..8]` and `output_pins[0..5]`, so nothing
beyond the arrays is ever looked at. -/
theorem pin_indices_within_arrays (IC : IC_PARAMETERS_T) (h1 : 1 ≤ IC.num_outputs)
    (h6 : IC.num_outputs ≤ 6) (h9 : IC.num_inputs ≤ 9) :
    (∀ g j, g < IC.num_outputs → j < 4 →
      laneSkip ((0xFF <<< inputsPerGate IC) % 256) j ≠ TRUE →
        g * inputsPerGate IC + j < 9 ∧ (g * inputsPerGate IC) % 256 = g * inputsPerGate IC) ∧
    (∀ g, g < IC.num_outputs → g < 6) ∧
    (∀ (board : Board) (IC' : IC_PARAMETERS_T) (hw : HW), agreeInBounds IC IC' →
      CheckerTestIC board IC' hw = CheckerTestIC board IC hw) := by
  have hidx := used_indices_in_bounds IC.num_outputs IC.num_inputs (inputsPerGate IC) rfl h1 h9
  have hnk : IC.num_outputs * inputsPerGate IC ≤ 9 :=
    le_trans (Nat.mul_div_le IC.num_inputs IC.num_outputs) h9
  refine ⟨fun g j hg hj hs => ⟨hidx g j hg hj hs, ?_⟩, fun g hg => by omega, ?_⟩
  · have : g * inputsPerGate IC ≤ IC.num_outputs * inputsPerGate IC :=
      Nat.mul_le_mul_right _ (Nat.le_of_lt hg)
    exact Nat.mod_eq_of_lt (by omega)
  · rintro board IC' hw ⟨hid, hm, hn, hin, hout⟩
    unfold CheckerTestIC
    simp only [hm, hn]
    have h := gateLoop_congr board IC IC' (IC.num_inputs / IC.num_outputs)
      ((0xFF <<< (IC.num_inputs / IC.num_outputs)) % 256) IC.num_outputs hid
      (fun g j hg hj hs => ⟨hidx g j hg hj hs, hin _ (hidx g j hg hj hs)⟩)
      (fun g hg => hout g (by omega)) hnk IC.num_outputs 0 hw (by omega)
    rw [Nat.zero_mul] at h
    exact h

/-- A witness of C34: the 74HC08 descriptor, and the same descriptor with a tenth input
pin and a seventh output pin, run alike. -/
theorem pin_indices_within_arrays_witness :
    CheckerTestIC chip74HC08 beyondArrays hwReset =
      CheckerTestIC chip74HC08 IC_74HC08_PARAM hwReset :=
  (pin_indices_within_arrays IC_74HC08_PARAM (by decide) (by decide) (by decide)).2.2
    chip74HC08 beyondArrays hwReset ⟨rfl, rfl, rfl, by decide, by decide⟩


end ICChecker
